import Mathlib

/-! The ivy render module: bindless tables, content load and unload, work-graph dispatch.

A shallow embedding of `IvyRenderModule::AddTexture`, `RemoveTexture`,
`OnNewContentLoaded`, `OnContentUnloaded`, `Init`, `InitWorkGraphProgram` and `Execute`
(src/ivySample/ivyrendermodule.cpp) together with the members of the module and of
`RTInfoTables` (src/ivySample/ivyrendermodule.h) and the records of
src/ivySample/shaders/ivycommon.h they touch.

Conventions of the embedding:
* a pointer is the address it holds, a natural number, and `nullptr` is 0;
* `std::vector` is `List`; `v[i]` outside the vector is undefined behaviour in
  the source and is `none` here;
* `uint32_t` arithmetic is arithmetic on `Nat` reduced modulo 2^32;
* `int32_t` indices are `Int`; table lengths are taken to fit the index type, so a cast of
  a vector length to a 32-bit integer keeps its value, and the instance table, sized by
  `GetMeshIndex() + 1`, is taken to fit as well (the sum does not wrap);
* `float` members play no part in any index computation and are left out of the records;
  matrices of the entry records are kept as the expressions that build them;
* what the framework and the D3D12 runtime report to a call (feature tier, memory
  requirement, entry-point indices, contents of an uninitialized local) is an argument of
  the embedded function.
-/

namespace IvyRenderModule

/-- Address of a `cauldron::Texture`; the null pointer is 0. -/
abbrev TexturePtr := Nat

/-- The null pointer. -/
def nullptr : TexturePtr := 0

/-- A `cauldron::SamplerDesc` value; the source only compares descriptors with `==`. -/
abbrev SamplerDesc := Nat

/-- Number of values of a `uint32_t`. -/
def UINT32_RANGE : Nat := 4294967296

/-- `RTInfoTables::BoundTexture`: a texture pointer with its `uint32_t` reference count. -/
structure BoundTexture where
  pTexture : TexturePtr := nullptr
  count : Nat := 1
  deriving DecidableEq

/-- `cauldron::TextureInfo`, restricted to the two members `AddTexture` reads. -/
structure TextureInfo where
  pTexture : TexturePtr
  TexSamplerDesc : SamplerDesc
  deriving DecidableEq

/-- `cauldron::TextureClass`. -/
inductive TextureClass where
  | Albedo
  | Normal
  | Emissive
  | Occlusion
  | MetalRough
  | SpecGloss
  deriving DecidableEq

/-- `cauldron::MaterialBlend`. -/
inductive MaterialBlend where
  | Opaque
  | Mask
  | AlphaBlend
  deriving DecidableEq

/-- `cauldron::Material`, as seen by `AddTexture`: `GetTextureInfo` returns a pointer that is
null (`none`) when the material has no texture of the class. `addr` is the address of the
object, by which content blocks and surfaces refer to it. -/
structure Material where
  GetTextureInfo : TextureClass → Option TextureInfo
  addr : Nat := 0
  HasPBRInfo : Bool := false
  HasPBRMetalRough : Bool := false
  HasPBRSpecGloss : Bool := false
  GetBlendMode : MaterialBlend := MaterialBlend.Opaque

/-- `cauldron::Sampler`, as seen by `AddTexture`: an object answering `GetDesc()`. -/
structure Sampler where
  GetDesc : SamplerDesc
  deriving DecidableEq

/-- `Sampler::CreateSampler(name, desc)`: a sampler whose descriptor is `desc`. -/
def CreateSampler (desc : SamplerDesc) : Sampler := { GetDesc := desc }

/-- Address of a `cauldron::Buffer`; the null pointer is 0. -/
abbrev BufferPtr := Nat

/-- `Material_Info` (shaders/ivycommon.h), its `int` members. -/
structure Material_Info where
  arm_tex_id : Int
  arm_tex_sampler_id : Int
  emission_tex_id : Int
  emission_tex_sampler_id : Int
  normal_tex_id : Int
  normal_tex_sampler_id : Int
  albedo_tex_id : Int
  albedo_tex_sampler_id : Int
  is_opaque : Int
  deriving DecidableEq

/-- `Instance_Info` (shaders/ivycommon.h). -/
structure Instance_Info where
  surface_id_table_offset : Int
  num_opaque_surfaces : Int
  node_id : Int
  num_surfaces : Int
  deriving DecidableEq

/-- `Surface_Info` (shaders/ivycommon.h). -/
structure Surface_Info where
  material_id : Int
  index_offset : Int
  index_type : Int
  position_attribute_offset : Int
  texcoord0_attribute_offset : Int
  texcoord1_attribute_offset : Int
  normal_attribute_offset : Int
  tangent_attribute_offset : Int
  num_indices : Int
  num_vertices : Int
  weight_attribute_offset : Int
  joints_attribute_offset : Int
  deriving DecidableEq

/-- `RTInfoTables`: the bindless tables and the flattened CPU-side records. -/
structure RTInfoTables where
  m_VertexBuffers : List BufferPtr := []
  m_IndexBuffers : List BufferPtr := []
  m_Textures : List BoundTexture := []
  m_Samplers : List Sampler := []
  m_cpuMaterialBuffer : List Material_Info := []
  m_cpuInstanceBuffer : List Instance_Info := []
  m_cpuSurfaceBuffer : List Surface_Info := []
  m_cpuSurfaceIDsBuffer : List Nat := []
  deriving DecidableEq

/-- The sampler search of `AddTexture`:
`for (idx = 0; idx < m_Samplers.size(); ++idx) if (m_Samplers[idx]->GetDesc() == desc) break;`
run on the samplers from position `textureSamplerIndex` on; the result is the final value of
the loop variable. -/
def samplerLoop (desc : SamplerDesc) : List Sampler → Nat → Nat
  | [], textureSamplerIndex => textureSamplerIndex
  | s :: rest, textureSamplerIndex =>
    if s.GetDesc = desc then textureSamplerIndex
    else samplerLoop desc rest (textureSamplerIndex + 1)

/-- How the slot search of `AddTexture` ends: at the early `return i` of an already mapped
texture, or by running off the table with the final value of `firstFreeIndex`. -/
inductive SlotSearch where
  | mapped (i : Nat)
  | notMapped (firstFreeIndex : Int)
  deriving DecidableEq

/-- The slot search of `AddTexture`, run on the entries from position `i` on with the current
value of `firstFreeIndex`. -/
def textureLoop (pTexture : TexturePtr) : List BoundTexture → Nat → Int → SlotSearch
  | [], _, firstFreeIndex => SlotSearch.notMapped firstFreeIndex
  | boundTexture :: rest, i, firstFreeIndex =>
    if pTexture = boundTexture.pTexture then SlotSearch.mapped i
    else if firstFreeIndex < 0 ∧ boundTexture.count = 0 then
      textureLoop pTexture rest (i + 1) (i : Int)
    else textureLoop pTexture rest (i + 1) firstFreeIndex

/-- What a call of `AddTexture` leaves behind: the returned index, the value of the
reference parameter `textureSamplerIndex`, and the tables. -/
structure AddTextureResult where
  ret : Int
  textureSamplerIndex : Int
  tables : RTInfoTables
  deriving DecidableEq

/-- `boundTexture.count += 1` on a `uint32_t`. -/
def bumpCount (boundTexture : BoundTexture) : BoundTexture :=
  { boundTexture with count := (boundTexture.count + 1) % UINT32_RANGE }

/-- `IvyRenderModule::AddTexture`. The argument `textureSamplerIndex` is the value the
reference parameter holds on entry. -/
def AddTexture (t : RTInfoTables) (pMaterial : Material) (textureClass : TextureClass)
    (textureSamplerIndex : Int) : AddTextureResult :=
  match pMaterial.GetTextureInfo textureClass with
  | none => { ret := -1, textureSamplerIndex := textureSamplerIndex, tables := t }
  | some pTextureInfo =>
    let samplerIndex := samplerLoop pTextureInfo.TexSamplerDesc t.m_Samplers 0
    let samplers :=
      if samplerIndex = t.m_Samplers.length then
        t.m_Samplers ++ [CreateSampler pTextureInfo.TexSamplerDesc]
      else t.m_Samplers
    match textureLoop pTextureInfo.pTexture t.m_Textures 0 (-1) with
    | SlotSearch.mapped i =>
      { ret := i, textureSamplerIndex := samplerIndex,
        tables := { t with m_Samplers := samplers,
                           m_Textures := List.modify bumpCount i t.m_Textures } }
    | SlotSearch.notMapped firstFreeIndex =>
      let b : BoundTexture := { pTexture := pTextureInfo.pTexture, count := 1 }
      if firstFreeIndex < 0 then
        { ret := t.m_Textures.length, textureSamplerIndex := samplerIndex,
          tables := { t with m_Samplers := samplers, m_Textures := t.m_Textures ++ [b] } }
      else
        { ret := firstFreeIndex, textureSamplerIndex := samplerIndex,
          tables := { t with m_Samplers := samplers,
                             m_Textures := t.m_Textures.set firstFreeIndex.toNat b } }

/-- The body of `RemoveTexture` on the addressed entry: `count -= 1` on a `uint32_t`, then
`pTexture = nullptr` when the count has become 0. -/
def releaseRef (boundTexture : BoundTexture) : BoundTexture :=
  let count := (boundTexture.count + UINT32_RANGE - 1) % UINT32_RANGE
  if count = 0 then { pTexture := nullptr, count := count }
  else { boundTexture with count := count }

/-- `IvyRenderModule::RemoveTexture`. An index past the end of the table is undefined
behaviour in the source and gives `none`. -/
def RemoveTexture (t : RTInfoTables) (index : Int) : Option RTInfoTables :=
  if 0 ≤ index then
    match t.m_Textures[index.toNat]? with
    | none => none
    | some boundTexture =>
      some { t with m_Textures := t.m_Textures.set index.toNat (releaseRef boundTexture) }
  else some t

/-- `RemoveTexture(index)` applied `n` times in a row. -/
def RemoveTextureTimes (t : RTInfoTables) (index : Int) : Nat → Option RTInfoTables
  | 0 => some t
  | n + 1 => (RemoveTextureTimes t index n).bind (fun t' => RemoveTexture t' index)

/-- One call on the texture table: `AddTexture` (with the value its reference parameter holds
on entry) or `RemoveTexture`. -/
inductive TableOp where
  | add (pMaterial : Material) (textureClass : TextureClass) (textureSamplerIndex : Int)
  | remove (index : Int)

/-- The tables after one call. -/
def applyOp (t : RTInfoTables) : TableOp → Option RTInfoTables
  | TableOp.add pMaterial textureClass textureSamplerIndex =>
    some (AddTexture t pMaterial textureClass textureSamplerIndex).tables
  | TableOp.remove index => RemoveTexture t index

/-- The tables after a sequence of calls, made one after the other. -/
def applyOps (t : RTInfoTables) : List TableOp → Option RTInfoTables
  | [] => some t
  | op :: ops => (applyOp t op).bind (fun t' => applyOps t' ops)

/-- The call is an `AddTexture` that does not resolve texture `T` (its material has no
texture of the class, or another one), or a `RemoveTexture(j)` with `j` other than `i`. -/
def TableOp.Avoids (T : TexturePtr) (i : Nat) : TableOp → Prop
  | TableOp.add pMaterial textureClass _ =>
    ∀ info, pMaterial.GetTextureInfo textureClass = some info → info.pTexture ≠ T
  | TableOp.remove index => index ≠ (i : Int)

/-- A material whose only texture is an albedo texture at address `pTexture`, sampled with
descriptor `desc`. -/
def albedoOnly (pTexture : TexturePtr) (desc : SamplerDesc) : Material :=
  { GetTextureInfo := fun textureClass =>
      match textureClass with
      | TextureClass.Albedo => some { pTexture := pTexture, TexSamplerDesc := desc }
      | _ => none }

/-! ## Scene content handed to the content listener -/

/-- `cauldron::ResourceFormat`: the two index formats the module accepts, and any other
format, kept by its enumerator value. -/
inductive ResourceFormat where
  | R16_UINT
  | R32_UINT
  | other (value : Nat)
  deriving DecidableEq

/-- `cauldron::VertexAttributeType`, in enumerator order (`Count` is the number of values). -/
inductive VertexAttributeType where
  | Position
  | Normal
  | Tangent
  | Texcoord0
  | Texcoord1
  | Color0
  | Color1
  | Weights0
  | Weights1
  | Joints0
  | Joints1
  deriving DecidableEq

/-- `static_cast<uint32_t>(attribute)`; `attr` stands for the loop variable `attribute`. -/
def VertexAttributeType.toNat : VertexAttributeType → Nat
  | Position => 0
  | Normal => 1
  | Tangent => 2
  | Texcoord0 => 3
  | Texcoord1 => 4
  | Color0 => 5
  | Color1 => 6
  | Weights0 => 7
  | Weights1 => 8
  | Joints0 => 9
  | Joints1 => 10

/-- The values `attribute = 0 .. Count - 1` of the attribute loop, in order. -/
def VertexAttributeType.all : List VertexAttributeType :=
  [Position, Normal, Tangent, Texcoord0, Texcoord1, Color0, Color1, Weights0, Weights1,
   Joints0, Joints1]

/-- `VertexAttributeFlag_Position | Normal | Tangent | Texcoord0 | Texcoord1`, each flag being
`0x1 << attribute`. -/
def usedAttributesMask : Nat := 31

/-- `cauldron::IndexBufferInformation`. -/
structure IndexBufferInformation where
  pBuffer : BufferPtr
  IndexFormat : ResourceFormat
  Count : Nat

/-- `cauldron::VertexBufferInformation`. -/
structure VertexBufferInformation where
  pBuffer : BufferPtr
  Count : Nat

/-- `cauldron::Surface`, as read by the content listener; `GetMaterial` is the address of
the surface's material. -/
structure Surface where
  GetIndexBuffer : IndexBufferInformation
  GetVertexBuffer : VertexAttributeType → VertexBufferInformation
  GetVertexAttributes : Nat
  GetMaterial : Nat
  HasTranslucency : Bool

/-- `cauldron::Mesh`, through the layout `MeshData` the listener reads it with. -/
structure Mesh where
  m_Index : Nat
  m_Name : String
  m_Surfaces : List Surface

/-- `pMesh->GetMeshIndex()`. -/
def Mesh.GetMeshIndex (pMesh : Mesh) : Nat := pMesh.m_Index

/-- `pMesh->GetNumSurfaces()`. -/
def Mesh.GetNumSurfaces (pMesh : Mesh) : Nat := pMesh.m_Surfaces.length

/-- A component of an entity: a mesh component (its manager is the mesh component manager),
with the mesh it points to, or a component of another manager. -/
inductive Component where
  | meshComponent (pMesh : Mesh)
  | otherComponent

/-- `cauldron::EntityDataBlock`. -/
structure EntityDataBlock where
  Components : List Component

/-- `cauldron::ContentBlock`. -/
structure ContentBlock where
  Materials : List Material := []
  EntityDataBlocks : List EntityDataBlock := []

/-- The meshes of the mesh components met by the two nested loops over the entity data
blocks and their components, in the order the loops meet them. -/
def ContentBlock.meshComponents (pContentBlock : ContentBlock) : List Mesh :=
  pContentBlock.EntityDataBlocks.flatMap (fun pEntityData =>
    pEntityData.Components.filterMap (fun pComponent =>
      match pComponent with
      | Component.meshComponent pMesh => some pMesh
      | Component.otherComponent => none))

/-! ## Constants of shaders/ivycommon.h -/

def MAX_TEXTURES_COUNT : Nat := 1000
def MAX_SAMPLERS_COUNT : Nat := 20
def RAYTRACING_INFO_BEGIN_SLOT : Nat := 20
def TEXTURE_BEGIN_SLOT : Nat := 50
def SAMPLER_BEGIN_SLOT : Nat := 10
def INDEX_BUFFER_BEGIN_SLOT : Nat := 1050
def VERTEX_BUFFER_BEGIN_SLOT : Nat := 21050
def MAX_BUFFER_COUNT : Nat := 20000
def SURFACE_INFO_INDEX_TYPE_U32 : Int := 0
def SURFACE_INFO_INDEX_TYPE_U16 : Int := 1

/-! ## Building the flattened tables: `OnNewContentLoaded` -/

/-- Conversion of a `uint32_t` value to `int`. -/
def int32_of_uint32 (n : Nat) : Int :=
  if n % UINT32_RANGE < 2147483648 then ((n % UINT32_RANGE : Nat) : Int)
  else ((n % UINT32_RANGE : Nat) : Int) - 4294967296

/-- What the locals `Material_Info materialInfo;` and `int32_t samplerIndex;`, declared
without initializer, hold when an iteration of the material loop starts. -/
structure Uninitialized where
  materialInfo : Material_Info
  samplerIndex : Int

/-- The locals of one iteration of the material loop. -/
structure MaterialBuild where
  materialInfo : Material_Info
  samplerIndex : Int
  tables : RTInfoTables

/-- The `if (pMat->HasPBRInfo())` block of the material loop. -/
def addPBRTextures (b : MaterialBuild) (pMat : Material) : MaterialBuild :=
  if pMat.HasPBRInfo then
    let albedo := AddTexture b.tables pMat TextureClass.Albedo b.samplerIndex
    let materialInfo : Material_Info :=
      { b.materialInfo with
        albedo_tex_id := albedo.ret, albedo_tex_sampler_id := albedo.textureSamplerIndex }
    if pMat.HasPBRMetalRough then
      let arm := AddTexture albedo.tables pMat TextureClass.MetalRough albedo.textureSamplerIndex
      { materialInfo :=
          { materialInfo with
            arm_tex_id := arm.ret, arm_tex_sampler_id := arm.textureSamplerIndex },
        samplerIndex := arm.textureSamplerIndex, tables := arm.tables }
    else if pMat.HasPBRSpecGloss then
      let arm := AddTexture albedo.tables pMat TextureClass.SpecGloss albedo.textureSamplerIndex
      { materialInfo :=
          { materialInfo with
            arm_tex_id := arm.ret, arm_tex_sampler_id := arm.textureSamplerIndex },
        samplerIndex := arm.textureSamplerIndex, tables := arm.tables }
    else
      { materialInfo := materialInfo, samplerIndex := albedo.textureSamplerIndex,
        tables := albedo.tables }
  else b

/-- The two unconditional calls that end an iteration of the material loop: normal texture,
then emissive texture. -/
def addNormalEmissiveTextures (b : MaterialBuild) (pMat : Material) : MaterialBuild :=
  let normal := AddTexture b.tables pMat TextureClass.Normal b.samplerIndex
  let emission := AddTexture normal.tables pMat TextureClass.Emissive normal.textureSamplerIndex
  { materialInfo :=
      { b.materialInfo with
        normal_tex_id := normal.ret, normal_tex_sampler_id := normal.textureSamplerIndex,
        emission_tex_id := emission.ret,
        emission_tex_sampler_id := emission.textureSamplerIndex },
    samplerIndex := emission.textureSamplerIndex, tables := emission.tables }

/-- The body of the material loop up to the `push_back`: the `Material_Info` built for
`pMat`, and the tables after the `AddTexture` calls. -/
def buildMaterialInfo (t : RTInfoTables) (pMat : Material) (uninit : Uninitialized) :
    MaterialBuild :=
  let start : MaterialBuild :=
    { materialInfo :=
        { uninit.materialInfo with
          is_opaque := if pMat.GetBlendMode = MaterialBlend.Opaque then 1 else 0 },
      samplerIndex := uninit.samplerIndex, tables := t }
  addNormalEmissiveTextures (addPBRTextures start pMat) pMat

/-- The material loop, from the `k`-th material of the block on; `uninit k` is what the
uninitialized locals hold in the iteration of the `k`-th material. -/
def materialLoop (uninit : Nat → Uninitialized) : List Material → Nat → RTInfoTables →
    RTInfoTables
  | [], _, t => t
  | pMat :: rest, k, t =>
    let b := buildMaterialInfo t pMat (uninit k)
    materialLoop uninit rest (k + 1)
      { b.tables with
        m_cpuMaterialBuffer := b.tables.m_cpuMaterialBuffer ++ [b.materialInfo] }

/-- The search loop over a buffer table (written out twice in the source, for index and for
vertex buffers): the final value of `foundIndex`, searching from position `i` on. -/
def bufferLoop (pBuffer : BufferPtr) : List BufferPtr → Nat → Int
  | [], _ => -1
  | b :: rest, i => if b = pBuffer then (i : Int) else bufferLoop pBuffer rest (i + 1)

/-- A `Surface_Info` after `memset(&surface_info, -1, sizeof(surface_info))`. -/
def Surface_Info.memsetMinusOne : Surface_Info :=
  { material_id := -1, index_offset := -1, index_type := -1, position_attribute_offset := -1,
    texcoord0_attribute_offset := -1, texcoord1_attribute_offset := -1,
    normal_attribute_offset := -1, tangent_attribute_offset := -1, num_indices := -1,
    num_vertices := -1, weight_attribute_offset := -1, joints_attribute_offset := -1 }

/-- The `switch` of the attribute loop: stores the offset in the member of the
attribute. -/
def setAttributeOffset (surface_info : Surface_Info) (attr : VertexAttributeType)
    (offset : Int) : Surface_Info :=
  match attr with
  | VertexAttributeType.Position => { surface_info with position_attribute_offset := offset }
  | VertexAttributeType.Normal => { surface_info with normal_attribute_offset := offset }
  | VertexAttributeType.Tangent => { surface_info with tangent_attribute_offset := offset }
  | VertexAttributeType.Texcoord0 => { surface_info with texcoord0_attribute_offset := offset }
  | VertexAttributeType.Texcoord1 => { surface_info with texcoord1_attribute_offset := offset }
  | _ => surface_info

/-- The attribute loop of a surface, over the attributes still to visit: the vertex-buffer
table and the `Surface_Info` it leaves. -/
def attributeLoop (pSurface : Surface) (usedAttributes : Nat) :
    List VertexAttributeType → List BufferPtr → Surface_Info → List BufferPtr × Surface_Info
  | [], m_VertexBuffers, surface_info => (m_VertexBuffers, surface_info)
  | attr :: rest, m_VertexBuffers, surface_info =>
    if usedAttributes &&& (1 <<< attr.toNat) ≠ 0 then
      let pBuffer := (pSurface.GetVertexBuffer attr).pBuffer
      let foundIndex := bufferLoop pBuffer m_VertexBuffers 0
      let pushed := if foundIndex < 0 then m_VertexBuffers ++ [pBuffer] else m_VertexBuffers
      let offset := if 0 ≤ foundIndex then foundIndex else (pushed.length : Int) - 1
      attributeLoop pSurface usedAttributes rest pushed
        (setAttributeOffset surface_info attr offset)
    else attributeLoop pSurface usedAttributes rest m_VertexBuffers surface_info

/-- The material search of a surface: the value of `material_id` after the loop over the
materials of the block from position `i` on, `material_id` being its value before. -/
def materialIdLoop (pMaterial : Nat) (materialIdOffset : Nat) :
    List Material → Nat → Int → Int
  | [], _, material_id => material_id
  | pMat :: rest, i, material_id =>
    if pMat.addr = pMaterial then ((i + materialIdOffset : Nat) : Int)
    else materialIdLoop pMaterial materialIdOffset rest (i + 1) material_id

/-- Modelled from the spec: `CauldronError(...)`, a macro of the framework that is not part
of the sources, reports a content error and returns ("reported as a recoverable content
error"), so that the load goes on. The errors a load can report. -/
inductive ContentError where
  | unsupportedIndexFormat
  deriving DecidableEq

/-- The state of the surface loop of one mesh. -/
structure SurfaceLoopState where
  tables : RTInfoTables
  numOpaqueSurfaces : Nat
  errors : List ContentError

/-- One iteration of the surface loop. -/
def processSurface (Materials : List Material) (materialIdOffset : Nat)
    (st : SurfaceLoopState) (pSurface : Surface) : SurfaceLoopState :=
  let t := st.tables
  let m_cpuSurfaceIDsBuffer := t.m_cpuSurfaceIDsBuffer ++ [t.m_cpuSurfaceBuffer.length]
  let surface_info : Surface_Info :=
    { Surface_Info.memsetMinusOne with
      num_indices := int32_of_uint32 pSurface.GetIndexBuffer.Count,
      num_vertices :=
        int32_of_uint32 (pSurface.GetVertexBuffer VertexAttributeType.Position).Count }
  let foundIndex := bufferLoop pSurface.GetIndexBuffer.pBuffer t.m_IndexBuffers 0
  let surface_info : Surface_Info :=
    { surface_info with
      index_offset := if 0 ≤ foundIndex then foundIndex else (t.m_IndexBuffers.length : Int) }
  let m_IndexBuffers :=
    if foundIndex < 0 then t.m_IndexBuffers ++ [pSurface.GetIndexBuffer.pBuffer]
    else t.m_IndexBuffers
  let formatted : Surface_Info × List ContentError :=
    match pSurface.GetIndexBuffer.IndexFormat with
    | ResourceFormat.R16_UINT =>
      ({ surface_info with index_type := SURFACE_INFO_INDEX_TYPE_U16 }, st.errors)
    | ResourceFormat.R32_UINT =>
      ({ surface_info with index_type := SURFACE_INFO_INDEX_TYPE_U32 }, st.errors)
    | ResourceFormat.other _ =>
      (surface_info, st.errors ++ [ContentError.unsupportedIndexFormat])
  let usedAttributes := usedAttributesMask &&& pSurface.GetVertexAttributes
  let attributes :=
    attributeLoop pSurface usedAttributes VertexAttributeType.all t.m_VertexBuffers formatted.1
  let surface_info : Surface_Info :=
    { attributes.2 with
      material_id :=
        materialIdLoop pSurface.GetMaterial materialIdOffset Materials 0
          attributes.2.material_id }
  { tables :=
      { t with
        m_cpuSurfaceIDsBuffer := m_cpuSurfaceIDsBuffer,
        m_IndexBuffers := m_IndexBuffers,
        m_VertexBuffers := attributes.1,
        m_cpuSurfaceBuffer := t.m_cpuSurfaceBuffer ++ [surface_info] },
    numOpaqueSurfaces :=
      if pSurface.HasTranslucency then st.numOpaqueSurfaces else st.numOpaqueSurfaces + 1,
    errors := formatted.2 }

/-- The surface loop of one mesh. -/
def surfaceLoop (Materials : List Material) (materialIdOffset : Nat)
    (st : SurfaceLoopState) (m_Surfaces : List Surface) : SurfaceLoopState :=
  m_Surfaces.foldl (processSurface Materials materialIdOffset) st

/-- The name by which the stem mesh is recognized. -/
def ivyStemName : String := "..\\media\\Ivy\\Stem"

/-- The name by which the leaf mesh is recognized. -/
def ivyLeafName : String := "..\\media\\Ivy\\Leaf"

/-- The members and locals the mesh loop works on. -/
structure MeshLoopState where
  tables : RTInfoTables
  m_ivyStemSurfaceIndex : Int
  m_ivyLeafSurfaceIndex : Int
  meshIdxToMesh : List Nat
  errors : List ContentError

/-- A value-initialized `Instance_Info`. -/
def Instance_Info.zero : Instance_Info :=
  { surface_id_table_offset := 0, num_opaque_surfaces := 0, node_id := 0, num_surfaces := 0 }

/-- `m_cpuInstanceBuffer.resize(index + 1)` when the buffer is not longer than `index`, then
`m_cpuInstanceBuffer[index] = instance_info`. -/
def storeInstance (m_cpuInstanceBuffer : List Instance_Info) (index : Nat)
    (instance_info : Instance_Info) : List Instance_Info :=
  let resized :=
    if m_cpuInstanceBuffer.length ≤ index then
      m_cpuInstanceBuffer ++
        List.replicate (index + 1 - m_cpuInstanceBuffer.length) Instance_Info.zero
    else m_cpuInstanceBuffer
  resized.set index instance_info

/-- The body of the mesh loop for one mesh component. -/
def processMesh (Materials : List Material) (materialIdOffset : Nat)
    (st : MeshLoopState) (pMesh : Mesh) : MeshLoopState :=
  if pMesh.GetMeshIndex ∈ st.meshIdxToMesh then st
  else
    let surface_id_table_offset : Int := (st.tables.m_cpuSurfaceIDsBuffer.length : Int)
    let numSurfaces := pMesh.GetNumSurfaces
    let stem : Int :=
      if pMesh.m_Name = ivyStemName then (st.tables.m_cpuSurfaceBuffer.length : Int)
      else st.m_ivyStemSurfaceIndex
    let leaf : Int :=
      if pMesh.m_Name = ivyLeafName then (st.tables.m_cpuSurfaceBuffer.length : Int)
      else st.m_ivyLeafSurfaceIndex
    let surfaces :=
      surfaceLoop Materials materialIdOffset
        { tables := st.tables, numOpaqueSurfaces := 0, errors := st.errors } pMesh.m_Surfaces
    let instance_info : Instance_Info :=
      { surface_id_table_offset := surface_id_table_offset,
        num_surfaces := (surfaces.numOpaqueSurfaces : Int),
        num_opaque_surfaces := (numSurfaces : Int),
        node_id := int32_of_uint32 pMesh.GetMeshIndex }
    { tables :=
        { surfaces.tables with
          m_cpuInstanceBuffer :=
            storeInstance surfaces.tables.m_cpuInstanceBuffer pMesh.GetMeshIndex instance_info },
      m_ivyStemSurfaceIndex := stem,
      m_ivyLeafSurfaceIndex := leaf,
      meshIdxToMesh := pMesh.GetMeshIndex :: st.meshIdxToMesh,
      errors := surfaces.errors }

/-- The mesh loop over the mesh components of the block. -/
def meshLoop (Materials : List Material) (materialIdOffset : Nat)
    (st : MeshLoopState) (meshes : List Mesh) : MeshLoopState :=
  meshes.foldl (processMesh Materials materialIdOffset) st

/-- The four flattened GPU buffers created by the upload step. -/
inductive InfoBuffer where
  | m_pMaterialBuffer
  | m_pInstanceBuffer
  | m_pSurfaceIDsBuffer
  | m_pSurfaceBuffer
  deriving DecidableEq

/-- A call on the parameter set of the work graph. -/
inductive Binding where
  | SetInfoBufferSRV (buffer : InfoBuffer) (slot : Nat)
  | SetBufferSRV (pBuffer : BufferPtr) (slot : Nat)
  | SetTextureSRV (pTexture : TexturePtr) (slot : Nat)
  | SetSampler (pSampler : Sampler) (slot : Nat)
  deriving DecidableEq

/-- A failed `CauldronAssert(ASSERT_CRITICAL, ...)` of the bind step. -/
inductive CapacityAssert where
  | tooManyTextures
  | tooManySamplers
  | tooManyIndexBuffers
  | tooManyVertexBuffers
  deriving DecidableEq

/-- The upload step: the four info buffers are bound when the surface table is not empty. -/
def uploadBindings (t : RTInfoTables) : List Binding :=
  if 0 < t.m_cpuSurfaceBuffer.length then
    [Binding.SetInfoBufferSRV InfoBuffer.m_pMaterialBuffer RAYTRACING_INFO_BEGIN_SLOT,
     Binding.SetInfoBufferSRV InfoBuffer.m_pInstanceBuffer (RAYTRACING_INFO_BEGIN_SLOT + 1),
     Binding.SetInfoBufferSRV InfoBuffer.m_pSurfaceIDsBuffer (RAYTRACING_INFO_BEGIN_SLOT + 2),
     Binding.SetInfoBufferSRV InfoBuffer.m_pSurfaceBuffer (RAYTRACING_INFO_BEGIN_SLOT + 3)]
  else []

/-- A binding loop `for (i = 0; i < table.size(); ++i) Set...(table[i], i + beginSlot)`, from
position `i` on. -/
def bindLoop {α : Type} (bind : α → Nat → Binding) (beginSlot : Nat) : List α → Nat →
    List Binding
  | [], _ => []
  | x :: rest, i => bind x (i + beginSlot) :: bindLoop bind beginSlot rest (i + 1)

/-- Modelled from the spec: `CauldronAssert(ASSERT_CRITICAL, condition, ...)`, a macro of the
framework that is not part of the sources: a failed critical assertion is reported and ends
the call ("hard ceilings enforced by assertion at bind time"). The bind step checks the four
capacities in the order textures, samplers, index buffers, vertex buffers, each before the
binding loop of its table; the result is the bindings made and the assertion that failed,
if one did. -/
def bindTables (t : RTInfoTables) : List Binding × Option CapacityAssert :=
  if ¬ t.m_Textures.length ≤ MAX_TEXTURES_COUNT then
    ([], some CapacityAssert.tooManyTextures)
  else
    let textures :=
      bindLoop (fun b slot => Binding.SetTextureSRV b.pTexture slot) TEXTURE_BEGIN_SLOT
        t.m_Textures 0
    if ¬ t.m_Samplers.length ≤ MAX_SAMPLERS_COUNT then
      (textures, some CapacityAssert.tooManySamplers)
    else
      let samplers := bindLoop Binding.SetSampler SAMPLER_BEGIN_SLOT t.m_Samplers 0
      if ¬ t.m_IndexBuffers.length ≤ MAX_BUFFER_COUNT then
        (textures ++ samplers, some CapacityAssert.tooManyIndexBuffers)
      else
        let indexBuffers :=
          bindLoop Binding.SetBufferSRV INDEX_BUFFER_BEGIN_SLOT t.m_IndexBuffers 0
        if ¬ t.m_VertexBuffers.length ≤ MAX_BUFFER_COUNT then
          (textures ++ samplers ++ indexBuffers, some CapacityAssert.tooManyVertexBuffers)
        else
          (textures ++ samplers ++ indexBuffers ++
            bindLoop Binding.SetBufferSRV VERTEX_BUFFER_BEGIN_SLOT t.m_VertexBuffers 0, none)

/-! ## The module: work-graph program, entry records, per-frame dispatch -/

/-- A `float` literal of the source, kept as written: `mantissa * 10 ^ exponent`. -/
structure FloatLiteral where
  mantissa : Int
  exponent : Int
  deriving DecidableEq

/-- A `Mat4` of an entry record, kept as the expression that builds it. -/
inductive Mat4 where
  | translation (x y z : FloatLiteral)
  | scale (x y z : FloatLiteral)
  | mul (a b : Mat4)
  deriving DecidableEq

/-- `IvyBranchRecord` (shaders/ivycommon.h). -/
structure IvyBranchRecord where
  transform : Mat4
  seed : Nat
  deriving DecidableEq

/-- `IvyAreaRecord` (shaders/ivycommon.h). -/
structure IvyAreaRecord where
  transform : Mat4
  seed : Nat
  density : FloatLiteral
  deriving DecidableEq

/-- `D3D12_SET_WORK_GRAPH_FLAG_INITIALIZE` (d3d12.h). -/
def D3D12_SET_WORK_GRAPH_FLAG_INITIALIZE : Nat := 1

/-- `D3D12_PROGRAM_TYPE_WORK_GRAPH` (d3d12.h). -/
def D3D12_PROGRAM_TYPE_WORK_GRAPH : Nat := 5

/-- `D3D12_WORK_GRAPHS_BACKING_MEMORY_ALIGNMENT_IN_BYTES` (d3d12.h). -/
def D3D12_WORK_GRAPHS_BACKING_MEMORY_ALIGNMENT_IN_BYTES : Nat := 8

/-- `D3D12_WORK_GRAPHS_TIER_1_1` (d3d12.h). -/
def D3D12_WORK_GRAPHS_TIER_1_1 : Nat := 11

/-- `D3D12_DISPATCH_MODE_MULTI_NODE_CPU_INPUT` (d3d12.h). -/
def D3D12_DISPATCH_MODE_MULTI_NODE_CPU_INPUT : Nat := 2

/-- `D3D12_GPU_VIRTUAL_ADDRESS_RANGE`. -/
structure D3D12_GPU_VIRTUAL_ADDRESS_RANGE where
  StartAddress : Nat := 0
  SizeInBytes : Nat := 0
  deriving DecidableEq

/-- `D3D12_SET_WORK_GRAPH_DESC`; `Flags` is a 32-bit mask. -/
structure D3D12_SET_WORK_GRAPH_DESC where
  ProgramIdentifier : Nat := 0
  Flags : Nat := 0
  BackingMemory : D3D12_GPU_VIRTUAL_ADDRESS_RANGE := {}
  deriving DecidableEq

/-- `D3D12_SET_PROGRAM_DESC`; `ProgramType` is its member `Type`. -/
structure D3D12_SET_PROGRAM_DESC where
  ProgramType : Nat := 0
  WorkGraph : D3D12_SET_WORK_GRAPH_DESC := {}
  deriving DecidableEq

/-- `WorkGraphEntryPoints`. -/
structure WorkGraphEntryPoints where
  IvyBranch : Nat := 0
  IvyArea : Nat := 0
  deriving DecidableEq

/-- The arguments of `BufferDesc::Data(name, size, stride, alignment, flags)` that size the
buffer. -/
structure BufferDesc where
  Size : Nat
  Stride : Nat
  Alignment : Nat
  deriving DecidableEq

/-- The members of `IvyRenderModule` that the embedded member functions read or write.
`m_pWorkGraphBackingMemoryBuffer` is the description the buffer was created with, `none`
for the null pointer. -/
structure State where
  m_pWorkGraphBackingMemoryBuffer : Option BufferDesc := none
  m_WorkGraphProgramDesc : D3D12_SET_PROGRAM_DESC := {}
  m_WorkGraphEntryPoints : WorkGraphEntryPoints := {}
  m_ivyBranchRecords : List IvyBranchRecord := []
  m_selectedIvyBranch : Int := -1
  m_ivyAreaRecords : List IvyAreaRecord := []
  m_selectedIvyArea : Int := -1
  m_updateIvyUI : Bool := false
  m_RTInfoTables : RTInfoTables := {}
  m_ivyStemSurfaceIndex : Int := -1
  m_ivyLeafSurfaceIndex : Int := -1
  deriving DecidableEq

/-- What the device and the D3D12 runtime answer during `InitWorkGraphProgram`:
whether the calls wrapped in `CauldronThrowOnFail` succeed, the work-graph tier, the memory
requirement (a `UINT64`), the program identifier, the address of the created backing buffer
and the two entry-point indices. -/
structure WorkGraphRuntime where
  callsSucceed : Bool
  WorkGraphsTier : Nat
  MaxSizeInBytes : Nat
  ProgramIdentifier : Nat
  GPUBufferView : Nat
  IvyBranchEntrypointIndex : Nat
  IvyAreaEntrypointIndex : Nat

/-- The calls of `InitWorkGraphProgram` that declare limits and request memory:
the arguments `MaxRecords`, `MaxNodeInputs` of `SetMaximumInputRecords`, and the description
passed to `Buffer::CreateBufferResource`, if the call is made. -/
structure InitCalls where
  MaxRecords : Nat
  MaxNodeInputs : Nat
  CreateBufferResource : Option BufferDesc
  deriving DecidableEq

/-- `IvyRenderModule::InitWorkGraphProgram`, from the query of the device on; `none` when
a call fails or the tier is not supported (both end the initialization with an exception). -/
def InitWorkGraphProgram (s : State) (rt : WorkGraphRuntime) : Option (State × InitCalls) :=
  if ¬ rt.callsSucceed then none
  else if rt.WorkGraphsTier < D3D12_WORK_GRAPHS_TIER_1_1 then none
  else
    let MaxRecords := s.m_ivyBranchRecords.length + s.m_ivyAreaRecords.length
    let created : Option BufferDesc :=
      if 0 < rt.MaxSizeInBytes then
        some { Size := rt.MaxSizeInBytes % UINT32_RANGE, Stride := 1,
               Alignment := D3D12_WORK_GRAPHS_BACKING_MEMORY_ALIGNMENT_IN_BYTES }
      else none
    let m_pWorkGraphBackingMemoryBuffer : Option BufferDesc :=
      match created with
      | some bufferDesc => some bufferDesc
      | none => s.m_pWorkGraphBackingMemoryBuffer
    let BackingMemory : D3D12_GPU_VIRTUAL_ADDRESS_RANGE :=
      match m_pWorkGraphBackingMemoryBuffer with
      | some bufferDesc => { StartAddress := rt.GPUBufferView, SizeInBytes := bufferDesc.Size }
      | none => s.m_WorkGraphProgramDesc.WorkGraph.BackingMemory
    some
      ({ s with
          m_pWorkGraphBackingMemoryBuffer := m_pWorkGraphBackingMemoryBuffer,
          m_WorkGraphProgramDesc :=
            { ProgramType := D3D12_PROGRAM_TYPE_WORK_GRAPH,
              WorkGraph :=
                { ProgramIdentifier := rt.ProgramIdentifier,
                  Flags := D3D12_SET_WORK_GRAPH_FLAG_INITIALIZE,
                  BackingMemory := BackingMemory } },
          m_WorkGraphEntryPoints :=
            { IvyBranch := rt.IvyBranchEntrypointIndex,
              IvyArea := rt.IvyAreaEntrypointIndex } },
       { MaxRecords := MaxRecords, MaxNodeInputs := 2, CreateBufferResource := created })

/-- The three entry records `Init` creates after the work-graph program is built. -/
def initialBranchRecords : List IvyBranchRecord :=
  [{ transform := Mat4.translation ⟨-152, -1⟩ ⟨45, -1⟩ ⟨0, 0⟩, seed := 4750 },
   { transform := Mat4.translation ⟨0, 0⟩ ⟨1, -1⟩ ⟨0, 0⟩, seed := 0 }]

/-- The area record `Init` creates. -/
def initialAreaRecords : List IvyAreaRecord :=
  [{ transform := Mat4.mul (Mat4.translation ⟨0, 0⟩ ⟨17, 0⟩ ⟨7, 0⟩)
                    (Mat4.scale ⟨15, 0⟩ ⟨1, 0⟩ ⟨4, 0⟩),
     seed := 4050, density := ⟨14, -2⟩ }]

/-- `IvyRenderModule::Init`: `InitWorkGraphProgram()`, then the `emplace_back` of the entry
records. -/
def Init (s : State) (rt : WorkGraphRuntime) : Option (State × InitCalls) :=
  match InitWorkGraphProgram s rt with
  | none => none
  | some (s1, calls) =>
    some ({ s1 with
            m_ivyBranchRecords := s1.m_ivyBranchRecords ++ initialBranchRecords,
            m_ivyAreaRecords := s1.m_ivyAreaRecords ++ initialAreaRecords }, calls)

/-- The values of `sizeof` that `Execute` passes as strides. -/
structure SizeOf where
  IvyBranchRecord : Nat
  IvyAreaRecord : Nat
  D3D12_NODE_CPU_INPUT : Nat

/-- `D3D12_NODE_CPU_INPUT`; `pRecords` is the record array itself, here the number of
records it holds is what is kept of it. -/
structure D3D12_NODE_CPU_INPUT where
  EntrypointIndex : Nat
  NumRecords : Nat
  RecordStrideInBytes : Nat
  deriving DecidableEq

/-- `D3D12_DISPATCH_GRAPH_DESC` in multi-node CPU input mode. `pNodeInputs` is the local array
`inputs[3]`, whose third element is never written (`none`). -/
structure D3D12_DISPATCH_GRAPH_DESC where
  Mode : Nat
  NumNodeInputs : Nat
  pNodeInputs : List (Option D3D12_NODE_CPU_INPUT)
  NodeInputStrideInBytes : Nat
  deriving DecidableEq

/-- The node inputs a dispatch description lists: the first `NumNodeInputs` elements of the
array. -/
def D3D12_DISPATCH_GRAPH_DESC.nodeInputs (dispatchDesc : D3D12_DISPATCH_GRAPH_DESC) :
    List (Option D3D12_NODE_CPU_INPUT) :=
  dispatchDesc.pNodeInputs.take dispatchDesc.NumNodeInputs

/-- The two archetype indices written to `WorkGraphCBData`. -/
structure WorkGraphCBData where
  IvyStemSurfaceIndex : Int
  IvyLeafSurfaceIndex : Int
  deriving DecidableEq

/-- What one `Execute` hands to the command list: the constants, the program description
given to `SetProgram` and the description given to `DispatchGraph`. -/
structure ExecuteCalls where
  workGraphData : WorkGraphCBData
  SetProgram : D3D12_SET_PROGRAM_DESC
  DispatchGraph : D3D12_DISPATCH_GRAPH_DESC
  deriving DecidableEq

/-- `Flags &= ~D3D12_SET_WORK_GRAPH_FLAG_INITIALIZE` on a 32-bit mask. -/
def clearInitializeFlag (Flags : Nat) : Nat :=
  Flags &&& (4294967295 ^^^ D3D12_SET_WORK_GRAPH_FLAG_INITIALIZE)

/-- The record the UI block of `Execute` takes a reference to exists: with `m_updateIvyUI`
set, a non-negative `m_selectedIvyBranch` indexes `m_ivyBranchRecords`, and otherwise a
non-negative `m_selectedIvyArea` indexes `m_ivyAreaRecords`. -/
def selectionInRange (s : State) : Bool :=
  if s.m_updateIvyUI then
    if 0 ≤ s.m_selectedIvyBranch then
      decide (s.m_selectedIvyBranch.toNat < s.m_ivyBranchRecords.length)
    else if 0 ≤ s.m_selectedIvyArea then
      decide (s.m_selectedIvyArea.toNat < s.m_ivyAreaRecords.length)
    else true
  else true

/-- `IvyRenderModule::Execute`. `queryInterfaceSucceeds` tells whether the
`ID3D12GraphicsCommandList10` interface is obtained; `none` when it is not (an exception is
thrown) or when the UI block indexes a record array out of range (undefined behaviour). -/
def Execute (s : State) (sizeof : SizeOf) (queryInterfaceSucceeds : Bool) :
    Option (State × ExecuteCalls) :=
  if ¬ selectionInRange s then none
  else
    let workGraphData : WorkGraphCBData :=
      { IvyStemSurfaceIndex := s.m_ivyStemSurfaceIndex,
        IvyLeafSurfaceIndex := s.m_ivyLeafSurfaceIndex }
    let inputs : List (Option D3D12_NODE_CPU_INPUT) :=
      [some { EntrypointIndex := s.m_WorkGraphEntryPoints.IvyBranch,
              NumRecords := s.m_ivyBranchRecords.length,
              RecordStrideInBytes := sizeof.IvyBranchRecord },
       some { EntrypointIndex := s.m_WorkGraphEntryPoints.IvyArea,
              NumRecords := s.m_ivyAreaRecords.length,
              RecordStrideInBytes := sizeof.IvyAreaRecord },
       none]
    let dispatchDesc : D3D12_DISPATCH_GRAPH_DESC :=
      { Mode := D3D12_DISPATCH_MODE_MULTI_NODE_CPU_INPUT,
        NumNodeInputs := 2,
        pNodeInputs := inputs,
        NodeInputStrideInBytes := sizeof.D3D12_NODE_CPU_INPUT }
    if ¬ queryInterfaceSucceeds then none
    else
      some
        ({ s with
            m_WorkGraphProgramDesc :=
              { s.m_WorkGraphProgramDesc with
                WorkGraph :=
                  { s.m_WorkGraphProgramDesc.WorkGraph with
                    Flags := clearInitializeFlag s.m_WorkGraphProgramDesc.WorkGraph.Flags } } },
         { workGraphData := workGraphData,
           SetProgram := s.m_WorkGraphProgramDesc,
           DispatchGraph := dispatchDesc })

/-- `Execute` called `n` times in a row, frame after frame, the command-list interface being
obtained each time: the final members and what each call handed to the command list, in
order. -/
def ExecuteTimes (sizeof : SizeOf) (s : State) : Nat → Option (State × List ExecuteCalls)
  | 0 => some (s, [])
  | n + 1 =>
    match Execute s sizeof true with
    | none => none
    | some (s1, calls) =>
      match ExecuteTimes sizeof s1 n with
      | none => none
      | some (sn, later) => some (sn, calls :: later)

/-! ## The content listener -/

/-- What a call of `OnNewContentLoaded` leaves behind: the members, the content errors
reported, the calls made on the parameter set, and the capacity assertion that failed, if
one did. -/
structure LoadOutcome where
  state : State
  errors : List ContentError
  bindings : List Binding
  assertion : Option CapacityAssert

/-- `IvyRenderModule::OnNewContentLoaded`. `uninit k` is what the uninitialized locals of
the material loop hold in the iteration of the `k`-th material of the block. -/
def OnNewContentLoaded (s : State) (pContentBlock : ContentBlock)
    (uninit : Nat → Uninitialized) : LoadOutcome :=
  let materialIdOffset := s.m_RTInfoTables.m_cpuMaterialBuffer.length
  let withMaterials := materialLoop uninit pContentBlock.Materials 0 s.m_RTInfoTables
  let meshes :=
    meshLoop pContentBlock.Materials materialIdOffset
      { tables := withMaterials,
        m_ivyStemSurfaceIndex := s.m_ivyStemSurfaceIndex,
        m_ivyLeafSurfaceIndex := s.m_ivyLeafSurfaceIndex,
        meshIdxToMesh := [],
        errors := [] }
      pContentBlock.meshComponents
  let bound := bindTables meshes.tables
  { state :=
      { s with
        m_RTInfoTables := meshes.tables,
        m_ivyStemSurfaceIndex := meshes.m_ivyStemSurfaceIndex,
        m_ivyLeafSurfaceIndex := meshes.m_ivyLeafSurfaceIndex },
    errors := meshes.errors,
    bindings := uploadBindings meshes.tables ++ bound.1,
    assertion := bound.2 }

/-- The body of the loop of `OnContentUnloaded` for one `Material_Info`: a `RemoveTexture`
for each of the four texture ids that passes the test `> 0`, in the order albedo, ARM,
emission, normal. -/
def unloadMaterial (t : RTInfoTables) (materialInfo : Material_Info) : Option RTInfoTables :=
  (if 0 < materialInfo.albedo_tex_id then RemoveTexture t materialInfo.albedo_tex_id
   else some t).bind fun t1 =>
  (if 0 < materialInfo.arm_tex_id then RemoveTexture t1 materialInfo.arm_tex_id
   else some t1).bind fun t2 =>
  (if 0 < materialInfo.emission_tex_id then RemoveTexture t2 materialInfo.emission_tex_id
   else some t2).bind fun t3 =>
  if 0 < materialInfo.normal_tex_id then RemoveTexture t3 materialInfo.normal_tex_id
  else some t3

/-- The loop of `OnContentUnloaded` over (a copy of each element of) the material table. -/
def unloadLoop : List Material_Info → RTInfoTables → Option RTInfoTables
  | [], t => some t
  | materialInfo :: rest, t => (unloadMaterial t materialInfo).bind (unloadLoop rest)

/-- `IvyRenderModule::OnContentUnloaded`; the content block passed in is not read. -/
def OnContentUnloaded (s : State) (_pContentBlock : ContentBlock) : Option State :=
  (unloadLoop s.m_RTInfoTables.m_cpuMaterialBuffer s.m_RTInfoTables).map
    (fun t => { s with m_RTInfoTables := t })

/-- A material with PBR info of the metal-rough kind whose only texture is an albedo texture
at address `pTexture`, sampled with descriptor `desc`. -/
def pbrAlbedoOnly (addr : Nat) (pTexture : TexturePtr) (desc : SamplerDesc) : Material :=
  { GetTextureInfo := fun textureClass =>
      match textureClass with
      | TextureClass.Albedo => some { pTexture := pTexture, TexSamplerDesc := desc }
      | _ => none,
    addr := addr, HasPBRInfo := true, HasPBRMetalRough := true }

/-- A surface with a 32-bit index buffer at address `pIndexBuffer`, position and normal
attributes stored in the vertex buffers at addresses 1000 and 1001, and the material at
address `pMaterial`. -/
def plainSurface (pIndexBuffer : BufferPtr) (pMaterial : Nat) (translucent : Bool) : Surface :=
  { GetIndexBuffer := { pBuffer := pIndexBuffer, IndexFormat := ResourceFormat.R32_UINT,
                        Count := 30 },
    GetVertexBuffer := fun attr => { pBuffer := 1000 + attr.toNat, Count := 10 },
    GetVertexAttributes := 3,
    GetMaterial := pMaterial,
    HasTranslucency := translucent }

/-- The tables the mesh loop writes: vertex and index buffers, instance, surface and
surface-id records. -/
def RTInfoTables.geometry (t : RTInfoTables) :
    List BufferPtr × List BufferPtr × List Instance_Info × List Surface_Info × List Nat :=
  (t.m_VertexBuffers, t.m_IndexBuffers, t.m_cpuInstanceBuffer, t.m_cpuSurfaceBuffer,
   t.m_cpuSurfaceIDsBuffer)

/-- The tables the material loop writes: textures, samplers and material records. -/
def RTInfoTables.materials (t : RTInfoTables) :
    List BoundTexture × List Sampler × List Material_Info :=
  (t.m_Textures, t.m_Samplers, t.m_cpuMaterialBuffer)

/-- The meshes the mesh loop does not skip: of the mesh components met, the first of each
mesh index not in `seen`. -/
def firstMeshes : List Mesh → List Nat → List Mesh
  | [], _ => []
  | pMesh :: rest, seen =>
    if pMesh.GetMeshIndex ∈ seen then firstMeshes rest seen
    else pMesh :: firstMeshes rest (pMesh.GetMeshIndex :: seen)

/-- The surfaces a load builds a `Surface_Info` for, in the order it builds them. -/
def ContentBlock.processedSurfaces (pContentBlock : ContentBlock) : List Surface :=
  (firstMeshes pContentBlock.meshComponents []).flatMap (fun pMesh => pMesh.m_Surfaces)

/-- The members after a sequence of content loads, each with what its uninitialized locals
hold. -/
def loadSequence (s : State) : List (ContentBlock × (Nat → Uninitialized)) → State
  | [] => s
  | load :: rest => loadSequence (OnNewContentLoaded s load.1 load.2).state rest

/-- Slot `i` of the texture table holds texture `T`, with a count that is not 0. -/
def HoldsTexture (t : RTInfoTables) (i : Nat) (T : TexturePtr) : Prop :=
  ∃ e : BoundTexture, t.m_Textures[i]? = some e ∧ e.pTexture = T ∧ e.count ≠ 0

/-- What a texture id of a `Material_Info` is meant to be, for a material and a texture
class, in a state of the tables: -1 when the material has no texture of the class, and
otherwise the index of a slot that holds that texture. -/
def ResolvesTexture (t : RTInfoTables) (pMat : Material) (textureClass : TextureClass)
    (id : Int) : Prop :=
  match pMat.GetTextureInfo textureClass with
  | none => id = -1
  | some info => ∃ i : Nat, id = (i : Int) ∧ HoldsTexture t i info.pTexture

/-- The texture ids of a `Material_Info` that the material loop resolves for a material:
normal and emission always; albedo when the material has PBR info; ARM, when it has PBR
info, from the metal-rough texture if it is of the metal-rough kind and else from the
specular-glossiness texture if it is of that kind. -/
def MaterialResolved (t : RTInfoTables) (pMat : Material) (materialInfo : Material_Info) :
    Prop :=
  ResolvesTexture t pMat TextureClass.Normal materialInfo.normal_tex_id ∧
  ResolvesTexture t pMat TextureClass.Emissive materialInfo.emission_tex_id ∧
  (pMat.HasPBRInfo = true →
    ResolvesTexture t pMat TextureClass.Albedo materialInfo.albedo_tex_id ∧
    (pMat.HasPBRMetalRough = true →
      ResolvesTexture t pMat TextureClass.MetalRough materialInfo.arm_tex_id) ∧
    (pMat.HasPBRMetalRough = false → pMat.HasPBRSpecGloss = true →
      ResolvesTexture t pMat TextureClass.SpecGloss materialInfo.arm_tex_id))


/-! ## Reading the tables a load leaves -/

/-- The member of a `Surface_Info` in which the `switch` of the attribute loop stores the
offset of an attribute; `none` for the attributes the `switch` has no case for. -/
def Surface_Info.attributeOffset (surface_info : Surface_Info) :
    VertexAttributeType → Option Int
  | VertexAttributeType.Position => some surface_info.position_attribute_offset
  | VertexAttributeType.Normal => some surface_info.normal_attribute_offset
  | VertexAttributeType.Tangent => some surface_info.tangent_attribute_offset
  | VertexAttributeType.Texcoord0 => some surface_info.texcoord0_attribute_offset
  | VertexAttributeType.Texcoord1 => some surface_info.texcoord1_attribute_offset
  | _ => none

/-- The record `info` is the `Surface_Info` that an iteration of the surface loop, run with
the block's materials and the material offset of the load, builds from `pSurface` and
appends to the surface table. -/
def BuiltFromSurface (Materials : List Material) (materialIdOffset : Nat) (pSurface : Surface)
    (info : Surface_Info) : Prop :=
  ∃ st : SurfaceLoopState,
    (processSurface Materials materialIdOffset st pSurface).tables.m_cpuSurfaceBuffer =
      st.tables.m_cpuSurfaceBuffer ++ [info]

/-- The record `materialInfo` is the `Material_Info` that iteration `k` of the material loop
builds from `pMat`. -/
def BuiltFromMaterial (uninit : Nat → Uninitialized) (k : Nat) (pMat : Material)
    (materialInfo : Material_Info) : Prop :=
  ∃ t : RTInfoTables, materialInfo = (buildMaterialInfo t pMat (uninit k)).materialInfo

/-- The index format of the surface is neither of the two the `switch` has a case for. -/
def unsupportedIndexFormat (pSurface : Surface) : Bool :=
  match pSurface.GetIndexBuffer.IndexFormat with
  | ResourceFormat.R16_UINT => false
  | ResourceFormat.R32_UINT => false
  | ResourceFormat.other _ => true

/-- The meshes processed (not skipped) by a sequence of loads, in the order they are
processed. -/
def processedMeshes (loads : List (ContentBlock × (Nat → Uninitialized))) : List Mesh :=
  loads.flatMap (fun load => firstMeshes load.1.meshComponents [])

/-- Two loads: a block with one mesh of mesh index 2 and one surface, then a block with one
mesh of mesh index 0 and no surface. -/
def sparseMeshLoads : List (ContentBlock × (Nat → Uninitialized)) :=
  [({ EntityDataBlocks :=
        [{ Components :=
            [Component.meshComponent
              { m_Index := 2, m_Name := "mesh2", m_Surfaces := [plainSurface 50 0 false] }] }] },
    fun _ => { materialInfo := ⟨0, 0, 0, 0, 0, 0, 0, 0, 0⟩, samplerIndex := 0 }),
   ({ EntityDataBlocks :=
        [{ Components :=
            [Component.otherComponent,
             Component.meshComponent { m_Index := 0, m_Name := "mesh0", m_Surfaces := [] }] }] },
    fun _ => { materialInfo := ⟨0, 0, 0, 0, 0, 0, 0, 0, 0⟩, samplerIndex := 0 })]

/-- A mesh with mesh index 1 and two surfaces. -/
def runMeshA : Mesh :=
  { m_Index := 1, m_Name := "A",
    m_Surfaces := [plainSurface 50 0 false, plainSurface 51 0 true] }

/-- A mesh with mesh index 0 and one surface. -/
def runMeshB : Mesh :=
  { m_Index := 0, m_Name := "B", m_Surfaces := [plainSurface 52 0 false] }

/-- A block whose mesh components point to `runMeshA`, to `runMeshB` and to `runMeshA`
again. -/
def twoMeshBlock : ContentBlock :=
  { EntityDataBlocks :=
      [{ Components := [Component.meshComponent runMeshA, Component.otherComponent] },
       { Components := [Component.meshComponent runMeshB, Component.meshComponent runMeshA] }] }

/-- The surface table holds, in order, one record for each surface of the meshes of the
list, built from that surface by an iteration of the surface loop: the table a module has
after processing these meshes from an empty surface table. -/
def SurfaceTableOf (m_cpuSurfaceBuffer : List Surface_Info) (meshes : List Mesh) : Prop :=
  List.Forall₂
    (fun pSurface info => ∃ (Materials : List Material) (materialIdOffset : Nat),
      BuiltFromSurface Materials materialIdOffset pSurface info)
    (meshes.flatMap (fun pMesh => pMesh.m_Surfaces)) m_cpuSurfaceBuffer

/-- What the cached surface index of an archetype holds after the meshes of the list have
been processed from an empty surface table: -1 when none of them has the name, and
otherwise the number of surfaces of the meshes processed before the last mesh of the name,
which is the position at which the record of the first surface of that mesh stands. -/
def ArchetypeIndexResolved (name : String) (index : Int) (meshes : List Mesh) : Prop :=
  ((∀ m ∈ meshes, m.m_Name ≠ name) → index = -1) ∧
  ∀ (before after : List Mesh) (pMesh : Mesh),
    meshes = before ++ pMesh :: after → pMesh.m_Name = name →
    (∀ m ∈ after, m.m_Name ≠ name) →
    index = ((before.flatMap (fun m => m.m_Surfaces)).length : Int)

/-- A block with two meshes named as the stem archetype: the first with one surface, the
second (another mesh index) with the given surfaces. -/
def twoStemBlock (m_Surfaces : List Surface) : ContentBlock :=
  { EntityDataBlocks :=
      [{ Components :=
          [Component.meshComponent
            { m_Index := 0, m_Name := ivyStemName, m_Surfaces := [plainSurface 50 0 false] },
           Component.meshComponent
            { m_Index := 1, m_Name := ivyStemName, m_Surfaces := m_Surfaces }] }] }

/-! ## Shader registers -/

/-- The register spaces of the work graph's parameter set: `t` registers, to which the
shader-resource views are bound, and `s` registers, to which the samplers are bound
(`DECLARE_SRV_REGISTER`, `DECLARE_SAMPLER_REGISTER` of shaders/ivycommon.h). -/
inductive RegisterSpace where
  | srv
  | sampler
  deriving DecidableEq

/-- The register a call on the parameter set binds: its register space and slot. -/
def Binding.register : Binding → RegisterSpace × Nat
  | Binding.SetInfoBufferSRV _ slot => (RegisterSpace.srv, slot)
  | Binding.SetBufferSRV _ slot => (RegisterSpace.srv, slot)
  | Binding.SetTextureSRV _ slot => (RegisterSpace.srv, slot)
  | Binding.SetSampler _ slot => (RegisterSpace.sampler, slot)

/-- The number of the four texture id fields of a `Material_Info` (albedo, ARM, emission,
normal: those `OnContentUnloaded` tests) that hold the index `i`. -/
def Material_Info.references (materialInfo : Material_Info) (i : Nat) : Nat :=
  (if materialInfo.albedo_tex_id = (i : Int) then 1 else 0) +
  (if materialInfo.arm_tex_id = (i : Int) then 1 else 0) +
  (if materialInfo.emission_tex_id = (i : Int) then 1 else 0) +
  (if materialInfo.normal_tex_id = (i : Int) then 1 else 0)

/-- The number of texture id fields in a material table that hold the index `i`. -/
def tableReferences (m_cpuMaterialBuffer : List Material_Info) (i : Nat) : Nat :=
  (m_cpuMaterialBuffer.map (fun materialInfo => materialInfo.references i)).sum

/-- Every texture id of the record is below `n`: each id that passes the test `> 0` is a
position of a texture table of length `n`. -/
def Material_Info.idsBelow (materialInfo : Material_Info) (n : Nat) : Prop :=
  materialInfo.albedo_tex_id < (n : Int) ∧ materialInfo.arm_tex_id < (n : Int) ∧
  materialInfo.emission_tex_id < (n : Int) ∧ materialInfo.normal_tex_id < (n : Int)

instance (materialInfo : Material_Info) (n : Nat) : Decidable (materialInfo.idsBelow n) := by
  unfold Material_Info.idsBelow
  infer_instance

/-- Block A of the two-block scenario: one material with PBR info whose only texture is the
albedo texture at address 7. -/
def blockA : ContentBlock := { Materials := [pbrAlbedoOnly 100 7 0] }

/-- Block B of the two-block scenario: one material with PBR info whose only texture is the
albedo texture at address 8. -/
def blockB : ContentBlock := { Materials := [pbrAlbedoOnly 101 8 0] }

/-- The module after `OnNewContentLoaded` for block A and then for block B, from a freshly
constructed module (the uninitialized locals holding 0). -/
def loadedAB : State :=
  loadSequence {}
    [(blockA, fun _ => { materialInfo := ⟨0, 0, 0, 0, 0, 0, 0, 0, 0⟩, samplerIndex := 0 }),
     (blockB, fun _ => { materialInfo := ⟨0, 0, 0, 0, 0, 0, 0, 0, 0⟩, samplerIndex := 0 })]

/-! ## The textures a load requests -/

/-- The texture an `AddTexture(pMaterial, textureClass, ...)` call binds or references: the
texture of that class of the material; none when `GetTextureInfo` answers the null
pointer. -/
def textureRequest (pMaterial : Material) (textureClass : TextureClass) : List TexturePtr :=
  match pMaterial.GetTextureInfo textureClass with
  | none => []
  | some info => [info.pTexture]

/-- The textures requested by the `AddTexture` calls of the `if (pMat->HasPBRInfo())` block
of the material loop, in the order of the calls. -/
def Material.pbrTextureRequests (pMat : Material) : List TexturePtr :=
  if pMat.HasPBRInfo then
    textureRequest pMat TextureClass.Albedo ++
      (if pMat.HasPBRMetalRough then textureRequest pMat TextureClass.MetalRough
       else if pMat.HasPBRSpecGloss then textureRequest pMat TextureClass.SpecGloss
       else [])
  else []

/-- The textures requested by the `AddTexture` calls of one iteration of the material loop,
in the order of the calls: those of the PBR block, then normal, then emissive. -/
def Material.textureRequests (pMat : Material) : List TexturePtr :=
  pMat.pbrTextureRequests ++
    (textureRequest pMat TextureClass.Normal ++ textureRequest pMat TextureClass.Emissive)

/-- The textures requested by the `AddTexture` calls of the material loop over the materials
of a block, in the order of the calls. -/
def blockTextureRequests (Materials : List Material) : List TexturePtr :=
  Materials.flatMap Material.textureRequests

/-- No reference count wraps while the requests are served: the count of each entry of the
texture table plus the number of requests for the texture it holds stays below 2^32, and no
texture is requested 2^32 times or more. -/
def NoCountWraps (m_Textures : List BoundTexture) (requests : List TexturePtr) : Prop :=
  (∀ e ∈ m_Textures, e.count + requests.count e.pTexture < UINT32_RANGE) ∧
  ∀ T ∈ requests, requests.count T < UINT32_RANGE

instance (m_Textures : List BoundTexture) (requests : List TexturePtr) :
    Decidable (NoCountWraps m_Textures requests) := by
  unfold NoCountWraps
  infer_instance

/-- A material with PBR info of the metal-rough kind whose only textures are an albedo
texture at address `albedo` and a normal texture at address `normal`, both sampled with
descriptor `desc`. -/
def pbrAlbedoNormal (addr : Nat) (albedo normal : TexturePtr) (desc : SamplerDesc) :
    Material :=
  { GetTextureInfo := fun textureClass =>
      match textureClass with
      | TextureClass.Albedo => some { pTexture := albedo, TexSamplerDesc := desc }
      | TextureClass.Normal => some { pTexture := normal, TexSamplerDesc := desc }
      | _ => none,
    addr := addr, HasPBRInfo := true, HasPBRMetalRough := true }

/-- The module after a block with the one material `pbrAlbedoNormal 100 7 8 0` has been
loaded into a freshly constructed module and `OnContentUnloaded` has run twice; `none` if an
event does not return. -/
def unloadedTwice : Option State :=
  (OnContentUnloaded
    (OnNewContentLoaded {} { Materials := [pbrAlbedoNormal 100 7 8 0] }
      (fun _ => { materialInfo := ⟨0, 0, 0, 0, 0, 0, 0, 0, 0⟩, samplerIndex := 0 })).state
    { Materials := [pbrAlbedoNormal 100 7 8 0] }).bind
    (fun s => OnContentUnloaded s { Materials := [pbrAlbedoNormal 100 7 8 0] })
/-! ## The two search loops -/

/-- The sampler search ends either past the end, having met no equal descriptor, or at the
lowest position holding an equal descriptor. -/
theorem samplerLoop_inv (desc : SamplerDesc) :
    ∀ (l : List Sampler) (i0 : Nat),
      (samplerLoop desc l i0 = i0 + l.length ∧ ∀ s ∈ l, s.GetDesc ≠ desc) ∨
      (∃ (j : Nat) (s : Sampler), samplerLoop desc l i0 = i0 + j ∧ l[j]? = some s ∧
        s.GetDesc = desc ∧ ∀ j', j' < j → ∀ s', l[j']? = some s' → s'.GetDesc ≠ desc) := by
  intro l
  induction l with
  | nil => intro i0; left; simp [samplerLoop]
  | cons b rest ih =>
    intro i0
    by_cases hb : b.GetDesc = desc
    · right
      refine ⟨0, b, by simp [samplerLoop, hb], by simp, hb, ?_⟩
      intro j' hj'; omega
    · rcases ih (i0 + 1) with ⟨hlen, hall⟩ | ⟨j, s, hj, hget, hs, hlow⟩
      · left
        refine ⟨?_, ?_⟩
        · simp only [samplerLoop, if_neg hb, hlen, List.length_cons]; omega
        · intro s hs
          rcases List.mem_cons.mp hs with rfl | hs
          · exact hb
          · exact hall s hs
      · right
        refine ⟨j + 1, s, ?_, by simpa using hget, hs, ?_⟩
        · simp only [samplerLoop, if_neg hb, hj]; omega
        · intro j' hj' s' hs'
          cases j' with
          | zero =>
            simp only [List.getElem?_cons_zero, Option.some.injEq] at hs'
            subst hs'; exact hb
          | succ n =>
            exact hlow n (by omega) s' (by simpa using hs')

/-- The slot search returns early only at the lowest position holding the texture. -/
theorem textureLoop_mapped_inv (T : TexturePtr) :
    ∀ (l : List BoundTexture) (i0 : Nat) (ffi : Int) (k : Nat),
      textureLoop T l i0 ffi = SlotSearch.mapped k →
      ∃ (j : Nat) (e : BoundTexture), k = i0 + j ∧ l[j]? = some e ∧ e.pTexture = T ∧
        ∀ j', j' < j → ∀ e', l[j']? = some e' → e'.pTexture ≠ T := by
  intro l
  induction l with
  | nil => intro i0 ffi k h; simp [textureLoop] at h
  | cons b rest ih =>
    intro i0 ffi k h
    by_cases hb : T = b.pTexture
    · simp only [textureLoop, if_pos hb, SlotSearch.mapped.injEq] at h
      refine ⟨0, b, by omega, by simp, hb.symm, ?_⟩
      intro j' hj'; omega
    · have key : ∃ ffi', textureLoop T rest (i0 + 1) ffi' = SlotSearch.mapped k := by
        simp only [textureLoop, if_neg hb] at h
        split at h
        · exact ⟨_, h⟩
        · exact ⟨_, h⟩
      obtain ⟨ffi', h'⟩ := key
      obtain ⟨j, e, hk, hj, hp, hlow⟩ := ih (i0 + 1) ffi' k h'
      refine ⟨j + 1, e, by omega, by simpa using hj, hp, ?_⟩
      intro j' hj' e' he'
      cases j' with
      | zero =>
        simp only [List.getElem?_cons_zero, Option.some.injEq] at he'
        subst he'; exact fun h => hb h.symm
      | succ n =>
        exact hlow n (by omega) e' (by simpa using he')

/-- When the slot search runs off the table, no entry holds the texture, and `firstFreeIndex`
is the value it started with when that was non-negative or no entry has count 0, and
otherwise the lowest position with count 0. -/
theorem textureLoop_notMapped_inv (T : TexturePtr) :
    ∀ (l : List BoundTexture) (i0 : Nat) (ffi f : Int),
      textureLoop T l i0 ffi = SlotSearch.notMapped f →
      (∀ e ∈ l, e.pTexture ≠ T) ∧
      (0 ≤ ffi → f = ffi) ∧
      (ffi < 0 →
        (f = ffi ∧ ∀ e ∈ l, e.count ≠ 0) ∨
        (∃ (j : Nat) (e : BoundTexture), f = ((i0 + j : Nat) : Int) ∧ l[j]? = some e ∧
          e.count = 0 ∧ ∀ j', j' < j → ∀ e', l[j']? = some e' → e'.count ≠ 0)) := by
  intro l
  induction l with
  | nil =>
    intro i0 ffi f h
    simp only [textureLoop, SlotSearch.notMapped.injEq] at h
    refine ⟨by simp, fun _ => h.symm, fun _ => Or.inl ⟨h.symm, by simp⟩⟩
  | cons b rest ih =>
    intro i0 ffi f h
    by_cases hb : T = b.pTexture
    · simp [textureLoop, hb] at h
    · simp only [textureLoop, if_neg hb] at h
      have hbT : b.pTexture ≠ T := fun h => hb h.symm
      by_cases hfree : ffi < 0 ∧ b.count = 0
      · rw [if_pos hfree] at h
        obtain ⟨hall, hge, _⟩ := ih (i0 + 1) (i0 : Int) f h
        have hf : f = (i0 : Int) := hge (Int.natCast_nonneg i0)
        refine ⟨?_, ?_, ?_⟩
        · intro e he
          rcases List.mem_cons.mp he with rfl | he
          · exact hbT
          · exact hall e he
        · intro h0; omega
        · intro _
          right
          refine ⟨0, b, by simpa using hf, by simp, hfree.2, ?_⟩
          intro j' hj'; omega
      · rw [if_neg hfree] at h
        obtain ⟨hall, hge, hlt⟩ := ih (i0 + 1) ffi f h
        refine ⟨?_, hge, ?_⟩
        · intro e he
          rcases List.mem_cons.mp he with rfl | he
          · exact hbT
          · exact hall e he
        · intro hneg
          have hbc : b.count ≠ 0 := fun hc => hfree ⟨hneg, hc⟩
          rcases hlt hneg with ⟨hf, hnz⟩ | ⟨j, e, hf, hget, hc, hlow⟩
          · left
            refine ⟨hf, ?_⟩
            intro e he
            rcases List.mem_cons.mp he with rfl | he
            · exact hbc
            · exact hnz e he
          · right
            refine ⟨j + 1, e, ?_, by simpa using hget, hc, ?_⟩
            · rw [hf]; congr 1; omega
            · intro j' hj' e' he'
              cases j' with
              | zero =>
                simp only [List.getElem?_cons_zero, Option.some.injEq] at he'
                subst he'; exact hbc
              | succ n =>
                exact hlow n (by omega) e' (by simpa using he')

/-! ## What one call of `AddTexture` does to each table -/

/-- Bumping the entry at an occupied position is overwriting it with the bumped entry. -/
theorem modify_bumpCount_eq_set (l : List BoundTexture) (i : Nat) (e : BoundTexture)
    (h : l[i]? = some e) : List.modify bumpCount i l = l.set i (bumpCount e) := by
  rw [List.modify_eq_set_get?]
  simp [List.get?_eq_getElem?, h]

/-- The texture table after `AddTexture` on a material that has the texture: either the
lowest entry holding the texture is bumped, or (no entry holds it) the entry is appended when
no count is 0, or written over the lowest entry with count 0. -/
theorem AddTexture_textures (t : RTInfoTables) (pMaterial : Material)
    (textureClass : TextureClass) (s0 : Int) (info : TextureInfo)
    (hinfo : pMaterial.GetTextureInfo textureClass = some info) :
    (∃ (i : Nat) (e : BoundTexture), t.m_Textures[i]? = some e ∧ e.pTexture = info.pTexture ∧
        (∀ j, j < i → ∀ e', t.m_Textures[j]? = some e' → e'.pTexture ≠ info.pTexture) ∧
        (AddTexture t pMaterial textureClass s0).ret = (i : Int) ∧
        (AddTexture t pMaterial textureClass s0).tables.m_Textures =
          t.m_Textures.set i (bumpCount e)) ∨
    ((∀ e ∈ t.m_Textures, e.pTexture ≠ info.pTexture) ∧
        (∀ e ∈ t.m_Textures, e.count ≠ 0) ∧
        (AddTexture t pMaterial textureClass s0).ret = (t.m_Textures.length : Int) ∧
        (AddTexture t pMaterial textureClass s0).tables.m_Textures =
          t.m_Textures ++ [{ pTexture := info.pTexture, count := 1 }]) ∨
    ((∀ e ∈ t.m_Textures, e.pTexture ≠ info.pTexture) ∧
        ∃ (i : Nat) (e : BoundTexture), t.m_Textures[i]? = some e ∧ e.count = 0 ∧
          (∀ j, j < i → ∀ e', t.m_Textures[j]? = some e' → e'.count ≠ 0) ∧
          (AddTexture t pMaterial textureClass s0).ret = (i : Int) ∧
          (AddTexture t pMaterial textureClass s0).tables.m_Textures =
            t.m_Textures.set i { pTexture := info.pTexture, count := 1 }) := by
  cases hloop : textureLoop info.pTexture t.m_Textures 0 (-1) with
  | mapped k =>
    obtain ⟨j, e, hk, hget, hp, hlow⟩ := textureLoop_mapped_inv _ _ _ _ _ hloop
    have hkj : k = j := by omega
    subst hkj
    left
    refine ⟨k, e, hget, hp, hlow, ?_, ?_⟩
    · simp only [AddTexture, hinfo, hloop]
    · simp only [AddTexture, hinfo, hloop]
      exact modify_bumpCount_eq_set _ _ _ hget
  | notMapped f =>
    obtain ⟨hno, _, hneg⟩ := textureLoop_notMapped_inv _ _ _ _ _ hloop
    right
    rcases hneg (by decide) with ⟨hf, hnz⟩ | ⟨j, e, hf, hget, hc, hlow⟩
    · left
      subst hf
      refine ⟨hno, hnz, ?_, ?_⟩
      · simp [AddTexture, hinfo, hloop]
      · simp [AddTexture, hinfo, hloop]
    · right
      have hfj : f = (j : Int) := by rw [hf]; congr 1; omega
      subst hfj
      have hnn : ¬ ((j : Int) < 0) := by omega
      refine ⟨hno, j, e, hget, hc, hlow, ?_, ?_⟩
      · simp only [AddTexture, hinfo, hloop, if_neg hnn]
      · simp only [AddTexture, hinfo, hloop, if_neg hnn, Int.toNat_ofNat]

/-- The sampler table after `AddTexture` on a material that has the texture: unchanged, with
the lowest position of an equal descriptor as sampler index, or grown by one sampler of that
descriptor, with the previous length as sampler index. -/
theorem AddTexture_samplers (t : RTInfoTables) (pMaterial : Material)
    (textureClass : TextureClass) (s0 : Int) (info : TextureInfo)
    (hinfo : pMaterial.GetTextureInfo textureClass = some info) :
    (∃ (k : Nat) (s : Sampler), t.m_Samplers[k]? = some s ∧
        s.GetDesc = info.TexSamplerDesc ∧
        (∀ j, j < k → ∀ s', t.m_Samplers[j]? = some s' → s'.GetDesc ≠ info.TexSamplerDesc) ∧
        (AddTexture t pMaterial textureClass s0).textureSamplerIndex = (k : Int) ∧
        (AddTexture t pMaterial textureClass s0).tables.m_Samplers = t.m_Samplers) ∨
    ((∀ s ∈ t.m_Samplers, s.GetDesc ≠ info.TexSamplerDesc) ∧
        (AddTexture t pMaterial textureClass s0).textureSamplerIndex =
          (t.m_Samplers.length : Int) ∧
        (AddTexture t pMaterial textureClass s0).tables.m_Samplers =
          t.m_Samplers ++ [CreateSampler info.TexSamplerDesc]) := by
  have hidx : (AddTexture t pMaterial textureClass s0).textureSamplerIndex =
      (samplerLoop info.TexSamplerDesc t.m_Samplers 0 : Int) := by
    simp only [AddTexture, hinfo]
    split
    · rfl
    · split <;> rfl
  have hsam : (AddTexture t pMaterial textureClass s0).tables.m_Samplers =
      if samplerLoop info.TexSamplerDesc t.m_Samplers 0 = t.m_Samplers.length then
        t.m_Samplers ++ [CreateSampler info.TexSamplerDesc]
      else t.m_Samplers := by
    simp only [AddTexture, hinfo]
    split
    · rfl
    · split <;> rfl
  rcases samplerLoop_inv info.TexSamplerDesc t.m_Samplers 0 with ⟨hlen, hall⟩ | ⟨j, s, hj, hget, hs, hlow⟩
  · right
    refine ⟨hall, ?_, ?_⟩
    · rw [hidx, hlen]; simp
    · rw [hsam, if_pos (by omega)]
  · left
    have hjlt : j < t.m_Samplers.length := (List.getElem?_eq_some.mp hget).1
    refine ⟨j, s, hget, hs, hlow, ?_, ?_⟩
    · rw [hidx, hj]; simp
    · rw [hsam, if_neg (by omega)]
/-- A call resolving a texture that no entry holds puts `(texture, 1)` at the returned
position, leaves every other position as it was, and grows the table by at most one. -/
theorem AddTexture_fresh (t : RTInfoTables) (pMaterial : Material)
    (textureClass : TextureClass) (s0 : Int) (info : TextureInfo)
    (hinfo : pMaterial.GetTextureInfo textureClass = some info)
    (hno : ∀ e ∈ t.m_Textures, e.pTexture ≠ info.pTexture) :
    ∃ i : Nat, (AddTexture t pMaterial textureClass s0).ret = (i : Int) ∧
      (AddTexture t pMaterial textureClass s0).tables.m_Textures[i]? =
        some { pTexture := info.pTexture, count := 1 } ∧
      (∀ j, j ≠ i → (AddTexture t pMaterial textureClass s0).tables.m_Textures[j]? =
        t.m_Textures[j]?) ∧
      (AddTexture t pMaterial textureClass s0).tables.m_Textures.length ≤
        t.m_Textures.length + 1 ∧
      (t.m_Textures = [] → (AddTexture t pMaterial textureClass s0).tables.m_Textures =
        [{ pTexture := info.pTexture, count := 1 }]) := by
  rcases AddTexture_textures t pMaterial textureClass s0 info hinfo with
    ⟨i, e, hget, hp, _, _, _⟩ | ⟨_, _, hret, hnew⟩ | ⟨_, i, e, hget, _, _, hret, hnew⟩
  · exact absurd hp (hno e (List.getElem?_mem hget))
  · refine ⟨t.m_Textures.length, hret, ?_, ?_, ?_, ?_⟩
    · rw [hnew]; simp
    · intro j hj
      rw [hnew]
      rcases Nat.lt_or_gt_of_ne hj with hlt | hgt
      · exact List.getElem?_append_left hlt
      · rw [List.getElem?_eq_none (by simp; omega), List.getElem?_eq_none (by omega)]
    · rw [hnew]; simp
    · intro hnil; rw [hnew, hnil]; rfl
  · have hlt : i < t.m_Textures.length := (List.getElem?_eq_some.mp hget).1
    refine ⟨i, hret, ?_, ?_, ?_, ?_⟩
    · rw [hnew]; exact List.getElem?_set_self hlt
    · intro j hj
      rw [hnew]; exact List.getElem?_set_ne (Ne.symm hj)
    · rw [hnew, List.length_set]; omega
    · intro hnil; rw [hnil] at hlt; simp at hlt

/-- A call resolving a texture held at position `i` and nowhere else returns `i` and bumps
that entry. -/
theorem AddTexture_present (t : RTInfoTables) (pMaterial : Material)
    (textureClass : TextureClass) (s0 : Int) (info : TextureInfo)
    (hinfo : pMaterial.GetTextureInfo textureClass = some info)
    (i : Nat) (e : BoundTexture) (hget : t.m_Textures[i]? = some e)
    (hp : e.pTexture = info.pTexture)
    (honly : ∀ j, j ≠ i → ∀ e', t.m_Textures[j]? = some e' → e'.pTexture ≠ info.pTexture) :
    (AddTexture t pMaterial textureClass s0).ret = (i : Int) ∧
    (AddTexture t pMaterial textureClass s0).tables.m_Textures =
      t.m_Textures.set i (bumpCount e) := by
  rcases AddTexture_textures t pMaterial textureClass s0 info hinfo with
    ⟨k, ek, hk, hkp, _, hret, hnew⟩ | ⟨hno, _, _, _⟩ | ⟨hno, _⟩
  · have hki : k = i := by
      by_contra hne
      exact honly k hne ek hk hkp
    subst hki
    have hek : ek = e := by rw [hget] at hk; exact (Option.some.inj hk).symm
    subst hek
    exact ⟨hret, hnew⟩
  · exact absurd hp (hno e (List.getElem?_mem hget))
  · exact absurd hp (hno e (List.getElem?_mem hget))

/-- A call that does not resolve the texture held at position `i` leaves that entry alone
as long as its count is not 0. -/
theorem AddTexture_keeps_slot (t : RTInfoTables) (pMaterial : Material)
    (textureClass : TextureClass) (s0 : Int)
    (i : Nat) (e : BoundTexture) (hget : t.m_Textures[i]? = some e) (hnz : e.count ≠ 0)
    (hother : ∀ info, pMaterial.GetTextureInfo textureClass = some info →
      info.pTexture ≠ e.pTexture) :
    (AddTexture t pMaterial textureClass s0).tables.m_Textures[i]? = some e := by
  cases hinfo : pMaterial.GetTextureInfo textureClass with
  | none => simp only [AddTexture, hinfo]; exact hget
  | some info =>
    have hne := hother info hinfo
    have hlt : i < t.m_Textures.length := (List.getElem?_eq_some.mp hget).1
    rcases AddTexture_textures t pMaterial textureClass s0 info hinfo with
      ⟨k, ek, hk, hkp, _, _, hnew⟩ | ⟨_, _, _, hnew⟩ | ⟨_, k, ek, hk, hkc, _, _, hnew⟩
    · have hki : k ≠ i := by
        rintro rfl
        rw [hget] at hk
        have : e = ek := Option.some.inj hk
        subst this
        exact hne hkp.symm
      rw [hnew, List.getElem?_set_ne hki]; exact hget
    · rw [hnew, List.getElem?_append_left hlt]; exact hget
    · have hki : k ≠ i := by
        rintro rfl
        rw [hget] at hk
        have : e = ek := Option.some.inj hk
        subst this
        exact hnz hkc
      rw [hnew, List.getElem?_set_ne hki]; exact hget

/-! ## Claims on `AddTexture` -/

/-- C1, counterexample: with the texture at address 7 bound at position 0 with a reference
count of 4294967295, `AddTexture` for a material carrying that texture returns 0 and leaves
the count at 0: the `uint32_t` count wrapped instead of growing by 1. -/
theorem C1_counterexample_count_wraps :
    (albedoOnly 7 0).GetTextureInfo TextureClass.Albedo =
      some { pTexture := 7, TexSamplerDesc := 0 } ∧
    ({ m_Textures := [{ pTexture := 7, count := 4294967295 }] } : RTInfoTables).m_Textures[0]? =
      some { pTexture := 7, count := 4294967295 } ∧
    (AddTexture { m_Textures := [{ pTexture := 7, count := 4294967295 }] }
      (albedoOnly 7 0) TextureClass.Albedo 0).ret = 0 ∧
    (AddTexture { m_Textures := [{ pTexture := 7, count := 4294967295 }] }
      (albedoOnly 7 0) TextureClass.Albedo 0).tables.m_Textures[0]? =
      some { pTexture := 7, count := 0 } ∧
    (0 : Nat) ≠ 4294967295 + 1 := by
  decide

/-- C1 (amended): when the material has a texture of the class and some entry holds that
texture, `AddTexture` returns the lowest index `i` of such an entry and replaces that entry's
count `c` by `(c + 1) mod 2^32`, which is `c + 1` whenever `c < 2^32 - 1`; the table length and
every other entry are unchanged. -/
theorem C1_AddTexture_bumps_lowest_match (t : RTInfoTables) (pMaterial : Material)
    (textureClass : TextureClass) (s0 : Int) (info : TextureInfo)
    (hinfo : pMaterial.GetTextureInfo textureClass = some info)
    (hex : ∃ e ∈ t.m_Textures, e.pTexture = info.pTexture) :
    ∃ (i : Nat) (e : BoundTexture),
      t.m_Textures[i]? = some e ∧ e.pTexture = info.pTexture ∧
      (∀ j, j < i → ∀ e', t.m_Textures[j]? = some e' → e'.pTexture ≠ info.pTexture) ∧
      (AddTexture t pMaterial textureClass s0).ret = (i : Int) ∧
      (AddTexture t pMaterial textureClass s0).tables.m_Textures[i]? =
        some { pTexture := e.pTexture, count := (e.count + 1) % 4294967296 } ∧
      (e.count < 4294967295 →
        (AddTexture t pMaterial textureClass s0).tables.m_Textures[i]? =
          some { pTexture := e.pTexture, count := e.count + 1 }) ∧
      (AddTexture t pMaterial textureClass s0).tables.m_Textures.length =
        t.m_Textures.length ∧
      (∀ j, j ≠ i → (AddTexture t pMaterial textureClass s0).tables.m_Textures[j]? =
        t.m_Textures[j]?) := by
  obtain ⟨e0, he0, hp0⟩ := hex
  rcases AddTexture_textures t pMaterial textureClass s0 info hinfo with
    ⟨i, e, hget, hp, hlow, hret, hnew⟩ | ⟨hno, _⟩ | ⟨hno, _⟩
  · have hlt : i < t.m_Textures.length := (List.getElem?_eq_some.mp hget).1
    have hi : (AddTexture t pMaterial textureClass s0).tables.m_Textures[i]? =
        some { pTexture := e.pTexture, count := (e.count + 1) % 4294967296 } := by
      rw [hnew, List.getElem?_set_self hlt]; rfl
    refine ⟨i, e, hget, hp, hlow, hret, hi, ?_, ?_, ?_⟩
    · intro hc
      rw [hi, Nat.mod_eq_of_lt (by omega)]
    · rw [hnew, List.length_set]
    · intro j hj
      rw [hnew]; exact List.getElem?_set_ne (Ne.symm hj)
  · exact absurd hp0 (hno e0 he0)
  · exact absurd hp0 (hno e0 he0)

/-- C1, witness: the texture at address 7 is bound at positions 1 and 2. -/
theorem C1_AddTexture_bumps_lowest_match_witness :
    (∃ e ∈ ({ m_Textures := [{ pTexture := 3, count := 1 }, { pTexture := 7, count := 2 },
        { pTexture := 7, count := 5 }] } : RTInfoTables).m_Textures, e.pTexture = 7) ∧
    ∃ (i : Nat) (e : BoundTexture),
      ({ m_Textures := [{ pTexture := 3, count := 1 }, { pTexture := 7, count := 2 },
        { pTexture := 7, count := 5 }] } : RTInfoTables).m_Textures[i]? = some e ∧
      e.pTexture = 7 ∧
      (AddTexture { m_Textures := [{ pTexture := 3, count := 1 }, { pTexture := 7, count := 2 },
        { pTexture := 7, count := 5 }] } (albedoOnly 7 0) TextureClass.Albedo 0).ret = (i : Int) ∧
      (AddTexture { m_Textures := [{ pTexture := 3, count := 1 }, { pTexture := 7, count := 2 },
        { pTexture := 7, count := 5 }] } (albedoOnly 7 0) TextureClass.Albedo 0).tables.m_Textures[i]? =
        some { pTexture := e.pTexture, count := (e.count + 1) % 4294967296 } :=
  ⟨by decide,
    (C1_AddTexture_bumps_lowest_match
      { m_Textures := [{ pTexture := 3, count := 1 }, { pTexture := 7, count := 2 },
        { pTexture := 7, count := 5 }] } (albedoOnly 7 0) TextureClass.Albedo 0
      { pTexture := 7, TexSamplerDesc := 0 } rfl (by decide)).imp
      (fun _ h => h.imp (fun _ h => ⟨h.1, h.2.1, h.2.2.2.1, h.2.2.2.2.1⟩))⟩

/-- C2: when the material has a texture of the class that no entry holds: if some entry has
count 0, `AddTexture` returns the lowest index of such an entry, writes (texture, 1) there and
keeps the length and every other entry; if no entry has count 0, it returns the previous
length and the table is the previous table with (texture, 1) appended. -/
theorem C2_AddTexture_reuses_first_free_or_appends (t : RTInfoTables) (pMaterial : Material)
    (textureClass : TextureClass) (s0 : Int) (info : TextureInfo)
    (hinfo : pMaterial.GetTextureInfo textureClass = some info)
    (hno : ∀ e ∈ t.m_Textures, e.pTexture ≠ info.pTexture) :
    ((∃ e ∈ t.m_Textures, e.count = 0) →
      ∃ (i : Nat) (e : BoundTexture),
        t.m_Textures[i]? = some e ∧ e.count = 0 ∧
        (∀ j, j < i → ∀ e', t.m_Textures[j]? = some e' → e'.count ≠ 0) ∧
        (AddTexture t pMaterial textureClass s0).ret = (i : Int) ∧
        (AddTexture t pMaterial textureClass s0).tables.m_Textures[i]? =
          some { pTexture := info.pTexture, count := 1 } ∧
        (AddTexture t pMaterial textureClass s0).tables.m_Textures.length =
          t.m_Textures.length ∧
        (∀ j, j ≠ i → (AddTexture t pMaterial textureClass s0).tables.m_Textures[j]? =
          t.m_Textures[j]?)) ∧
    ((∀ e ∈ t.m_Textures, e.count ≠ 0) →
      (AddTexture t pMaterial textureClass s0).ret = (t.m_Textures.length : Int) ∧
      (AddTexture t pMaterial textureClass s0).tables.m_Textures =
        t.m_Textures ++ [{ pTexture := info.pTexture, count := 1 }]) := by
  rcases AddTexture_textures t pMaterial textureClass s0 info hinfo with
    ⟨i, e, hget, hp, _, _, _⟩ | ⟨_, hnz, hret, hnew⟩ | ⟨_, i, e, hget, hc, hlow, hret, hnew⟩
  · exact absurd hp (hno e (List.getElem?_mem hget))
  · refine ⟨?_, fun _ => ⟨hret, hnew⟩⟩
    rintro ⟨e, he, hc⟩
    exact absurd hc (hnz e he)
  · have hlt : i < t.m_Textures.length := (List.getElem?_eq_some.mp hget).1
    refine ⟨fun _ => ⟨i, e, hget, hc, hlow, hret, ?_, ?_, ?_⟩, ?_⟩
    · rw [hnew]; exact List.getElem?_set_self hlt
    · rw [hnew, List.length_set]
    · intro j hj
      rw [hnew]; exact List.getElem?_set_ne (Ne.symm hj)
    · intro hnz
      exact absurd hc (hnz e (List.getElem?_mem hget))

/-- C2, witness: a table whose positions 1 and 2 are released, and a table without a
released position. -/
theorem C2_AddTexture_reuses_first_free_or_appends_witness :
    (∀ e ∈ ({ m_Textures := [{ pTexture := 3, count := 1 }, { pTexture := 0, count := 0 },
        { pTexture := 0, count := 0 }] } : RTInfoTables).m_Textures, e.pTexture ≠ 7) ∧
    (∃ (i : Nat) (e : BoundTexture),
      ({ m_Textures := [{ pTexture := 3, count := 1 }, { pTexture := 0, count := 0 },
        { pTexture := 0, count := 0 }] } : RTInfoTables).m_Textures[i]? = some e ∧
      e.count = 0 ∧
      (AddTexture { m_Textures := [{ pTexture := 3, count := 1 }, { pTexture := 0, count := 0 },
        { pTexture := 0, count := 0 }] } (albedoOnly 7 0) TextureClass.Albedo 0).ret = (i : Int) ∧
      (AddTexture { m_Textures := [{ pTexture := 3, count := 1 }, { pTexture := 0, count := 0 },
        { pTexture := 0, count := 0 }] } (albedoOnly 7 0) TextureClass.Albedo 0).tables.m_Textures[i]? =
        some { pTexture := 7, count := 1 }) ∧
    (AddTexture { m_Textures := [{ pTexture := 3, count := 1 }] }
      (albedoOnly 7 0) TextureClass.Albedo 0).tables.m_Textures =
      [{ pTexture := 3, count := 1 }, { pTexture := 7, count := 1 }] :=
  ⟨by decide,
    ((C2_AddTexture_reuses_first_free_or_appends
      { m_Textures := [{ pTexture := 3, count := 1 }, { pTexture := 0, count := 0 },
        { pTexture := 0, count := 0 }] } (albedoOnly 7 0) TextureClass.Albedo 0
      { pTexture := 7, TexSamplerDesc := 0 } rfl (by decide)).1 (by decide)).imp
      (fun _ h => h.imp (fun _ h => ⟨h.1, h.2.1, h.2.2.2.1, h.2.2.2.2.1⟩)),
    ((C2_AddTexture_reuses_first_free_or_appends
      { m_Textures := [{ pTexture := 3, count := 1 }] } (albedoOnly 7 0) TextureClass.Albedo 0
      { pTexture := 7, TexSamplerDesc := 0 } rfl (by decide)).2 (by decide)).2⟩

/-- C3: when the material has no texture of the class, `AddTexture` returns -1 and leaves the
tables (texture table and sampler table) and the sampler index as they were. -/
theorem C3_AddTexture_without_texture (t : RTInfoTables) (pMaterial : Material)
    (textureClass : TextureClass) (s0 : Int)
    (hnone : pMaterial.GetTextureInfo textureClass = none) :
    (AddTexture t pMaterial textureClass s0).ret = -1 ∧
    (AddTexture t pMaterial textureClass s0).tables.m_Textures = t.m_Textures ∧
    (AddTexture t pMaterial textureClass s0).tables.m_Samplers = t.m_Samplers ∧
    (AddTexture t pMaterial textureClass s0).tables = t ∧
    (AddTexture t pMaterial textureClass s0).textureSamplerIndex = s0 := by
  simp [AddTexture, hnone]

/-- C3, witness: a material with an albedo texture only, asked for its normal texture. -/
theorem C3_AddTexture_without_texture_witness :
    (albedoOnly 7 0).GetTextureInfo TextureClass.Normal = none ∧
    (AddTexture { m_Textures := [{ pTexture := 3, count := 1 }], m_Samplers := [{ GetDesc := 4 }] }
      (albedoOnly 7 0) TextureClass.Normal 5).ret = -1 ∧
    (AddTexture { m_Textures := [{ pTexture := 3, count := 1 }], m_Samplers := [{ GetDesc := 4 }] }
      (albedoOnly 7 0) TextureClass.Normal 5).tables =
      { m_Textures := [{ pTexture := 3, count := 1 }], m_Samplers := [{ GetDesc := 4 }] } :=
  ⟨rfl,
    (C3_AddTexture_without_texture
      { m_Textures := [{ pTexture := 3, count := 1 }], m_Samplers := [{ GetDesc := 4 }] }
      (albedoOnly 7 0) TextureClass.Normal 5 rfl).1,
    (C3_AddTexture_without_texture
      { m_Textures := [{ pTexture := 3, count := 1 }], m_Samplers := [{ GetDesc := 4 }] }
      (albedoOnly 7 0) TextureClass.Normal 5 rfl).2.2.2.1⟩

/-- C4: when the material has a texture of the class: if some registered sampler has the
texture's sampler descriptor, the sampler index is the lowest position of such a sampler and
the sampler table is unchanged; if none has, exactly one sampler of that descriptor is
appended and the sampler index is the previous length. In both cases the previous sampler
table is an unchanged initial segment of the new one. -/
theorem C4_AddTexture_resolves_sampler (t : RTInfoTables) (pMaterial : Material)
    (textureClass : TextureClass) (s0 : Int) (info : TextureInfo)
    (hinfo : pMaterial.GetTextureInfo textureClass = some info) :
    ((∃ s ∈ t.m_Samplers, s.GetDesc = info.TexSamplerDesc) →
      ∃ (k : Nat) (s : Sampler),
        t.m_Samplers[k]? = some s ∧ s.GetDesc = info.TexSamplerDesc ∧
        (∀ j, j < k → ∀ s', t.m_Samplers[j]? = some s' → s'.GetDesc ≠ info.TexSamplerDesc) ∧
        (AddTexture t pMaterial textureClass s0).textureSamplerIndex = (k : Int) ∧
        (AddTexture t pMaterial textureClass s0).tables.m_Samplers = t.m_Samplers) ∧
    ((∀ s ∈ t.m_Samplers, s.GetDesc ≠ info.TexSamplerDesc) →
      (AddTexture t pMaterial textureClass s0).textureSamplerIndex =
        (t.m_Samplers.length : Int) ∧
      (AddTexture t pMaterial textureClass s0).tables.m_Samplers =
        t.m_Samplers ++ [CreateSampler info.TexSamplerDesc] ∧
      (CreateSampler info.TexSamplerDesc).GetDesc = info.TexSamplerDesc) ∧
    (∃ added : List Sampler,
      (AddTexture t pMaterial textureClass s0).tables.m_Samplers = t.m_Samplers ++ added) := by
  rcases AddTexture_samplers t pMaterial textureClass s0 info hinfo with
    ⟨k, s, hget, hs, hlow, hidx, hsam⟩ | ⟨hall, hidx, hsam⟩
  · refine ⟨fun _ => ⟨k, s, hget, hs, hlow, hidx, hsam⟩, ?_, ⟨[], by rw [hsam]; simp⟩⟩
    intro hall
    exact absurd hs (hall s (List.getElem?_mem hget))
  · refine ⟨?_, fun _ => ⟨hidx, hsam, rfl⟩, ⟨_, hsam⟩⟩
    rintro ⟨s, hs, hd⟩
    exact absurd hd (hall s hs)

/-- C4, witness: descriptor 4 is registered at positions 1 and 2, descriptor 9 is not
registered. -/
theorem C4_AddTexture_resolves_sampler_witness :
    (∃ (k : Nat) (s : Sampler),
      ({ m_Samplers := [{ GetDesc := 2 }, { GetDesc := 4 }, { GetDesc := 4 }] } :
        RTInfoTables).m_Samplers[k]? = some s ∧
      s.GetDesc = 4 ∧
      (AddTexture { m_Samplers := [{ GetDesc := 2 }, { GetDesc := 4 }, { GetDesc := 4 }] }
        (albedoOnly 7 4) TextureClass.Albedo 0).textureSamplerIndex = (k : Int) ∧
      (AddTexture { m_Samplers := [{ GetDesc := 2 }, { GetDesc := 4 }, { GetDesc := 4 }] }
        (albedoOnly 7 4) TextureClass.Albedo 0).tables.m_Samplers =
        [{ GetDesc := 2 }, { GetDesc := 4 }, { GetDesc := 4 }]) ∧
    (AddTexture { m_Samplers := [{ GetDesc := 2 }, { GetDesc := 4 }, { GetDesc := 4 }] }
      (albedoOnly 7 9) TextureClass.Albedo 0).textureSamplerIndex = 3 ∧
    (AddTexture { m_Samplers := [{ GetDesc := 2 }, { GetDesc := 4 }, { GetDesc := 4 }] }
      (albedoOnly 7 9) TextureClass.Albedo 0).tables.m_Samplers =
      [{ GetDesc := 2 }, { GetDesc := 4 }, { GetDesc := 4 }, { GetDesc := 9 }] :=
  ⟨((C4_AddTexture_resolves_sampler
      { m_Samplers := [{ GetDesc := 2 }, { GetDesc := 4 }, { GetDesc := 4 }] }
      (albedoOnly 7 4) TextureClass.Albedo 0 { pTexture := 7, TexSamplerDesc := 4 } rfl).1
      (by decide)).imp
      (fun _ h => h.imp (fun _ h => ⟨h.1, h.2.1, h.2.2.2.1, h.2.2.2.2⟩)),
    ((C4_AddTexture_resolves_sampler
      { m_Samplers := [{ GetDesc := 2 }, { GetDesc := 4 }, { GetDesc := 4 }] }
      (albedoOnly 7 9) TextureClass.Albedo 0 { pTexture := 7, TexSamplerDesc := 9 } rfl).2.1
      (by decide)).1,
    ((C4_AddTexture_resolves_sampler
      { m_Samplers := [{ GetDesc := 2 }, { GetDesc := 4 }, { GetDesc := 4 }] }
      (albedoOnly 7 9) TextureClass.Albedo 0 { pTexture := 7, TexSamplerDesc := 9 } rfl).2.1
      (by decide)).2.1⟩

/-- C5: from a texture table in which no entry holds texture `T`, a call of `AddTexture` for
a material carrying `T`, followed by a call for the same class on a second material carrying
`T`, return the same index; after the second call that entry is `(T, 2)` and the table has
at most one entry more than at the start; from the empty table it is exactly `[(T, 2)]`. -/
theorem C5_AddTexture_twice_same_texture (t : RTInfoTables) (T : TexturePtr)
    (m1 m2 : Material) (textureClass : TextureClass) (s1 s2 : Int) (info1 info2 : TextureInfo)
    (r1 r2 : AddTextureResult)
    (hinfo1 : m1.GetTextureInfo textureClass = some info1) (hT1 : info1.pTexture = T)
    (hinfo2 : m2.GetTextureInfo textureClass = some info2) (hT2 : info2.pTexture = T)
    (hno : ∀ e ∈ t.m_Textures, e.pTexture ≠ T)
    (hr1 : r1 = AddTexture t m1 textureClass s1)
    (hr2 : r2 = AddTexture r1.tables m2 textureClass s2) :
    ∃ i : Nat, r1.ret = (i : Int) ∧ r2.ret = (i : Int) ∧
      r2.tables.m_Textures[i]? = some { pTexture := T, count := 2 } ∧
      r2.tables.m_Textures.length ≤ t.m_Textures.length + 1 ∧
      (t.m_Textures = [] → r2.tables.m_Textures = [{ pTexture := T, count := 2 }]) := by
  subst hT1
  obtain ⟨i, hret1, hget1, hother1, hlen1, hnil1⟩ :=
    AddTexture_fresh t m1 textureClass s1 info1 hinfo1 hno
  rw [← hr1] at hret1 hget1 hother1 hlen1 hnil1
  have honly : ∀ j, j ≠ i → ∀ e', r1.tables.m_Textures[j]? = some e' →
      e'.pTexture ≠ info2.pTexture := by
    intro j hj e' he'
    rw [hother1 j hj] at he'
    rw [hT2]
    exact hno e' (List.getElem?_mem he')
  obtain ⟨hret2, hnew2⟩ :=
    AddTexture_present r1.tables m2 textureClass s2 info2 hinfo2 i _ hget1 hT2.symm honly
  rw [← hr2] at hret2 hnew2
  have hbump : bumpCount { pTexture := info1.pTexture, count := 1 } =
      { pTexture := info1.pTexture, count := 2 } := by
    simp [bumpCount, UINT32_RANGE]
  rw [hbump] at hnew2
  have hlt : i < r1.tables.m_Textures.length := (List.getElem?_eq_some.mp hget1).1
  refine ⟨i, hret1, hret2, ?_, ?_, ?_⟩
  · rw [hnew2]; exact List.getElem?_set_self hlt
  · rw [hnew2, List.length_set]; exact hlen1
  · intro hnil
    have h1 := hnil1 hnil
    rw [h1] at hlt
    have hi0 : i = 0 := by simpa using hlt
    rw [hnew2, h1, hi0]
    rfl

/-- C5, witness: two materials with different sampler descriptors carry the texture at
address 7; the table holds a released entry at position 1. -/
theorem C5_AddTexture_twice_same_texture_witness :
    (∀ e ∈ ({ m_Textures := [{ pTexture := 3, count := 1 }, { pTexture := 0, count := 0 }] } :
      RTInfoTables).m_Textures, e.pTexture ≠ 7) ∧
    ∃ i : Nat,
      (AddTexture { m_Textures := [{ pTexture := 3, count := 1 }, { pTexture := 0, count := 0 }] }
        (albedoOnly 7 0) TextureClass.Albedo 0).ret = (i : Int) ∧
      (AddTexture
        (AddTexture { m_Textures := [{ pTexture := 3, count := 1 }, { pTexture := 0, count := 0 }] }
          (albedoOnly 7 0) TextureClass.Albedo 0).tables
        (albedoOnly 7 1) TextureClass.Albedo 0).ret = (i : Int) ∧
      (AddTexture
        (AddTexture { m_Textures := [{ pTexture := 3, count := 1 }, { pTexture := 0, count := 0 }] }
          (albedoOnly 7 0) TextureClass.Albedo 0).tables
        (albedoOnly 7 1) TextureClass.Albedo 0).tables.m_Textures[i]? =
        some { pTexture := 7, count := 2 } :=
  ⟨by decide,
    (C5_AddTexture_twice_same_texture
      { m_Textures := [{ pTexture := 3, count := 1 }, { pTexture := 0, count := 0 }] } 7
      (albedoOnly 7 0) (albedoOnly 7 1) TextureClass.Albedo 0 0
      { pTexture := 7, TexSamplerDesc := 0 } { pTexture := 7, TexSamplerDesc := 1 }
      _ _ rfl rfl rfl rfl (by decide) rfl rfl).imp
      (fun _ h => ⟨h.1, h.2.1, h.2.2.1⟩)⟩

/-! ## Claims on `RemoveTexture` -/

/-- `RemoveTexture` at an occupied position rewrites that entry only. -/
theorem RemoveTexture_at (t : RTInfoTables) (i : Nat) (e : BoundTexture)
    (hget : t.m_Textures[i]? = some e) :
    RemoveTexture t (i : Int) =
      some { t with m_Textures := t.m_Textures.set i (releaseRef e) } := by
  simp [RemoveTexture, hget]

/-- Releasing one reference of an entry whose count is at least 1 (and a `uint32_t`). -/
theorem releaseRef_pos (e : BoundTexture) (hpos : 1 ≤ e.count) (hlt : e.count < 4294967296) :
    releaseRef e =
      { pTexture := if e.count - 1 = 0 then nullptr else e.pTexture, count := e.count - 1 } := by
  have hmod : (e.count + 4294967296 - 1) % 4294967296 = e.count - 1 := by omega
  simp only [releaseRef, UINT32_RANGE, hmod]
  split <;> rfl

/-- `RemoveTexture` with an index other than `i` leaves position `i` as it was. -/
theorem RemoveTexture_keeps_slot (t t' : RTInfoTables) (index : Int) (i : Nat)
    (hne : index ≠ (i : Int)) (hrem : RemoveTexture t index = some t') :
    t'.m_Textures[i]? = t.m_Textures[i]? := by
  unfold RemoveTexture at hrem
  split at hrem
  · rename_i hge
    split at hrem
    · exact absurd hrem (by simp)
    · have ht := (Option.some.inj hrem).symm
      subst ht
      have hni : index.toNat ≠ i := by omega
      exact List.getElem?_set_ne hni
  · have ht := (Option.some.inj hrem).symm
    subst ht
    rfl

/-- C6: `RemoveTexture` with a negative index leaves the tables as they were; with the index
of an entry whose (32-bit) count is `n >= 1` it sets the count to `n - 1`, stores the null
pointer exactly when `n - 1 = 0` and keeps the texture otherwise, and leaves the table
length, every other entry and the sampler table as they were. -/
theorem C6_RemoveTexture_effect (t : RTInfoTables) :
    (∀ index : Int, index < 0 → RemoveTexture t index = some t) ∧
    (∀ (i : Nat) (e : BoundTexture), t.m_Textures[i]? = some e → 1 ≤ e.count →
      e.count < 4294967296 →
      ∃ t' : RTInfoTables, RemoveTexture t (i : Int) = some t' ∧
        t'.m_Textures[i]? = some
          { pTexture := if e.count - 1 = 0 then nullptr else e.pTexture,
            count := e.count - 1 } ∧
        t'.m_Textures.length = t.m_Textures.length ∧
        (∀ j, j ≠ i → t'.m_Textures[j]? = t.m_Textures[j]?) ∧
        t'.m_Samplers = t.m_Samplers) := by
  refine ⟨?_, ?_⟩
  · intro index hneg
    have hn : ¬ (0 ≤ index) := by omega
    simp only [RemoveTexture, if_neg hn]
  · intro i e hget hpos hlt
    have hi : i < t.m_Textures.length := (List.getElem?_eq_some.mp hget).1
    refine ⟨_, RemoveTexture_at t i e hget, ?_, ?_, ?_, rfl⟩
    · show (t.m_Textures.set i (releaseRef e))[i]? = _
      rw [List.getElem?_set_self hi, releaseRef_pos e hpos hlt]
    · show (t.m_Textures.set i (releaseRef e)).length = _
      rw [List.length_set]
    · intro j hj
      show (t.m_Textures.set i (releaseRef e))[j]? = _
      exact List.getElem?_set_ne (Ne.symm hj)

/-- C6, witness: index -1, an entry with count 2 and an entry with count 1. -/
theorem C6_RemoveTexture_effect_witness :
    RemoveTexture { m_Textures := [{ pTexture := 3, count := 2 }, { pTexture := 7, count := 1 }] }
      (-1) =
      some { m_Textures := [{ pTexture := 3, count := 2 }, { pTexture := 7, count := 1 }] } ∧
    (∃ t' : RTInfoTables,
      RemoveTexture
        { m_Textures := [{ pTexture := 3, count := 2 }, { pTexture := 7, count := 1 }] }
        ((0 : Nat) : Int) = some t' ∧
      t'.m_Textures[0]? = some { pTexture := 3, count := 1 }) ∧
    (∃ t' : RTInfoTables,
      RemoveTexture
        { m_Textures := [{ pTexture := 3, count := 2 }, { pTexture := 7, count := 1 }] }
        ((1 : Nat) : Int) = some t' ∧
      t'.m_Textures[1]? = some { pTexture := nullptr, count := 0 }) :=
  ⟨(C6_RemoveTexture_effect
      { m_Textures := [{ pTexture := 3, count := 2 }, { pTexture := 7, count := 1 }] }).1
      (-1) (by decide),
    ((C6_RemoveTexture_effect
      { m_Textures := [{ pTexture := 3, count := 2 }, { pTexture := 7, count := 1 }] }).2
      0 { pTexture := 3, count := 2 } rfl (by decide) (by decide)).imp
      (fun _ h => ⟨h.1, h.2.1⟩),
    ((C6_RemoveTexture_effect
      { m_Textures := [{ pTexture := 3, count := 2 }, { pTexture := 7, count := 1 }] }).2
      1 { pTexture := 7, count := 1 } rfl (by decide) (by decide)).imp
      (fun _ h => ⟨h.1, h.2.1⟩)⟩

/-- Fewer than `n` calls of `RemoveTexture(i)` on an entry with count `n` succeed and leave
the entry with its texture and the count lowered by the number of calls. -/
theorem RemoveTextureTimes_below (t : RTInfoTables) (i : Nat) (e : BoundTexture)
    (hget : t.m_Textures[i]? = some e) (hlt : e.count < 4294967296) :
    ∀ k, k < e.count →
      ∃ tk : RTInfoTables, RemoveTextureTimes t (i : Int) k = some tk ∧
        tk.m_Textures[i]? = some { pTexture := e.pTexture, count := e.count - k } := by
  intro k
  induction k with
  | zero =>
    intro _
    exact ⟨t, rfl, by simpa using hget⟩
  | succ k ih =>
    intro hk
    obtain ⟨tk, htk, hslot⟩ := ih (by omega)
    have hi : i < tk.m_Textures.length := (List.getElem?_eq_some.mp hslot).1
    refine ⟨{ tk with m_Textures := (tk.m_Textures.set i
      (releaseRef { pTexture := e.pTexture, count := e.count - k })) }, ?_, ?_⟩
    · simp only [RemoveTextureTimes, htk, Option.some_bind]
      exact RemoveTexture_at tk i _ hslot
    · show (tk.m_Textures.set i (releaseRef _))[i]? = _
      rw [List.getElem?_set_self hi,
        releaseRef_pos _ (show 1 ≤ e.count - k by omega) (show e.count - k < 4294967296 by omega)]
      have hne : ¬ (e.count - k - 1 = 0) := by omega
      simp only [if_neg hne]
      congr 2

/-- C7: for an entry at position `i` with (32-bit) count `n >= 1`: after `k < n` calls of
`RemoveTexture(i)` in a row the entry still holds its texture, with the nonzero count `n - k`;
after `n` calls it holds the null pointer with count exactly 0. -/
theorem C7_RemoveTexture_n_times (t : RTInfoTables) (i : Nat) (e : BoundTexture)
    (hget : t.m_Textures[i]? = some e) (hpos : 1 ≤ e.count) (hlt : e.count < 4294967296) :
    (∀ k, k < e.count →
      ∃ tk : RTInfoTables, RemoveTextureTimes t (i : Int) k = some tk ∧
        tk.m_Textures[i]? = some { pTexture := e.pTexture, count := e.count - k } ∧
        e.count - k ≠ 0) ∧
    (∃ tn : RTInfoTables, RemoveTextureTimes t (i : Int) e.count = some tn ∧
      tn.m_Textures[i]? = some { pTexture := nullptr, count := 0 }) := by
  refine ⟨?_, ?_⟩
  · intro k hk
    obtain ⟨tk, htk, hslot⟩ := RemoveTextureTimes_below t i e hget hlt k hk
    exact ⟨tk, htk, hslot, by omega⟩
  · obtain ⟨tk, htk, hslot⟩ := RemoveTextureTimes_below t i e hget hlt (e.count - 1) (by omega)
    have hi : i < tk.m_Textures.length := (List.getElem?_eq_some.mp hslot).1
    have hn : e.count = (e.count - 1) + 1 := by omega
    refine ⟨{ tk with m_Textures := (tk.m_Textures.set i
      (releaseRef { pTexture := e.pTexture, count := e.count - (e.count - 1) })) }, ?_, ?_⟩
    · have hstep : RemoveTextureTimes t (i : Int) (e.count - 1 + 1) =
          RemoveTexture tk (i : Int) := by
        simp only [RemoveTextureTimes, htk, Option.some_bind]
      rw [← hn] at hstep
      rw [hstep]
      exact RemoveTexture_at tk i _ hslot
    · show (tk.m_Textures.set i (releaseRef _))[i]? = _
      rw [List.getElem?_set_self hi,
        releaseRef_pos _ (show 1 ≤ e.count - (e.count - 1) by omega)
          (show e.count - (e.count - 1) < 4294967296 by omega)]
      have h0 : e.count - (e.count - 1) - 1 = 0 := by omega
      simp only [h0, if_true]

/-- C7, witness: an entry with count 3; after 2 calls it is `(7, 1)`, after 3 calls it is
released. -/
theorem C7_RemoveTexture_n_times_witness :
    (∃ tk : RTInfoTables,
      RemoveTextureTimes { m_Textures := [{ pTexture := 7, count := 3 }] } ((0 : Nat) : Int) 2 =
        some tk ∧
      tk.m_Textures[0]? = some { pTexture := 7, count := 3 - 2 }) ∧
    (∃ tn : RTInfoTables,
      RemoveTextureTimes { m_Textures := [{ pTexture := 7, count := 3 }] } ((0 : Nat) : Int) 3 =
        some tn ∧
      tn.m_Textures[0]? = some { pTexture := nullptr, count := 0 }) :=
  ⟨((C7_RemoveTexture_n_times { m_Textures := [{ pTexture := 7, count := 3 }] } 0
      { pTexture := 7, count := 3 } rfl (by decide) (by decide)).1 2 (by decide)).imp
      (fun _ h => ⟨h.1, h.2.1⟩),
    (C7_RemoveTexture_n_times { m_Textures := [{ pTexture := 7, count := 3 }] } 0
      { pTexture := 7, count := 3 } rfl (by decide) (by decide)).2⟩

/-- `RemoveTexture` keeps the length of the texture table. -/
theorem RemoveTexture_length (t t' : RTInfoTables) (index : Int)
    (hrem : RemoveTexture t index = some t') :
    t'.m_Textures.length = t.m_Textures.length := by
  unfold RemoveTexture at hrem
  split at hrem
  · split at hrem
    · exact absurd hrem (by simp)
    · have ht := (Option.some.inj hrem).symm
      subst ht
      exact List.length_set _ _ _
  · have ht := (Option.some.inj hrem).symm
    subst ht
    rfl

/-- C8, the code at the failing input: from the empty tables, binding the textures at
addresses 5 and 6 and removing index 1 once gives the table `[(5, 1), (nullptr, 0)]`;
`RemoveTexture(1)` on that table, whose position 1 already has count 0, does not leave it
unchanged: the `uint32_t` count wraps to 4294967295. -/
theorem C8_RemoveTexture_at_zero_count_wraps :
    applyOps {}
      [TableOp.add (albedoOnly 5 0) TextureClass.Albedo 0,
       TableOp.add (albedoOnly 6 0) TextureClass.Albedo 0,
       TableOp.remove 1] =
      some { m_Textures := [{ pTexture := 5, count := 1 }, { pTexture := nullptr, count := 0 }],
             m_Samplers := [{ GetDesc := 0 }] } ∧
    RemoveTexture
      { m_Textures := [{ pTexture := 5, count := 1 }, { pTexture := nullptr, count := 0 }],
        m_Samplers := [{ GetDesc := 0 }] } 1 =
      some { m_Textures := [{ pTexture := 5, count := 1 },
                            { pTexture := nullptr, count := 4294967295 }],
             m_Samplers := [{ GetDesc := 0 }] } ∧
    RemoveTexture
      { m_Textures := [{ pTexture := 5, count := 1 }, { pTexture := nullptr, count := 0 }],
        m_Samplers := [{ GetDesc := 0 }] } 1 ≠
      some { m_Textures := [{ pTexture := 5, count := 1 }, { pTexture := nullptr, count := 0 }],
             m_Samplers := [{ GetDesc := 0 }] } := by
  decide

/-- C9, counterexample: in the table `[(nullptr, 0), (9, 1)]`, `RemoveTexture(1)` drives
position 1 to count 0; the next `AddTexture`, for the texture at address 4 which no entry
holds, returns index 0 and not index 1. -/
theorem C9_counterexample_lower_free_slot :
    RemoveTexture
      { m_Textures := [{ pTexture := nullptr, count := 0 }, { pTexture := 9, count := 1 }] } 1 =
      some { m_Textures := [{ pTexture := nullptr, count := 0 },
                            { pTexture := nullptr, count := 0 }] } ∧
    (albedoOnly 4 0).GetTextureInfo TextureClass.Albedo =
      some { pTexture := 4, TexSamplerDesc := 0 } ∧
    (∀ e ∈ ({ m_Textures := [{ pTexture := nullptr, count := 0 },
        { pTexture := nullptr, count := 0 }] } : RTInfoTables).m_Textures, e.pTexture ≠ 4) ∧
    (AddTexture
      { m_Textures := [{ pTexture := nullptr, count := 0 }, { pTexture := nullptr, count := 0 }] }
      (albedoOnly 4 0) TextureClass.Albedo 0).ret = 0 ∧
    (AddTexture
      { m_Textures := [{ pTexture := nullptr, count := 0 }, { pTexture := nullptr, count := 0 }] }
      (albedoOnly 4 0) TextureClass.Albedo 0).ret ≠ 1 := by
  decide

/-- C9 (amended): if `RemoveTexture(i)` leaves position `i` with count 0, the next
`AddTexture` call for a texture that no entry holds returns the lowest index whose count is
0, an index that is at most `i` and is exactly `i` when no position below `i` has count 0;
it writes (texture, 1) there and the table keeps the length it had before the removal. -/
theorem C9_AddTexture_after_release_reuses_lowest_free (t t1 : RTInfoTables) (i : Nat)
    (e1 : BoundTexture) (pMaterial : Material) (textureClass : TextureClass) (s0 : Int)
    (info : TextureInfo)
    (hrem : RemoveTexture t (i : Int) = some t1)
    (hslot : t1.m_Textures[i]? = some e1) (hzero : e1.count = 0)
    (hinfo : pMaterial.GetTextureInfo textureClass = some info)
    (hno : ∀ e ∈ t1.m_Textures, e.pTexture ≠ info.pTexture) :
    ∃ (k : Nat) (ek : BoundTexture), k ≤ i ∧
      t1.m_Textures[k]? = some ek ∧ ek.count = 0 ∧
      (∀ j, j < k → ∀ e', t1.m_Textures[j]? = some e' → e'.count ≠ 0) ∧
      (AddTexture t1 pMaterial textureClass s0).ret = (k : Int) ∧
      (AddTexture t1 pMaterial textureClass s0).tables.m_Textures[k]? =
        some { pTexture := info.pTexture, count := 1 } ∧
      (AddTexture t1 pMaterial textureClass s0).tables.m_Textures.length =
        t.m_Textures.length ∧
      ((∀ j, j < i → ∀ e', t1.m_Textures[j]? = some e' → e'.count ≠ 0) →
        (AddTexture t1 pMaterial textureClass s0).ret = (i : Int)) := by
  rcases AddTexture_textures t1 pMaterial textureClass s0 info hinfo with
    ⟨k, ek, hget, hp, _, _, _⟩ | ⟨_, hnz, _, _⟩ | ⟨_, k, ek, hget, hc, hlow, hret, hnew⟩
  · exact absurd hp (hno ek (List.getElem?_mem hget))
  · exact absurd hzero (hnz e1 (List.getElem?_mem hslot))
  · have hlt : k < t1.m_Textures.length := (List.getElem?_eq_some.mp hget).1
    have hki : k ≤ i := by
      by_contra hgt
      exact hlow i (by omega) e1 hslot hzero
    refine ⟨k, ek, hki, hget, hc, hlow, hret, ?_, ?_, ?_⟩
    · rw [hnew]; exact List.getElem?_set_self hlt
    · rw [hnew, List.length_set]; exact RemoveTexture_length t t1 _ hrem
    · intro hbelow
      have hik : k = i := by
        by_contra hne
        exact hbelow k (by omega) ek hget hc
      rw [hret, hik]

/-- C9, witness: position 2 of `[(3, 1), (nullptr, 0), (9, 1)]` is released by
`RemoveTexture(2)`; the next new texture goes to position 1. -/
theorem C9_AddTexture_after_release_reuses_lowest_free_witness :
    RemoveTexture
      { m_Textures := [{ pTexture := 3, count := 1 }, { pTexture := nullptr, count := 0 },
        { pTexture := 9, count := 1 }] } ((2 : Nat) : Int) =
      some { m_Textures := [{ pTexture := 3, count := 1 }, { pTexture := nullptr, count := 0 },
        { pTexture := nullptr, count := 0 }] } ∧
    ∃ (k : Nat) (ek : BoundTexture), k ≤ 2 ∧
      ({ m_Textures := [{ pTexture := 3, count := 1 }, { pTexture := nullptr, count := 0 },
        { pTexture := nullptr, count := 0 }] } : RTInfoTables).m_Textures[k]? = some ek ∧
      ek.count = 0 ∧
      (AddTexture { m_Textures := [{ pTexture := 3, count := 1 },
        { pTexture := nullptr, count := 0 }, { pTexture := nullptr, count := 0 }] }
        (albedoOnly 4 0) TextureClass.Albedo 0).ret = (k : Int) :=
  ⟨by decide,
    (C9_AddTexture_after_release_reuses_lowest_free
      { m_Textures := [{ pTexture := 3, count := 1 }, { pTexture := nullptr, count := 0 },
        { pTexture := 9, count := 1 }] }
      { m_Textures := [{ pTexture := 3, count := 1 }, { pTexture := nullptr, count := 0 },
        { pTexture := nullptr, count := 0 }] }
      2 { pTexture := nullptr, count := 0 } (albedoOnly 4 0) TextureClass.Albedo 0
      { pTexture := 4, TexSamplerDesc := 0 } (by decide) rfl rfl rfl (by decide)).imp
      (fun _ h => h.imp (fun _ h => ⟨h.1, h.2.1, h.2.2.1, h.2.2.2.2.1⟩))⟩

/-! ## Index stability -/

/-- A call that avoids texture `T` and position `i` leaves an entry `(T, c)` with `c` not 0
at position `i` as it was. -/
theorem applyOp_keeps_slot (t t' : RTInfoTables) (op : TableOp) (i : Nat) (e : BoundTexture)
    (hget : t.m_Textures[i]? = some e) (hnz : e.count ≠ 0)
    (havoid : op.Avoids e.pTexture i) (hop : applyOp t op = some t') :
    t'.m_Textures[i]? = some e := by
  cases op with
  | add pMaterial textureClass s0 =>
    simp only [applyOp, Option.some.injEq] at hop
    subst hop
    exact AddTexture_keeps_slot t pMaterial textureClass s0 i e hget hnz havoid
  | remove index =>
    simp only [applyOp] at hop
    rw [RemoveTexture_keeps_slot t t' index i havoid hop]
    exact hget

/-- A sequence of calls that all avoid texture `T` and position `i` leaves an entry `(T, c)`
with `c` not 0 at position `i` as it was. -/
theorem applyOps_keeps_slot (i : Nat) (e : BoundTexture) (hnz : e.count ≠ 0) :
    ∀ (ops : List TableOp) (t t' : RTInfoTables), t.m_Textures[i]? = some e →
      (∀ op ∈ ops, op.Avoids e.pTexture i) → applyOps t ops = some t' →
      t'.m_Textures[i]? = some e := by
  intro ops
  induction ops with
  | nil =>
    intro t t' hget _ hrun
    simp only [applyOps, Option.some.injEq] at hrun
    subst hrun
    exact hget
  | cons op ops ih =>
    intro t t' hget havoid hrun
    simp only [applyOps] at hrun
    cases hop : applyOp t op with
    | none => rw [hop] at hrun; exact absurd hrun (by simp)
    | some tm =>
      rw [hop, Option.some_bind] at hrun
      have hm := applyOp_keeps_slot t tm op i e hget hnz
        (havoid op (List.mem_cons_self _ _)) hop
      exact ih tm t' hm (fun o ho => havoid o (List.mem_cons_of_mem _ ho)) hrun

/-- `AddTexture` on a material that has the texture returns a position of the new table,
and the entry there holds the texture. -/
theorem AddTexture_ret_holds (t : RTInfoTables) (pMaterial : Material)
    (textureClass : TextureClass) (s0 : Int) (info : TextureInfo)
    (hinfo : pMaterial.GetTextureInfo textureClass = some info) :
    ∃ (i : Nat) (e : BoundTexture),
      (AddTexture t pMaterial textureClass s0).ret = (i : Int) ∧
      (AddTexture t pMaterial textureClass s0).tables.m_Textures[i]? = some e ∧
      e.pTexture = info.pTexture ∧
      (e.count = 1 ∨ ∃ e0 ∈ t.m_Textures, e = bumpCount e0) := by
  rcases AddTexture_textures t pMaterial textureClass s0 info hinfo with
    ⟨i, e, hget, hp, _, hret, hnew⟩ | ⟨_, _, hret, hnew⟩ | ⟨_, i, e, hget, _, _, hret, hnew⟩
  · have hlt : i < t.m_Textures.length := (List.getElem?_eq_some.mp hget).1
    refine ⟨i, bumpCount e, hret, ?_, hp, Or.inr ⟨e, List.getElem?_mem hget, rfl⟩⟩
    rw [hnew]; exact List.getElem?_set_self hlt
  · refine ⟨t.m_Textures.length, { pTexture := info.pTexture, count := 1 }, hret, ?_, rfl,
      Or.inl rfl⟩
    rw [hnew]; simp
  · have hlt : i < t.m_Textures.length := (List.getElem?_eq_some.mp hget).1
    refine ⟨i, { pTexture := info.pTexture, count := 1 }, hret, ?_, rfl, Or.inl rfl⟩
    rw [hnew]; exact List.getElem?_set_self hlt

/-- C10: if `AddTexture` returned index `i` for texture `T`, position `i` holds `T`; while
the count there is not 0, after every sequence of calls each of which is an `AddTexture` not
resolving `T` or a `RemoveTexture(j)` with `j` other than `i`, position `i` holds the very
same entry: `T` with the same nonzero count. The count left by the call is not 0 whenever
every count in the table before the call was below 2^32 - 1 (the `uint32_t` count cannot
have wrapped). -/
theorem C10_index_stable_while_referenced (t0 : RTInfoTables) (pMaterial : Material)
    (textureClass : TextureClass) (s0 : Int) (info : TextureInfo) (i : Nat)
    (hinfo : pMaterial.GetTextureInfo textureClass = some info)
    (hret : (AddTexture t0 pMaterial textureClass s0).ret = (i : Int)) :
    ∃ e : BoundTexture,
      (AddTexture t0 pMaterial textureClass s0).tables.m_Textures[i]? = some e ∧
      e.pTexture = info.pTexture ∧
      ((∀ e0 ∈ t0.m_Textures, e0.count < 4294967295) → e.count ≠ 0) ∧
      (e.count ≠ 0 →
        ∀ (ops : List TableOp) (t2 : RTInfoTables),
          (∀ op ∈ ops, op.Avoids info.pTexture i) →
          applyOps (AddTexture t0 pMaterial textureClass s0).tables ops = some t2 →
          t2.m_Textures[i]? = some e) := by
  obtain ⟨k, e, hk, hget, hp, hcount⟩ :=
    AddTexture_ret_holds t0 pMaterial textureClass s0 info hinfo
  have hki : k = i := by
    rw [hk] at hret
    exact Int.ofNat.inj hret
  subst hki
  refine ⟨e, hget, hp, ?_, ?_⟩
  · intro hsmall
    rcases hcount with h1 | ⟨e0, he0, hb⟩
    · omega
    · have h0 := hsmall e0 he0
      rw [hb]
      simp only [bumpCount, UINT32_RANGE]
      omega
  · intro hnz ops t2 havoid hrun
    exact applyOps_keeps_slot k e hnz ops _ t2 hget (by rw [hp]; exact havoid) hrun

/-- C10, witness: the texture at address 7 is bound at index 1 of `[(3, 1)]`; then another
texture is bound, index 0 is removed, a material without normal texture is asked for one,
index -1 and index 2 are removed, and a new texture takes the released position 0. -/
theorem C10_index_stable_while_referenced_witness :
    (AddTexture { m_Textures := [{ pTexture := 3, count := 1 }] }
      (albedoOnly 7 0) TextureClass.Albedo 0).ret = ((1 : Nat) : Int) ∧
    ∃ e : BoundTexture,
      (AddTexture { m_Textures := [{ pTexture := 3, count := 1 }] }
        (albedoOnly 7 0) TextureClass.Albedo 0).tables.m_Textures[1]? = some e ∧
      e.pTexture = 7 ∧ e.count ≠ 0 ∧
      applyOps
        (AddTexture { m_Textures := [{ pTexture := 3, count := 1 }] }
          (albedoOnly 7 0) TextureClass.Albedo 0).tables
        [TableOp.add (albedoOnly 9 1) TextureClass.Albedo 0,
         TableOp.remove 0,
         TableOp.add (albedoOnly 4 0) TextureClass.Normal 0,
         TableOp.remove (-1),
         TableOp.remove 2,
         TableOp.add (albedoOnly 5 0) TextureClass.Albedo 0] =
        some { m_Textures := [{ pTexture := 5, count := 1 }, { pTexture := 7, count := 1 },
                              { pTexture := nullptr, count := 0 }],
               m_Samplers := [{ GetDesc := 0 }, { GetDesc := 1 }] } ∧
      ({ m_Textures := [{ pTexture := 5, count := 1 }, { pTexture := 7, count := 1 },
                        { pTexture := nullptr, count := 0 }],
         m_Samplers := [{ GetDesc := 0 }, { GetDesc := 1 }] } : RTInfoTables).m_Textures[1]? =
        some e := by
  refine ⟨by decide, ?_⟩
  obtain ⟨e, hslot, hp, _, hstable⟩ :=
    C10_index_stable_while_referenced { m_Textures := [{ pTexture := 3, count := 1 }] }
      (albedoOnly 7 0) TextureClass.Albedo 0 { pTexture := 7, TexSamplerDesc := 0 } 1 rfl
      (by decide)
  have hval : (AddTexture { m_Textures := [{ pTexture := 3, count := 1 }] }
      (albedoOnly 7 0) TextureClass.Albedo 0).tables.m_Textures[1]? =
      some { pTexture := 7, count := 1 } := by decide
  have he : e = { pTexture := 7, count := 1 } := by
    rw [hval] at hslot
    exact (Option.some.inj hslot).symm
  have hnz : e.count ≠ 0 := by rw [he]; decide
  have hrun : applyOps
      (AddTexture { m_Textures := [{ pTexture := 3, count := 1 }] }
        (albedoOnly 7 0) TextureClass.Albedo 0).tables
      [TableOp.add (albedoOnly 9 1) TextureClass.Albedo 0,
       TableOp.remove 0,
       TableOp.add (albedoOnly 4 0) TextureClass.Normal 0,
       TableOp.remove (-1),
       TableOp.remove 2,
       TableOp.add (albedoOnly 5 0) TextureClass.Albedo 0] =
      some { m_Textures := [{ pTexture := 5, count := 1 }, { pTexture := 7, count := 1 },
                            { pTexture := nullptr, count := 0 }],
             m_Samplers := [{ GetDesc := 0 }, { GetDesc := 1 }] } := by decide
  refine ⟨e, hslot, hp, hnz, hrun, hstable hnz _ _ ?_ hrun⟩
  intro op hop
  simp only [List.mem_cons, List.mem_singleton, List.mem_nil_iff, or_false] at hop
  rcases hop with rfl | rfl | rfl | rfl | rfl | rfl
  · intro info hinfo
    simp only [albedoOnly, Option.some.injEq] at hinfo
    subst hinfo; decide
  · show (0 : Int) ≠ ((1 : Nat) : Int)
    decide
  · intro info hinfo
    simp [albedoOnly] at hinfo
  · show (-1 : Int) ≠ ((1 : Nat) : Int)
    decide
  · show (2 : Int) ≠ ((1 : Nat) : Int)
    decide
  · intro info hinfo
    simp only [albedoOnly, Option.some.injEq] at hinfo
    subst hinfo; decide

/-! ## Per-frame dispatch and the work-graph program -/

/-- Clearing the initialize flag leaves it clear, whatever the other bits are. -/
theorem clearInitializeFlag_clear (Flags : Nat) :
    clearInitializeFlag Flags &&& D3D12_SET_WORK_GRAPH_FLAG_INITIALIZE = 0 := by
  unfold clearInitializeFlag D3D12_SET_WORK_GRAPH_FLAG_INITIALIZE
  rw [Nat.land_assoc]
  have h : (4294967295 ^^^ 1) &&& 1 = 0 := by decide
  rw [h]
  simp

/-- `Execute` does not change what `selectionInRange` reads. -/
theorem Execute_selectionInRange (s s' : State) (sizeof : SizeOf) (q : Bool)
    (c : ExecuteCalls) (h : Execute s sizeof q = some (s', c)) :
    selectionInRange s' = selectionInRange s := by
  unfold Execute at h
  split at h
  · exact absurd h (by simp)
  · split at h
    · exact absurd h (by simp)
    · simp only [Option.some.injEq, Prod.mk.injEq] at h
      rw [← h.1]
      rfl

/-- With the selection in range and the command-list interface obtained, `Execute` succeeds:
it passes the current program description to `SetProgram`, the two record arrays to
`DispatchGraph`, and then clears the initialize flag. -/
theorem Execute_succeeds (s : State) (sizeof : SizeOf) (hsel : selectionInRange s = true) :
    ∃ (s' : State) (c : ExecuteCalls), Execute s sizeof true = some (s', c) ∧
      c.SetProgram = s.m_WorkGraphProgramDesc ∧
      s'.m_WorkGraphProgramDesc.WorkGraph.Flags =
        clearInitializeFlag s.m_WorkGraphProgramDesc.WorkGraph.Flags ∧
      c.DispatchGraph.NumNodeInputs = 2 ∧
      c.DispatchGraph.pNodeInputs =
        [some { EntrypointIndex := s.m_WorkGraphEntryPoints.IvyBranch,
                NumRecords := s.m_ivyBranchRecords.length,
                RecordStrideInBytes := sizeof.IvyBranchRecord },
         some { EntrypointIndex := s.m_WorkGraphEntryPoints.IvyArea,
                NumRecords := s.m_ivyAreaRecords.length,
                RecordStrideInBytes := sizeof.IvyAreaRecord },
         none] ∧
      c.workGraphData.IvyStemSurfaceIndex = s.m_ivyStemSurfaceIndex ∧
      c.workGraphData.IvyLeafSurfaceIndex = s.m_ivyLeafSurfaceIndex := by
  have hex : Execute s sizeof true =
      some
        ({ s with
            m_WorkGraphProgramDesc :=
              { s.m_WorkGraphProgramDesc with
                WorkGraph :=
                  { s.m_WorkGraphProgramDesc.WorkGraph with
                    Flags := clearInitializeFlag s.m_WorkGraphProgramDesc.WorkGraph.Flags } } },
         { workGraphData :=
             { IvyStemSurfaceIndex := s.m_ivyStemSurfaceIndex,
               IvyLeafSurfaceIndex := s.m_ivyLeafSurfaceIndex },
           SetProgram := s.m_WorkGraphProgramDesc,
           DispatchGraph :=
             { Mode := D3D12_DISPATCH_MODE_MULTI_NODE_CPU_INPUT,
               NumNodeInputs := 2,
               pNodeInputs :=
                 [some { EntrypointIndex := s.m_WorkGraphEntryPoints.IvyBranch,
                         NumRecords := s.m_ivyBranchRecords.length,
                         RecordStrideInBytes := sizeof.IvyBranchRecord },
                  some { EntrypointIndex := s.m_WorkGraphEntryPoints.IvyArea,
                         NumRecords := s.m_ivyAreaRecords.length,
                         RecordStrideInBytes := sizeof.IvyAreaRecord },
                  none],
               NodeInputStrideInBytes := sizeof.D3D12_NODE_CPU_INPUT } }) := by
    simp [Execute, hsel]
  exact ⟨_, _, hex, rfl, rfl, rfl, rfl, rfl, rfl⟩

/-- A run of `n` calls of `Execute` from a state with the selection in range succeeds; the
first call passes the program description of the start state, every later call a
description whose initialize flag is clear, and the flag is clear at the end. -/
theorem ExecuteTimes_flags (sizeof : SizeOf) :
    ∀ (n : Nat) (s : State), selectionInRange s = true →
      ∃ (sn : State) (calls : List ExecuteCalls),
        ExecuteTimes sizeof s n = some (sn, calls) ∧ calls.length = n ∧
        (∀ c, calls[0]? = some c → c.SetProgram = s.m_WorkGraphProgramDesc) ∧
        (∀ k c, 1 ≤ k → calls[k]? = some c →
          c.SetProgram.WorkGraph.Flags &&& D3D12_SET_WORK_GRAPH_FLAG_INITIALIZE = 0) ∧
        (1 ≤ n → sn.m_WorkGraphProgramDesc.WorkGraph.Flags &&&
          D3D12_SET_WORK_GRAPH_FLAG_INITIALIZE = 0) := by
  intro n
  induction n with
  | zero =>
    intro s _
    exact ⟨s, [], rfl, rfl, by simp, by simp, by omega⟩
  | succ n ih =>
    intro s hsel
    obtain ⟨s1, c0, hex, hprog, hflags, _⟩ := Execute_succeeds s sizeof hsel
    have hsel1 : selectionInRange s1 = true := by
      rw [Execute_selectionInRange s s1 sizeof true c0 hex]; exact hsel
    obtain ⟨sn, later, hrun, hlen, hfirst, hlater, hend⟩ := ih s1 hsel1
    have hs1clear : s1.m_WorkGraphProgramDesc.WorkGraph.Flags &&&
        D3D12_SET_WORK_GRAPH_FLAG_INITIALIZE = 0 := by
      rw [hflags]; exact clearInitializeFlag_clear _
    refine ⟨sn, c0 :: later, ?_, by simp [hlen], ?_, ?_, ?_⟩
    · simp only [ExecuteTimes, hex, hrun]
    · intro c hc
      simp only [List.getElem?_cons_zero, Option.some.injEq] at hc
      rw [← hc]; exact hprog
    · intro k c hk hc
      obtain ⟨j, rfl⟩ : ∃ j, k = j + 1 := ⟨k - 1, by omega⟩
      rw [List.getElem?_cons_succ] at hc
      cases j with
      | zero => rw [hfirst c hc]; exact hs1clear
      | succ i => exact hlater (i + 1) c (by omega) hc
    · intro _
      cases n with
      | zero =>
        simp only [ExecuteTimes, Option.some.injEq, Prod.mk.injEq] at hrun
        rw [← hrun.1]; exact hs1clear
      | succ m => exact hend (by omega)

/-- C11: let `InitWorkGraphProgram` have built the program description, and let `n >= 1`
calls of `Execute` follow from a state that still holds that description (with the UI
selection in range). Then all `n` calls dispatch; the program description passed to
`SetProgram` by the first has the INITIALIZE flag set, the one passed by every later call
has it clear, and it is clear in the members at the end. Moreover an `Execute` that
dispatches, from any state at all, leaves the flag clear. -/
theorem C11_initialize_flag_one_shot (s0 s1 s : State) (rt : WorkGraphRuntime)
    (init : InitCalls) (sizeof : SizeOf) (n : Nat)
    (hinit : InitWorkGraphProgram s0 rt = some (s1, init))
    (hdesc : s.m_WorkGraphProgramDesc = s1.m_WorkGraphProgramDesc)
    (hsel : selectionInRange s = true) (hn : 1 ≤ n) :
    (∃ (sn : State) (calls : List ExecuteCalls),
      ExecuteTimes sizeof s n = some (sn, calls) ∧ calls.length = n ∧
      (∃ c, calls[0]? = some c ∧
        c.SetProgram.WorkGraph.Flags &&& D3D12_SET_WORK_GRAPH_FLAG_INITIALIZE =
          D3D12_SET_WORK_GRAPH_FLAG_INITIALIZE) ∧
      (∀ k c, 1 ≤ k → calls[k]? = some c →
        c.SetProgram.WorkGraph.Flags &&& D3D12_SET_WORK_GRAPH_FLAG_INITIALIZE = 0) ∧
      sn.m_WorkGraphProgramDesc.WorkGraph.Flags &&&
        D3D12_SET_WORK_GRAPH_FLAG_INITIALIZE = 0) ∧
    (∀ (t t' : State) (q : Bool) (c : ExecuteCalls), Execute t sizeof q = some (t', c) →
      t'.m_WorkGraphProgramDesc.WorkGraph.Flags &&&
        D3D12_SET_WORK_GRAPH_FLAG_INITIALIZE = 0) := by
  have hflag1 : s1.m_WorkGraphProgramDesc.WorkGraph.Flags =
      D3D12_SET_WORK_GRAPH_FLAG_INITIALIZE := by
    unfold InitWorkGraphProgram at hinit
    split at hinit
    · exact absurd hinit (by simp)
    · split at hinit
      · exact absurd hinit (by simp)
      · simp only [Option.some.injEq, Prod.mk.injEq] at hinit
        rw [← hinit.1]
  refine ⟨?_, ?_⟩
  · obtain ⟨sn, calls, hrun, hlen, hfirst, hlater, hend⟩ := ExecuteTimes_flags sizeof n s hsel
    have hpos : 0 < calls.length := by omega
    refine ⟨sn, calls, hrun, hlen, ⟨calls[0], List.getElem?_eq_getElem hpos, ?_⟩, hlater,
      hend hn⟩
    rw [hfirst _ (List.getElem?_eq_getElem hpos), hdesc, hflag1]
    decide
  · intro t t' q c h
    unfold Execute at h
    split at h
    · exact absurd h (by simp)
    · split at h
      · exact absurd h (by simp)
      · simp only [Option.some.injEq, Prod.mk.injEq] at h
        rw [← h.1]
        exact clearInitializeFlag_clear _

/-- C11, witness: a freshly constructed module, a runtime reporting tier 1.1 and a memory
requirement of 65536 bytes, three frames. -/
theorem C11_initialize_flag_one_shot_witness :
    ∃ (sn : State) (calls : List ExecuteCalls),
      ExecuteTimes { IvyBranchRecord := 80, IvyAreaRecord := 80, D3D12_NODE_CPU_INPUT := 24 }
        { m_WorkGraphProgramDesc :=
            { ProgramType := 5,
              WorkGraph := { ProgramIdentifier := 9, Flags := 1,
                             BackingMemory := { StartAddress := 4096, SizeInBytes := 65536 } } },
          m_WorkGraphEntryPoints := { IvyBranch := 3, IvyArea := 1 },
          m_pWorkGraphBackingMemoryBuffer := some { Size := 65536, Stride := 1, Alignment := 8 },
          m_ivyBranchRecords := initialBranchRecords,
          m_ivyAreaRecords := initialAreaRecords } 3 = some (sn, calls) ∧
      calls.length = 3 ∧
      (∃ c, calls[0]? = some c ∧
        c.SetProgram.WorkGraph.Flags &&& D3D12_SET_WORK_GRAPH_FLAG_INITIALIZE =
          D3D12_SET_WORK_GRAPH_FLAG_INITIALIZE) ∧
      (∀ k c, 1 ≤ k → calls[k]? = some c →
        c.SetProgram.WorkGraph.Flags &&& D3D12_SET_WORK_GRAPH_FLAG_INITIALIZE = 0) :=
  (C11_initialize_flag_one_shot {}
    { m_WorkGraphProgramDesc :=
        { ProgramType := 5,
          WorkGraph := { ProgramIdentifier := 9, Flags := 1,
                         BackingMemory := { StartAddress := 4096, SizeInBytes := 65536 } } },
      m_WorkGraphEntryPoints := { IvyBranch := 3, IvyArea := 1 },
      m_pWorkGraphBackingMemoryBuffer := some { Size := 65536, Stride := 1, Alignment := 8 } }
    { m_WorkGraphProgramDesc :=
        { ProgramType := 5,
          WorkGraph := { ProgramIdentifier := 9, Flags := 1,
                         BackingMemory := { StartAddress := 4096, SizeInBytes := 65536 } } },
      m_WorkGraphEntryPoints := { IvyBranch := 3, IvyArea := 1 },
      m_pWorkGraphBackingMemoryBuffer := some { Size := 65536, Stride := 1, Alignment := 8 },
      m_ivyBranchRecords := initialBranchRecords,
      m_ivyAreaRecords := initialAreaRecords }
    { callsSucceed := true, WorkGraphsTier := 11, MaxSizeInBytes := 65536,
      ProgramIdentifier := 9, GPUBufferView := 4096, IvyBranchEntrypointIndex := 3,
      IvyAreaEntrypointIndex := 1 }
    { MaxRecords := 0, MaxNodeInputs := 2,
      CreateBufferResource := some { Size := 65536, Stride := 1, Alignment := 8 } }
    { IvyBranchRecord := 80, IvyAreaRecord := 80, D3D12_NODE_CPU_INPUT := 24 } 3
    (by decide) rfl (by decide) (by decide)).1.imp
    (fun _ h => h.imp (fun _ h => ⟨h.1, h.2.1, h.2.2.1, h.2.2.2.1⟩))

/-- C16: for every content of the two record arrays (empty ones included), an `Execute`
whose UI selection is in range and whose command-list interface is obtained dispatches, and
the dispatch description lists exactly two node inputs: first the entry-point index of
IvyBranch with the number of branch records and the branch-record stride, then the
entry-point index of IvyArea with the number of area records and the area-record stride. -/
theorem C16_dispatch_lists_both_entries (s : State) (sizeof : SizeOf)
    (hsel : selectionInRange s = true) :
    ∃ (s' : State) (c : ExecuteCalls), Execute s sizeof true = some (s', c) ∧
      c.DispatchGraph.Mode = D3D12_DISPATCH_MODE_MULTI_NODE_CPU_INPUT ∧
      c.DispatchGraph.NumNodeInputs = 2 ∧
      c.DispatchGraph.nodeInputs =
        [some { EntrypointIndex := s.m_WorkGraphEntryPoints.IvyBranch,
                NumRecords := s.m_ivyBranchRecords.length,
                RecordStrideInBytes := sizeof.IvyBranchRecord },
         some { EntrypointIndex := s.m_WorkGraphEntryPoints.IvyArea,
                NumRecords := s.m_ivyAreaRecords.length,
                RecordStrideInBytes := sizeof.IvyAreaRecord }] := by
  obtain ⟨s', c, hex, _, _, hnum, hinputs, _⟩ := Execute_succeeds s sizeof hsel
  refine ⟨s', c, hex, ?_, hnum, ?_⟩
  · simp only [Execute, hsel] at hex
    simp only [Bool.not_true, Bool.false_eq_true, not_false_eq_true, not_true_eq_false,
      if_false, if_true, ite_false, ite_true, Option.some.injEq, Prod.mk.injEq] at hex
    rw [← hex.2]
  · simp only [D3D12_DISPATCH_GRAPH_DESC.nodeInputs, hnum, hinputs]
    rfl

/-- C16, witness: no branch record and three area records; the counts listed are 0 and 3. -/
theorem C16_dispatch_lists_both_entries_witness :
    ∃ (s' : State) (c : ExecuteCalls),
      Execute
        { m_WorkGraphEntryPoints := { IvyBranch := 3, IvyArea := 1 },
          m_ivyBranchRecords := [],
          m_ivyAreaRecords := initialAreaRecords ++ initialAreaRecords ++ initialAreaRecords }
        { IvyBranchRecord := 80, IvyAreaRecord := 80, D3D12_NODE_CPU_INPUT := 24 } true =
        some (s', c) ∧
      c.DispatchGraph.NumNodeInputs = 2 ∧
      c.DispatchGraph.nodeInputs =
        [some { EntrypointIndex := 3, NumRecords := 0, RecordStrideInBytes := 80 },
         some { EntrypointIndex := 1, NumRecords := 3, RecordStrideInBytes := 80 }] :=
  (C16_dispatch_lists_both_entries
    { m_WorkGraphEntryPoints := { IvyBranch := 3, IvyArea := 1 },
      m_ivyBranchRecords := [],
      m_ivyAreaRecords := initialAreaRecords ++ initialAreaRecords ++ initialAreaRecords }
    { IvyBranchRecord := 80, IvyAreaRecord := 80, D3D12_NODE_CPU_INPUT := 24 }
    (by decide)).imp
    (fun _ h => h.imp (fun _ h => ⟨h.1, h.2.2.1, h.2.2.2⟩))

/-- C18, the code on a freshly constructed module (whatever memory requirement, program
identifier, buffer address and entry-point indices the runtime reports): `Init` runs
`InitWorkGraphProgram` before it creates the entry records, so `SetMaximumInputRecords` is
called with `MaxRecords = 0` (and `MaxNodeInputs = 2`); the `Execute` that follows
dispatches two node inputs carrying 2 + 1 = 3 records, more than the declared maximum. -/
theorem C18_declared_maximum_is_zero (MaxSizeInBytes ProgramIdentifier GPUBufferView
    IvyBranchEntrypointIndex IvyAreaEntrypointIndex : Nat) (sizeof : SizeOf) :
    ∃ (s1 s2 : State) (init : InitCalls) (c : ExecuteCalls),
      Init {}
        { callsSucceed := true, WorkGraphsTier := D3D12_WORK_GRAPHS_TIER_1_1,
          MaxSizeInBytes := MaxSizeInBytes, ProgramIdentifier := ProgramIdentifier,
          GPUBufferView := GPUBufferView,
          IvyBranchEntrypointIndex := IvyBranchEntrypointIndex,
          IvyAreaEntrypointIndex := IvyAreaEntrypointIndex } = some (s1, init) ∧
      init.MaxRecords = 0 ∧ init.MaxNodeInputs = 2 ∧
      Execute s1 sizeof true = some (s2, c) ∧
      c.DispatchGraph.NumNodeInputs = 2 ∧
      c.DispatchGraph.nodeInputs =
        [some { EntrypointIndex := IvyBranchEntrypointIndex, NumRecords := 2,
                RecordStrideInBytes := sizeof.IvyBranchRecord },
         some { EntrypointIndex := IvyAreaEntrypointIndex, NumRecords := 1,
                RecordStrideInBytes := sizeof.IvyAreaRecord }] ∧
      init.MaxRecords < 2 + 1 := by
  obtain ⟨s1, init, hinit, hmax, hnode, hbranch, harea, hentry, hsel⟩ :
      ∃ (s1 : State) (init : InitCalls),
        Init {}
          { callsSucceed := true, WorkGraphsTier := D3D12_WORK_GRAPHS_TIER_1_1,
            MaxSizeInBytes := MaxSizeInBytes, ProgramIdentifier := ProgramIdentifier,
            GPUBufferView := GPUBufferView,
            IvyBranchEntrypointIndex := IvyBranchEntrypointIndex,
            IvyAreaEntrypointIndex := IvyAreaEntrypointIndex } = some (s1, init) ∧
        init.MaxRecords = 0 ∧ init.MaxNodeInputs = 2 ∧
        s1.m_ivyBranchRecords = initialBranchRecords ∧
        s1.m_ivyAreaRecords = initialAreaRecords ∧
        s1.m_WorkGraphEntryPoints =
          { IvyBranch := IvyBranchEntrypointIndex, IvyArea := IvyAreaEntrypointIndex } ∧
        selectionInRange s1 = true :=
    ⟨_, _, rfl, rfl, rfl, rfl, rfl, rfl, rfl⟩
  obtain ⟨s2, c, hex, _, _, hnum, hinputs, _⟩ := Execute_succeeds s1 sizeof hsel
  refine ⟨s1, s2, init, c, hinit, hmax, hnode, hex, hnum, ?_, by rw [hmax]; decide⟩
  simp only [D3D12_DISPATCH_GRAPH_DESC.nodeInputs, hnum, hinputs, hbranch, harea, hentry]
  rfl

/-- The buffer request of `InitWorkGraphProgram`, when the calls succeed and the tier is
supported: none for a requirement of 0, else the requirement narrowed to 32 bits. -/
theorem InitWorkGraphProgram_request (s : State) (rt : WorkGraphRuntime)
    (hok : rt.callsSucceed = true)
    (htier : ¬ rt.WorkGraphsTier < D3D12_WORK_GRAPHS_TIER_1_1) :
    (InitWorkGraphProgram s rt).map (fun r => r.2.CreateBufferResource) =
      some
        (if 0 < rt.MaxSizeInBytes then
          some { Size := rt.MaxSizeInBytes % UINT32_RANGE, Stride := 1,
                 Alignment := D3D12_WORK_GRAPHS_BACKING_MEMORY_ALIGNMENT_IN_BYTES }
        else none) := by
  simp only [InitWorkGraphProgram, hok, htier, Bool.not_true, Bool.false_eq_true,
    not_true_eq_false, if_false, Option.map_some']

/-- C19, the code at the failing input: for a reported memory requirement of
4295032832 = 2^32 + 65536 bytes the backing buffer is requested with 65536 bytes, and for a
requirement of exactly 4294967296 bytes with 0 bytes: the `UINT64` is narrowed to the
32-bit size parameter. (For a requirement of 0 no buffer is requested, and the alignment
passed is the backing-memory alignment.) -/
theorem C19_backing_memory_size_truncated (s : State) (ProgramIdentifier GPUBufferView
    IvyBranchEntrypointIndex IvyAreaEntrypointIndex : Nat) :
    (InitWorkGraphProgram s
      { callsSucceed := true, WorkGraphsTier := D3D12_WORK_GRAPHS_TIER_1_1,
        MaxSizeInBytes := 4295032832, ProgramIdentifier := ProgramIdentifier,
        GPUBufferView := GPUBufferView,
        IvyBranchEntrypointIndex := IvyBranchEntrypointIndex,
        IvyAreaEntrypointIndex := IvyAreaEntrypointIndex }).map
      (fun r => r.2.CreateBufferResource) =
      some (some { Size := 65536, Stride := 1,
                   Alignment := D3D12_WORK_GRAPHS_BACKING_MEMORY_ALIGNMENT_IN_BYTES }) ∧
    (InitWorkGraphProgram s
      { callsSucceed := true, WorkGraphsTier := D3D12_WORK_GRAPHS_TIER_1_1,
        MaxSizeInBytes := 4294967296, ProgramIdentifier := ProgramIdentifier,
        GPUBufferView := GPUBufferView,
        IvyBranchEntrypointIndex := IvyBranchEntrypointIndex,
        IvyAreaEntrypointIndex := IvyAreaEntrypointIndex }).map
      (fun r => r.2.CreateBufferResource) =
      some (some { Size := 0, Stride := 1,
                   Alignment := D3D12_WORK_GRAPHS_BACKING_MEMORY_ALIGNMENT_IN_BYTES }) ∧
    (InitWorkGraphProgram s
      { callsSucceed := true, WorkGraphsTier := D3D12_WORK_GRAPHS_TIER_1_1,
        MaxSizeInBytes := 0, ProgramIdentifier := ProgramIdentifier,
        GPUBufferView := GPUBufferView,
        IvyBranchEntrypointIndex := IvyBranchEntrypointIndex,
        IvyAreaEntrypointIndex := IvyAreaEntrypointIndex }).map
      (fun r => r.2.CreateBufferResource) = some none ∧
    (65536 : Nat) ≠ 4295032832 ∧ (0 : Nat) ≠ 4294967296 := by
  refine ⟨?_, ?_, ?_, by decide, by decide⟩
  · rw [InitWorkGraphProgram_request _ _ rfl (Nat.lt_irrefl _)]
    have hmod : 4295032832 % UINT32_RANGE = 65536 := by decide
    have hpos : 0 < 4295032832 := by decide
    simp only [hmod, hpos, if_true]
  · rw [InitWorkGraphProgram_request _ _ rfl (Nat.lt_irrefl _)]
    have hmod : 4294967296 % UINT32_RANGE = 0 := by decide
    have hpos : 0 < 4294967296 := by decide
    simp only [hmod, hpos, if_true]
  · rw [InitWorkGraphProgram_request _ _ rfl (Nat.lt_irrefl _)]
    simp only [Nat.lt_irrefl, if_false]

/-! ## Content unload -/

/-- Loading one material whose only texture is the albedo texture at address 7 into a
freshly constructed module, whatever the uninitialized locals hold. -/
theorem load_one_albedo_material (uninit : Nat → Uninitialized) :
    (OnNewContentLoaded {} { Materials := [pbrAlbedoOnly 100 7 0] } uninit).state =
      { m_RTInfoTables :=
          { m_Textures := [{ pTexture := 7, count := 1 }],
            m_Samplers := [{ GetDesc := 0 }],
            m_cpuMaterialBuffer :=
              [{ arm_tex_id := -1, arm_tex_sampler_id := 0, emission_tex_id := -1,
                 emission_tex_sampler_id := 0, normal_tex_id := -1,
                 normal_tex_sampler_id := 0, albedo_tex_id := 0,
                 albedo_tex_sampler_id := 0, is_opaque := 1 }] } } := by
  simp [OnNewContentLoaded, materialLoop, buildMaterialInfo, addPBRTextures,
    addNormalEmissiveTextures, pbrAlbedoOnly, AddTexture, samplerLoop, textureLoop, meshLoop,
    ContentBlock.meshComponents, CreateSampler]

/-- C13, the code at the failing input (whatever the uninitialized locals hold): loading
into a freshly constructed module one material whose only texture is the albedo texture at
address 7 binds it at slot 0 with count 1 and writes `albedo_tex_id = 0`;
`OnContentUnloaded` then changes nothing: the test `albedo_tex_id > 0` skips slot 0 and the
count stays 1, although the field refers to a slot and `RemoveTexture(0)` itself would
release it. -/
theorem C13_unload_skips_slot_zero (uninit : Nat → Uninitialized)
    (pContentBlock : ContentBlock) :
    (OnNewContentLoaded {} { Materials := [pbrAlbedoOnly 100 7 0] }
      uninit).state.m_RTInfoTables.m_Textures = [{ pTexture := 7, count := 1 }] ∧
    (OnNewContentLoaded {} { Materials := [pbrAlbedoOnly 100 7 0] }
      uninit).state.m_RTInfoTables.m_cpuMaterialBuffer.map (fun m => m.albedo_tex_id) = [0] ∧
    OnContentUnloaded
      (OnNewContentLoaded {} { Materials := [pbrAlbedoOnly 100 7 0] } uninit).state
      pContentBlock =
      some (OnNewContentLoaded {} { Materials := [pbrAlbedoOnly 100 7 0] } uninit).state ∧
    (RemoveTexture
      (OnNewContentLoaded {} { Materials := [pbrAlbedoOnly 100 7 0] }
        uninit).state.m_RTInfoTables 0).map (fun t => t.m_Textures) =
      some [{ pTexture := nullptr, count := 0 }] := by
  rw [load_one_albedo_material uninit]
  refine ⟨rfl, rfl, ?_, ?_⟩
  · simp [OnContentUnloaded, unloadLoop, unloadMaterial]
  · decide

/-! ## Instance records -/

/-- C20, the code at the failing input (whatever the uninitialized locals hold): a load of
one mesh with mesh index 0 and three surfaces, of which one is without translucency,
builds an `Instance_Info` with `num_opaque_surfaces = 3` and `num_surfaces = 1`: the two
counts are stored in each other's member, and `num_opaque_surfaces <= num_surfaces` fails. -/
theorem C20_surface_counts_swapped (uninit : Nat → Uninitialized) :
    (OnNewContentLoaded {}
      { EntityDataBlocks :=
          [{ Components :=
              [Component.meshComponent
                { m_Index := 0, m_Name := "mesh",
                  m_Surfaces := [plainSurface 50 0 false, plainSurface 51 0 true,
                                 plainSurface 52 0 true] }] }] }
      uninit).state.m_RTInfoTables.m_cpuInstanceBuffer =
      [{ surface_id_table_offset := 0, num_opaque_surfaces := 3, node_id := 0,
         num_surfaces := 1 }] ∧
    ¬ ((3 : Int) ≤ 1) := by
  refine ⟨?_, by decide⟩
  have hload : ∀ u : Nat → Uninitialized,
      (OnNewContentLoaded {}
        { EntityDataBlocks :=
            [{ Components :=
                [Component.meshComponent
                  { m_Index := 0, m_Name := "mesh",
                    m_Surfaces := [plainSurface 50 0 false, plainSurface 51 0 true,
                                   plainSurface 52 0 true] }] }] }
        u).state =
      (OnNewContentLoaded {}
        { EntityDataBlocks :=
            [{ Components :=
                [Component.meshComponent
                  { m_Index := 0, m_Name := "mesh",
                    m_Surfaces := [plainSurface 50 0 false, plainSurface 51 0 true,
                                   plainSurface 52 0 true] }] }] }
        (fun _ => { materialInfo := ⟨0, 0, 0, 0, 0, 0, 0, 0, 0⟩, samplerIndex := 0 })).state := by
    intro u
    simp only [OnNewContentLoaded, materialLoop]
  rw [hload uninit]
  decide

/-! ## Capacity assertions of the bind step -/

/-- The bind step ends on a failed capacity assertion exactly when one of the four tables
is over its capacity. -/
theorem bindTables_assertion (t : RTInfoTables) :
    ((bindTables t).2 ≠ none ↔
      (MAX_TEXTURES_COUNT < t.m_Textures.length ∨ MAX_SAMPLERS_COUNT < t.m_Samplers.length ∨
       MAX_BUFFER_COUNT < t.m_IndexBuffers.length ∨
       MAX_BUFFER_COUNT < t.m_VertexBuffers.length)) := by
  unfold bindTables
  by_cases h1 : t.m_Textures.length ≤ MAX_TEXTURES_COUNT
  · by_cases h2 : t.m_Samplers.length ≤ MAX_SAMPLERS_COUNT
    · by_cases h3 : t.m_IndexBuffers.length ≤ MAX_BUFFER_COUNT
      · by_cases h4 : t.m_VertexBuffers.length ≤ MAX_BUFFER_COUNT
        · simp only [h1, h2, h3, h4, not_true_eq_false, if_false, ne_eq, not_true]
          constructor
          · intro h; exact absurd h (by simp)
          · intro h; omega
        · simp only [h1, h2, h3, h4, not_true_eq_false, not_false_eq_true, if_false, if_true]
          constructor
          · intro _; right; right; right; omega
          · intro _; simp
      · simp only [h1, h2, h3, not_true_eq_false, not_false_eq_true, if_false, if_true]
        constructor
        · intro _; right; right; left; omega
        · intro _; simp
    · simp only [h1, h2, not_true_eq_false, not_false_eq_true, if_false, if_true]
      constructor
      · intro _; right; left; omega
      · intro _; simp
  · simp only [h1, not_false_eq_true, if_true]
    constructor
    · intro _; left; omega
    · intro _; simp

/-- C12: a call of `OnNewContentLoaded`, from any state (so after any sequence of earlier
loads), ends on a failed critical capacity assertion exactly when the tables it has built
hold more than 1000 textures, more than 20 samplers, more than 20000 index buffers or more
than 20000 vertex buffers; so when no assertion fails, the four counts are within 1000, 20,
20000 and 20000. -/
theorem C12_capacity_assertion_iff_over_capacity (s : State) (pContentBlock : ContentBlock)
    (uninit : Nat → Uninitialized) :
    ((OnNewContentLoaded s pContentBlock uninit).assertion ≠ none ↔
      (1000 < (OnNewContentLoaded s pContentBlock uninit).state.m_RTInfoTables.m_Textures.length ∨
       20 < (OnNewContentLoaded s pContentBlock uninit).state.m_RTInfoTables.m_Samplers.length ∨
       20000 <
         (OnNewContentLoaded s pContentBlock uninit).state.m_RTInfoTables.m_IndexBuffers.length ∨
       20000 <
         (OnNewContentLoaded s pContentBlock uninit).state.m_RTInfoTables.m_VertexBuffers.length)) ∧
    ((OnNewContentLoaded s pContentBlock uninit).assertion = none →
      (OnNewContentLoaded s pContentBlock uninit).state.m_RTInfoTables.m_Textures.length ≤ 1000 ∧
      (OnNewContentLoaded s pContentBlock uninit).state.m_RTInfoTables.m_Samplers.length ≤ 20 ∧
      (OnNewContentLoaded s pContentBlock uninit).state.m_RTInfoTables.m_IndexBuffers.length ≤
        20000 ∧
      (OnNewContentLoaded s pContentBlock uninit).state.m_RTInfoTables.m_VertexBuffers.length ≤
        20000) := by
  have hiff := bindTables_assertion (OnNewContentLoaded s pContentBlock uninit).state.m_RTInfoTables
  simp only [MAX_TEXTURES_COUNT, MAX_SAMPLERS_COUNT, MAX_BUFFER_COUNT] at hiff
  have hassert : (OnNewContentLoaded s pContentBlock uninit).assertion =
      (bindTables (OnNewContentLoaded s pContentBlock uninit).state.m_RTInfoTables).2 := rfl
  rw [hassert]
  refine ⟨hiff, ?_⟩
  intro hnone
  have hnot := mt hiff.mpr (by rw [hnone]; simp)
  omega


/-- C12, witness: a load of one material with one albedo texture into a freshly constructed
module completes without a capacity assertion, and the four counts are within capacity. -/
theorem C12_capacity_assertion_iff_over_capacity_witness :
    (OnNewContentLoaded {} { Materials := [pbrAlbedoOnly 100 7 0] }
      (fun _ => { materialInfo := ⟨0, 0, 0, 0, 0, 0, 0, 0, 0⟩, samplerIndex := 0 })
      ).assertion = none ∧
    (OnNewContentLoaded {} { Materials := [pbrAlbedoOnly 100 7 0] }
      (fun _ => { materialInfo := ⟨0, 0, 0, 0, 0, 0, 0, 0, 0⟩, samplerIndex := 0 })
      ).state.m_RTInfoTables.m_Textures.length ≤ 1000 ∧
    (OnNewContentLoaded {} { Materials := [pbrAlbedoOnly 100 7 0] }
      (fun _ => { materialInfo := ⟨0, 0, 0, 0, 0, 0, 0, 0, 0⟩, samplerIndex := 0 })
      ).state.m_RTInfoTables.m_Samplers.length ≤ 20 ∧
    (OnNewContentLoaded {} { Materials := [pbrAlbedoOnly 100 7 0] }
      (fun _ => { materialInfo := ⟨0, 0, 0, 0, 0, 0, 0, 0, 0⟩, samplerIndex := 0 })
      ).state.m_RTInfoTables.m_IndexBuffers.length ≤ 20000 ∧
    (OnNewContentLoaded {} { Materials := [pbrAlbedoOnly 100 7 0] }
      (fun _ => { materialInfo := ⟨0, 0, 0, 0, 0, 0, 0, 0, 0⟩, samplerIndex := 0 })
      ).state.m_RTInfoTables.m_VertexBuffers.length ≤ 20000 :=
  ⟨by decide,
    (C12_capacity_assertion_iff_over_capacity {} { Materials := [pbrAlbedoOnly 100 7 0] }
      (fun _ => { materialInfo := ⟨0, 0, 0, 0, 0, 0, 0, 0, 0⟩, samplerIndex := 0 })).2
      (by decide)⟩
/-! ## Which tables each loop of a load writes -/

/-- `AddTexture` writes the texture and sampler tables only. -/
theorem AddTexture_frame (t : RTInfoTables) (pMaterial : Material)
    (textureClass : TextureClass) (s0 : Int) :
    (AddTexture t pMaterial textureClass s0).tables.geometry = t.geometry ∧
    (AddTexture t pMaterial textureClass s0).tables.m_cpuMaterialBuffer =
      t.m_cpuMaterialBuffer := by
  unfold AddTexture
  cases pMaterial.GetTextureInfo textureClass with
  | none => exact ⟨rfl, rfl⟩
  | some info =>
    simp only []
    cases textureLoop info.pTexture t.m_Textures 0 (-1) with
    | mapped i => exact ⟨rfl, rfl⟩
    | notMapped f =>
      simp only []
      split
      · exact ⟨rfl, rfl⟩
      · exact ⟨rfl, rfl⟩

/-- The PBR block of the material loop writes the texture and sampler tables only. -/
theorem addPBRTextures_frame (b : MaterialBuild) (pMat : Material) :
    (addPBRTextures b pMat).tables.geometry = b.tables.geometry ∧
    (addPBRTextures b pMat).tables.m_cpuMaterialBuffer = b.tables.m_cpuMaterialBuffer := by
  unfold addPBRTextures
  have h1 := AddTexture_frame b.tables pMat TextureClass.Albedo b.samplerIndex
  split
  · split
    · have h2 := AddTexture_frame
        (AddTexture b.tables pMat TextureClass.Albedo b.samplerIndex).tables pMat
        TextureClass.MetalRough
        (AddTexture b.tables pMat TextureClass.Albedo b.samplerIndex).textureSamplerIndex
      exact ⟨h2.1.trans h1.1, h2.2.trans h1.2⟩
    · split
      · have h2 := AddTexture_frame
          (AddTexture b.tables pMat TextureClass.Albedo b.samplerIndex).tables pMat
          TextureClass.SpecGloss
          (AddTexture b.tables pMat TextureClass.Albedo b.samplerIndex).textureSamplerIndex
        exact ⟨h2.1.trans h1.1, h2.2.trans h1.2⟩
      · exact h1
  · exact ⟨rfl, rfl⟩

/-- Building a `Material_Info` writes the texture and sampler tables only. -/
theorem buildMaterialInfo_frame (t : RTInfoTables) (pMat : Material) (u : Uninitialized) :
    (buildMaterialInfo t pMat u).tables.geometry = t.geometry ∧
    (buildMaterialInfo t pMat u).tables.m_cpuMaterialBuffer = t.m_cpuMaterialBuffer := by
  unfold buildMaterialInfo addNormalEmissiveTextures
  simp only []
  have h0 := addPBRTextures_frame
    { materialInfo :=
        { u.materialInfo with
          is_opaque := if pMat.GetBlendMode = MaterialBlend.Opaque then 1 else 0 },
      samplerIndex := u.samplerIndex, tables := t } pMat
  have h1 := AddTexture_frame
    (addPBRTextures
      { materialInfo :=
          { u.materialInfo with
            is_opaque := if pMat.GetBlendMode = MaterialBlend.Opaque then 1 else 0 },
        samplerIndex := u.samplerIndex, tables := t } pMat).tables pMat TextureClass.Normal
    (addPBRTextures
      { materialInfo :=
          { u.materialInfo with
            is_opaque := if pMat.GetBlendMode = MaterialBlend.Opaque then 1 else 0 },
        samplerIndex := u.samplerIndex, tables := t } pMat).samplerIndex
  have h2 := AddTexture_frame
    (AddTexture
      (addPBRTextures
        { materialInfo :=
            { u.materialInfo with
              is_opaque := if pMat.GetBlendMode = MaterialBlend.Opaque then 1 else 0 },
          samplerIndex := u.samplerIndex, tables := t } pMat).tables pMat TextureClass.Normal
      (addPBRTextures
        { materialInfo :=
            { u.materialInfo with
              is_opaque := if pMat.GetBlendMode = MaterialBlend.Opaque then 1 else 0 },
          samplerIndex := u.samplerIndex, tables := t } pMat).samplerIndex).tables
    pMat TextureClass.Emissive
    (AddTexture
      (addPBRTextures
        { materialInfo :=
            { u.materialInfo with
              is_opaque := if pMat.GetBlendMode = MaterialBlend.Opaque then 1 else 0 },
          samplerIndex := u.samplerIndex, tables := t } pMat).tables pMat TextureClass.Normal
      (addPBRTextures
        { materialInfo :=
            { u.materialInfo with
              is_opaque := if pMat.GetBlendMode = MaterialBlend.Opaque then 1 else 0 },
          samplerIndex := u.samplerIndex, tables := t } pMat).samplerIndex).textureSamplerIndex
  exact ⟨h2.1.trans (h1.1.trans h0.1), h2.2.trans (h1.2.trans h0.2)⟩

/-- The material loop leaves the tables of the mesh loop as they were. -/
theorem materialLoop_geometry (uninit : Nat → Uninitialized) :
    ∀ (Materials : List Material) (k : Nat) (t : RTInfoTables),
      (materialLoop uninit Materials k t).geometry = t.geometry := by
  intro Materials
  induction Materials with
  | nil => intro k t; rfl
  | cons pMat rest ih =>
    intro k t
    simp only [materialLoop]
    rw [ih]
    exact (buildMaterialInfo_frame t pMat (uninit k)).1

/-- One iteration of the surface loop leaves the tables of the material loop as they were. -/
theorem processSurface_materials (Materials : List Material) (materialIdOffset : Nat)
    (st : SurfaceLoopState) (pSurface : Surface) :
    (processSurface Materials materialIdOffset st pSurface).tables.materials =
      st.tables.materials := rfl

/-- The surface loop leaves the tables of the material loop as they were. -/
theorem surfaceLoop_materials (Materials : List Material) (materialIdOffset : Nat) :
    ∀ (m_Surfaces : List Surface) (st : SurfaceLoopState),
      (surfaceLoop Materials materialIdOffset st m_Surfaces).tables.materials =
        st.tables.materials := by
  intro m_Surfaces
  induction m_Surfaces with
  | nil => intro st; rfl
  | cons pSurface rest ih =>
    intro st
    simp only [surfaceLoop, List.foldl_cons] at ih ⊢
    rw [ih]
    exact processSurface_materials Materials materialIdOffset st pSurface

/-- The mesh loop leaves the tables of the material loop as they were. -/
theorem meshLoop_materials (Materials : List Material) (materialIdOffset : Nat) :
    ∀ (meshes : List Mesh) (st : MeshLoopState),
      (meshLoop Materials materialIdOffset st meshes).tables.materials = st.tables.materials := by
  intro meshes
  induction meshes with
  | nil => intro st; rfl
  | cons pMesh rest ih =>
    intro st
    simp only [meshLoop, List.foldl_cons] at ih ⊢
    rw [ih]
    unfold processMesh
    split
    · rfl
    · exact surfaceLoop_materials Materials materialIdOffset pMesh.m_Surfaces _

/-- The tables a load leaves: the mesh loop run on the tables the material loop leaves. -/
theorem OnNewContentLoaded_tables (s : State) (pContentBlock : ContentBlock)
    (uninit : Nat → Uninitialized) :
    (OnNewContentLoaded s pContentBlock uninit).state.m_RTInfoTables =
      (meshLoop pContentBlock.Materials s.m_RTInfoTables.m_cpuMaterialBuffer.length
        { tables := materialLoop uninit pContentBlock.Materials 0 s.m_RTInfoTables,
          m_ivyStemSurfaceIndex := s.m_ivyStemSurfaceIndex,
          m_ivyLeafSurfaceIndex := s.m_ivyLeafSurfaceIndex,
          meshIdxToMesh := [],
          errors := [] }
        pContentBlock.meshComponents).tables := rfl

/-- The texture, sampler and material tables a load leaves are those its material loop
leaves. -/
theorem OnNewContentLoaded_materials (s : State) (pContentBlock : ContentBlock)
    (uninit : Nat → Uninitialized) :
    (OnNewContentLoaded s pContentBlock uninit).state.m_RTInfoTables.materials =
      (materialLoop uninit pContentBlock.Materials 0 s.m_RTInfoTables).materials := by
  rw [OnNewContentLoaded_tables]
  exact meshLoop_materials _ _ _ _

/-! ## The surface records a load builds -/

/-- The buffer search ends with -1, the buffer not being in the table, or with the lowest
position of the buffer. -/
theorem bufferLoop_inv (pBuffer : BufferPtr) :
    ∀ (l : List BufferPtr) (i0 : Nat),
      (bufferLoop pBuffer l i0 = -1 ∧ pBuffer ∉ l) ∨
      (∃ j : Nat, bufferLoop pBuffer l i0 = ((i0 + j : Nat) : Int) ∧ l[j]? = some pBuffer ∧
        ∀ j', j' < j → l[j']? ≠ some pBuffer) := by
  intro l
  induction l with
  | nil => intro i0; left; exact ⟨rfl, by simp⟩
  | cons b rest ih =>
    intro i0
    by_cases hb : b = pBuffer
    · right
      refine ⟨0, by simp [bufferLoop, hb], by simp [hb], ?_⟩
      intro j' hj'; omega
    · rcases ih (i0 + 1) with ⟨hnone, hnot⟩ | ⟨j, hj, hget, hlow⟩
      · left
        refine ⟨by simp only [bufferLoop, if_neg hb, hnone], ?_⟩
        intro hmem
        rcases List.mem_cons.mp hmem with h | h
        · exact hb h.symm
        · exact hnot h
      · right
        refine ⟨j + 1, ?_, by simpa using hget, ?_⟩
        · simp only [bufferLoop, if_neg hb, hj]
          congr 1; omega
        · intro j' hj' hcon
          cases j' with
          | zero =>
            simp only [List.getElem?_cons_zero, Option.some.injEq] at hcon
            exact hb hcon
          | succ n =>
            exact hlow n (by omega) (by simpa using hcon)

/-- The dedup step on a buffer table, as both the index-buffer block and the attribute loop
perform it: the table is unchanged when it holds the buffer and gets the buffer appended
when it does not, and the offset computed is a position of the buffer in the new table. -/
theorem bufferLoop_resolves (pBuffer : BufferPtr) (l : List BufferPtr) :
    (pBuffer ∈ l ∧ ¬ bufferLoop pBuffer l 0 < 0 ∧
      ∃ p : Nat, bufferLoop pBuffer l 0 = (p : Int) ∧ l[p]? = some pBuffer) ∨
    (pBuffer ∉ l ∧ bufferLoop pBuffer l 0 < 0) := by
  rcases bufferLoop_inv pBuffer l 0 with ⟨hnone, hnot⟩ | ⟨j, hj, hget, _⟩
  · right; exact ⟨hnot, by rw [hnone]; decide⟩
  · left
    refine ⟨List.getElem?_mem hget, by rw [hj]; omega, j, ?_, hget⟩
    rw [hj]; congr 1; omega

/-- The attribute loop does not write `index_offset`. -/
theorem attributeLoop_index_offset (pSurface : Surface) (usedAttributes : Nat) :
    ∀ (attrs : List VertexAttributeType) (vbs : List BufferPtr) (si : Surface_Info),
      (attributeLoop pSurface usedAttributes attrs vbs si).2.index_offset = si.index_offset := by
  intro attrs
  induction attrs with
  | nil => intro vbs si; rfl
  | cons a rest ih =>
    intro vbs si
    simp only [attributeLoop]
    split
    · rw [ih]
      cases a <;> rfl
    · exact ih vbs si

/-- One iteration of the surface loop appends one `Surface_Info`, whose `index_offset` is
the found position of the surface's index buffer, or the length of the index-buffer table
when the buffer was not found. -/
theorem processSurface_appends (Materials : List Material) (materialIdOffset : Nat)
    (st : SurfaceLoopState) (pSurface : Surface) :
    ∃ info : Surface_Info,
      (processSurface Materials materialIdOffset st pSurface).tables.m_cpuSurfaceBuffer =
        st.tables.m_cpuSurfaceBuffer ++ [info] ∧
      info.index_offset =
        (if 0 ≤ bufferLoop pSurface.GetIndexBuffer.pBuffer st.tables.m_IndexBuffers 0 then
          bufferLoop pSurface.GetIndexBuffer.pBuffer st.tables.m_IndexBuffers 0
        else (st.tables.m_IndexBuffers.length : Int)) := by
  refine ⟨_, rfl, ?_⟩
  simp only []
  rw [attributeLoop_index_offset]
  cases pSurface.GetIndexBuffer.IndexFormat <;> rfl

/-- The index-buffer table after one iteration of the surface loop. -/
theorem processSurface_indexBuffers (Materials : List Material) (materialIdOffset : Nat)
    (st : SurfaceLoopState) (pSurface : Surface) :
    (processSurface Materials materialIdOffset st pSurface).tables.m_IndexBuffers =
      (if bufferLoop pSurface.GetIndexBuffer.pBuffer st.tables.m_IndexBuffers 0 < 0 then
        st.tables.m_IndexBuffers ++ [pSurface.GetIndexBuffer.pBuffer]
      else st.tables.m_IndexBuffers) := rfl

/-- What the mesh loop does with the surfaces, for a property `R` of a table state, a
surface and a `Surface_Info` that each iteration of the surface loop establishes for the
record it appends and that later writes keep, under an invariant `Inv` of the tables: the
records appended by the loop are, in order, those of the surfaces of the meshes not
skipped, each related by `R` to its surface in the final tables. -/
theorem surfaceLoop_rel (Inv : RTInfoTables → Prop)
    (R : RTInfoTables → Surface → Surface_Info → Prop)
    (Materials : List Material) (materialIdOffset : Nat)
    (hinv : ∀ st pSurface, Inv st.tables →
      Inv (processSurface Materials materialIdOffset st pSurface).tables)
    (hnew : ∀ st pSurface, Inv st.tables → ∃ info,
      (processSurface Materials materialIdOffset st pSurface).tables.m_cpuSurfaceBuffer =
        st.tables.m_cpuSurfaceBuffer ++ [info] ∧
      R (processSurface Materials materialIdOffset st pSurface).tables pSurface info)
    (hkeep : ∀ st pSurface' pSurface info, Inv st.tables → R st.tables pSurface info →
      R (processSurface Materials materialIdOffset st pSurface').tables pSurface info) :
    ∀ (m_Surfaces : List Surface) (st : SurfaceLoopState), Inv st.tables →
      Inv (surfaceLoop Materials materialIdOffset st m_Surfaces).tables ∧
      (∀ pSurface info, R st.tables pSurface info →
        R (surfaceLoop Materials materialIdOffset st m_Surfaces).tables pSurface info) ∧
      ∃ infos : List Surface_Info,
        (surfaceLoop Materials materialIdOffset st m_Surfaces).tables.m_cpuSurfaceBuffer =
          st.tables.m_cpuSurfaceBuffer ++ infos ∧
        List.Forall₂ (R (surfaceLoop Materials materialIdOffset st m_Surfaces).tables)
          m_Surfaces infos := by
  intro m_Surfaces
  induction m_Surfaces with
  | nil =>
    intro st hst
    exact ⟨hst, fun _ _ h => h, [], by simp [surfaceLoop], List.Forall₂.nil⟩
  | cons pSurface rest ih =>
    intro st hst
    have hst1 := hinv st pSurface hst
    obtain ⟨info, happ, hR⟩ := hnew st pSurface hst
    obtain ⟨hfin, hstable, infos, happ', hall⟩ :=
      ih (processSurface Materials materialIdOffset st pSurface) hst1
    have hfold : surfaceLoop Materials materialIdOffset st (pSurface :: rest) =
        surfaceLoop Materials materialIdOffset
          (processSurface Materials materialIdOffset st pSurface) rest := rfl
    rw [hfold]
    refine ⟨hfin, ?_, info :: infos, ?_, ?_⟩
    · intro s' i' h
      exact hstable s' i' (hkeep st pSurface s' i' hst h)
    · rw [happ', happ]; simp
    · exact List.Forall₂.cons (hstable pSurface info hR) hall

/-- The step from the surface loop to the mesh loop: see `surfaceLoop_rel`; `hinst` says
that the invariant and the property do not read the instance table. -/
theorem meshLoop_rel (Inv : RTInfoTables → Prop)
    (R : RTInfoTables → Surface → Surface_Info → Prop)
    (Materials : List Material) (materialIdOffset : Nat)
    (hinv : ∀ st pSurface, Inv st.tables →
      Inv (processSurface Materials materialIdOffset st pSurface).tables)
    (hnew : ∀ st pSurface, Inv st.tables → ∃ info,
      (processSurface Materials materialIdOffset st pSurface).tables.m_cpuSurfaceBuffer =
        st.tables.m_cpuSurfaceBuffer ++ [info] ∧
      R (processSurface Materials materialIdOffset st pSurface).tables pSurface info)
    (hkeep : ∀ st pSurface' pSurface info, Inv st.tables → R st.tables pSurface info →
      R (processSurface Materials materialIdOffset st pSurface').tables pSurface info)
    (hinstInv : ∀ (t : RTInfoTables) (buffer : List Instance_Info), Inv t →
      Inv { t with m_cpuInstanceBuffer := buffer })
    (hinstR : ∀ (t : RTInfoTables) (buffer : List Instance_Info) pSurface info,
      R t pSurface info → R { t with m_cpuInstanceBuffer := buffer } pSurface info) :
    ∀ (meshes : List Mesh) (st : MeshLoopState), Inv st.tables →
      Inv (meshLoop Materials materialIdOffset st meshes).tables ∧
      (∀ pSurface info, R st.tables pSurface info →
        R (meshLoop Materials materialIdOffset st meshes).tables pSurface info) ∧
      ∃ infos : List Surface_Info,
        (meshLoop Materials materialIdOffset st meshes).tables.m_cpuSurfaceBuffer =
          st.tables.m_cpuSurfaceBuffer ++ infos ∧
        List.Forall₂ (R (meshLoop Materials materialIdOffset st meshes).tables)
          ((firstMeshes meshes st.meshIdxToMesh).flatMap (fun pMesh => pMesh.m_Surfaces))
          infos := by
  intro meshes
  induction meshes with
  | nil =>
    intro st hst
    exact ⟨hst, fun _ _ h => h, [], by simp [meshLoop], by simp [firstMeshes]⟩
  | cons pMesh rest ih =>
    intro st hst
    have hfold : meshLoop Materials materialIdOffset st (pMesh :: rest) =
        meshLoop Materials materialIdOffset
          (processMesh Materials materialIdOffset st pMesh) rest := rfl
    rw [hfold]
    by_cases hseen : pMesh.GetMeshIndex ∈ st.meshIdxToMesh
    · have hskip : processMesh Materials materialIdOffset st pMesh = st := by
        simp only [processMesh, if_pos hseen]
      rw [hskip]
      simp only [firstMeshes, if_pos hseen]
      exact ih st hst
    · obtain ⟨hsInv, hsStable, sInfos, hsApp, hsAll⟩ :=
        surfaceLoop_rel Inv R Materials materialIdOffset hinv hnew hkeep pMesh.m_Surfaces
          { tables := st.tables, numOpaqueSurfaces := 0, errors := st.errors } hst
      have hseenAfter : (processMesh Materials materialIdOffset st pMesh).meshIdxToMesh =
          pMesh.GetMeshIndex :: st.meshIdxToMesh := by
        simp only [processMesh, if_neg hseen]
      obtain ⟨buffer, htables⟩ : ∃ buffer : List Instance_Info,
          (processMesh Materials materialIdOffset st pMesh).tables =
            { (surfaceLoop Materials materialIdOffset
                { tables := st.tables, numOpaqueSurfaces := 0, errors := st.errors }
                pMesh.m_Surfaces).tables with m_cpuInstanceBuffer := buffer } := by
        refine ⟨(processMesh Materials materialIdOffset st pMesh).tables.m_cpuInstanceBuffer, ?_⟩
        simp only [processMesh, if_neg hseen]
      have hmInv : Inv (processMesh Materials materialIdOffset st pMesh).tables := by
        rw [htables]; exact hinstInv _ _ hsInv
      obtain ⟨hfin, hstable, infos, happ, hall⟩ :=
        ih (processMesh Materials materialIdOffset st pMesh) hmInv
      have hmSurf : (processMesh Materials materialIdOffset st pMesh).tables.m_cpuSurfaceBuffer =
          st.tables.m_cpuSurfaceBuffer ++ sInfos := by
        rw [htables]; exact hsApp
      refine ⟨hfin, ?_, sInfos ++ infos, ?_, ?_⟩
      · intro s' i' h
        apply hstable
        rw [htables]
        exact hinstR _ _ _ _ (hsStable s' i' h)
      · rw [happ, hmSurf, List.append_assoc]
      · simp only [firstMeshes, if_neg hseen, List.flatMap_cons]
        rw [hseenAfter] at hall
        refine List.rel_append ?_ hall
        refine hsAll.imp ?_
        intro s' i' h
        apply hstable
        rw [htables]
        exact hinstR _ _ _ _ h

/-- Lists related element by element have the same length and related elements at each
position. -/
theorem forall₂_getElem? {α β : Type} {R : α → β → Prop} {l₁ : List α} {l₂ : List β}
    (h : List.Forall₂ R l₁ l₂) :
    l₁.length = l₂.length ∧
    ∀ (k : Nat) (a : α) (b : β), l₁[k]? = some a → l₂[k]? = some b → R a b := by
  induction h with
  | nil => exact ⟨rfl, by simp⟩
  | cons hab _ ih =>
    refine ⟨by simp [ih.1], ?_⟩
    intro k a b ha hb
    cases k with
    | zero =>
      simp only [List.getElem?_cons_zero, Option.some.injEq] at ha hb
      subst ha; subst hb; exact hab
    | succ n =>
      exact ih.2 n a b (by simpa using ha) (by simpa using hb)

/-- One iteration of the surface loop keeps the index-buffer table free of duplicates and
an extension of any list it extended before. -/
theorem processSurface_indexBuffers_inv (Materials : List Material) (materialIdOffset : Nat)
    (base : List BufferPtr) (st : SurfaceLoopState) (pSurface : Surface)
    (h : st.tables.m_IndexBuffers.Nodup ∧ ∃ added, st.tables.m_IndexBuffers = base ++ added) :
    (processSurface Materials materialIdOffset st pSurface).tables.m_IndexBuffers.Nodup ∧
    ∃ added, (processSurface Materials materialIdOffset st pSurface).tables.m_IndexBuffers =
      base ++ added := by
  obtain ⟨hnd, added, hadd⟩ := h
  rw [processSurface_indexBuffers]
  rcases bufferLoop_resolves pSurface.GetIndexBuffer.pBuffer st.tables.m_IndexBuffers with
    ⟨_, hge, _⟩ | ⟨hnot, hlt⟩
  · rw [if_neg hge]
    exact ⟨hnd, added, hadd⟩
  · rw [if_pos hlt]
    refine ⟨?_, added ++ [pSurface.GetIndexBuffer.pBuffer], by rw [hadd, List.append_assoc]⟩
    rw [← List.concat_eq_append]
    exact List.Nodup.concat hnot hnd

/-- One iteration of the surface loop writes, as `index_offset` of the record it appends, a
position of the surface's index buffer in the index-buffer table it leaves. -/
theorem processSurface_index_resolved (Materials : List Material) (materialIdOffset : Nat)
    (st : SurfaceLoopState) (pSurface : Surface) :
    ∃ info : Surface_Info,
      (processSurface Materials materialIdOffset st pSurface).tables.m_cpuSurfaceBuffer =
        st.tables.m_cpuSurfaceBuffer ++ [info] ∧
      ∃ p : Nat, info.index_offset = (p : Int) ∧
        (processSurface Materials materialIdOffset st pSurface).tables.m_IndexBuffers[p]? =
          some pSurface.GetIndexBuffer.pBuffer := by
  obtain ⟨info, happ, hoff⟩ := processSurface_appends Materials materialIdOffset st pSurface
  refine ⟨info, happ, ?_⟩
  rw [processSurface_indexBuffers]
  rcases bufferLoop_resolves pSurface.GetIndexBuffer.pBuffer st.tables.m_IndexBuffers with
    ⟨_, hge, p, hp, hget⟩ | ⟨_, hlt⟩
  · have hge' : 0 ≤ bufferLoop pSurface.GetIndexBuffer.pBuffer st.tables.m_IndexBuffers 0 := by
      omega
    rw [if_pos hge'] at hoff
    rw [if_neg hge]
    exact ⟨p, by rw [hoff, hp], hget⟩
  · have hge' : ¬ 0 ≤ bufferLoop pSurface.GetIndexBuffer.pBuffer st.tables.m_IndexBuffers 0 := by
      omega
    rw [if_neg hge'] at hoff
    rw [if_pos hlt]
    exact ⟨st.tables.m_IndexBuffers.length, hoff, by simp⟩

/-- A position of a buffer in the index-buffer table stays one through an iteration of the
surface loop. -/
theorem processSurface_index_kept (Materials : List Material) (materialIdOffset : Nat)
    (st : SurfaceLoopState) (pSurface : Surface) (p : Nat) (pBuffer : BufferPtr)
    (h : st.tables.m_IndexBuffers[p]? = some pBuffer) :
    (processSurface Materials materialIdOffset st pSurface).tables.m_IndexBuffers[p]? =
      some pBuffer := by
  rw [processSurface_indexBuffers]
  split
  · rw [List.getElem?_append_left (List.getElem?_eq_some.mp h).1]; exact h
  · exact h

/-- What a load does to the index-buffer table and the surface table, from a state whose
index-buffer table has no duplicate. -/
theorem OnNewContentLoaded_indexBuffers (s : State) (pContentBlock : ContentBlock)
    (uninit : Nat → Uninitialized) (hnd : s.m_RTInfoTables.m_IndexBuffers.Nodup) :
    (OnNewContentLoaded s pContentBlock uninit).state.m_RTInfoTables.m_IndexBuffers.Nodup ∧
    (∃ added,
      (OnNewContentLoaded s pContentBlock uninit).state.m_RTInfoTables.m_IndexBuffers =
        s.m_RTInfoTables.m_IndexBuffers ++ added) ∧
    ∃ infos : List Surface_Info,
      (OnNewContentLoaded s pContentBlock uninit).state.m_RTInfoTables.m_cpuSurfaceBuffer =
        s.m_RTInfoTables.m_cpuSurfaceBuffer ++ infos ∧
      List.Forall₂
        (fun pSurface info => ∃ p : Nat, info.index_offset = (p : Int) ∧
          (OnNewContentLoaded s pContentBlock uninit).state.m_RTInfoTables.m_IndexBuffers[p]? =
            some pSurface.GetIndexBuffer.pBuffer)
        pContentBlock.processedSurfaces infos := by
  have hgeo := materialLoop_geometry uninit pContentBlock.Materials 0 s.m_RTInfoTables
  simp only [RTInfoTables.geometry, Prod.mk.injEq] at hgeo
  obtain ⟨_, hidx, _, hsurf, _⟩ := hgeo
  obtain ⟨hInv, _, infos, happ, hall⟩ :=
    meshLoop_rel
      (fun t => t.m_IndexBuffers.Nodup ∧
        ∃ added, t.m_IndexBuffers = s.m_RTInfoTables.m_IndexBuffers ++ added)
      (fun t pSurface info => ∃ p : Nat, info.index_offset = (p : Int) ∧
        t.m_IndexBuffers[p]? = some pSurface.GetIndexBuffer.pBuffer)
      pContentBlock.Materials s.m_RTInfoTables.m_cpuMaterialBuffer.length
      (fun st pSurface h => processSurface_indexBuffers_inv _ _ _ st pSurface h)
      (fun st pSurface _ => processSurface_index_resolved _ _ st pSurface)
      (fun st pSurface' pSurface info _ h => by
        obtain ⟨p, hp, hget⟩ := h
        exact ⟨p, hp, processSurface_index_kept _ _ st pSurface' p _ hget⟩)
      (fun t buffer h => h)
      (fun t buffer pSurface info h => h)
      pContentBlock.meshComponents
      { tables := materialLoop uninit pContentBlock.Materials 0 s.m_RTInfoTables,
        m_ivyStemSurfaceIndex := s.m_ivyStemSurfaceIndex,
        m_ivyLeafSurfaceIndex := s.m_ivyLeafSurfaceIndex,
        meshIdxToMesh := [],
        errors := [] }
      (by
        show (materialLoop uninit pContentBlock.Materials 0
            s.m_RTInfoTables).m_IndexBuffers.Nodup ∧
          ∃ added, (materialLoop uninit pContentBlock.Materials 0
            s.m_RTInfoTables).m_IndexBuffers = s.m_RTInfoTables.m_IndexBuffers ++ added
        rw [hidx]; exact ⟨hnd, [], by simp⟩)
  rw [OnNewContentLoaded_tables]
  refine ⟨hInv.1, hInv.2, infos, ?_, hall⟩
  rw [happ, hsurf]

/-- Every sequence of loads keeps the index-buffer table free of duplicates. -/
theorem loadSequence_indexBuffers_nodup :
    ∀ (loads : List (ContentBlock × (Nat → Uninitialized))) (s : State),
      s.m_RTInfoTables.m_IndexBuffers.Nodup →
      (loadSequence s loads).m_RTInfoTables.m_IndexBuffers.Nodup := by
  intro loads
  induction loads with
  | nil => intro s h; exact h
  | cons load rest ih =>
    intro s h
    exact ih _ (OnNewContentLoaded_indexBuffers s load.1 load.2 h).1

/-- C17: let any sequence of content loads have run from the freshly constructed module,
and let one more load follow. After it the index-buffer table holds no buffer twice and
still starts with the table before it; the load appends one `Surface_Info` for each surface
it processes, in order, and the `index_offset` of each is the position, in the index-buffer
table, of that surface's index buffer. And an iteration of the surface loop for a surface
whose index buffer is already in the table leaves the table as it is. -/
theorem C17_index_buffers_deduplicated
    (loads : List (ContentBlock × (Nat → Uninitialized))) (pContentBlock : ContentBlock)
    (uninit : Nat → Uninitialized) :
    (OnNewContentLoaded (loadSequence {} loads) pContentBlock
      uninit).state.m_RTInfoTables.m_IndexBuffers.Nodup ∧
    (∃ added,
      (OnNewContentLoaded (loadSequence {} loads) pContentBlock
        uninit).state.m_RTInfoTables.m_IndexBuffers =
        (loadSequence {} loads).m_RTInfoTables.m_IndexBuffers ++ added) ∧
    (∃ infos : List Surface_Info,
      (OnNewContentLoaded (loadSequence {} loads) pContentBlock
        uninit).state.m_RTInfoTables.m_cpuSurfaceBuffer =
        (loadSequence {} loads).m_RTInfoTables.m_cpuSurfaceBuffer ++ infos ∧
      infos.length = pContentBlock.processedSurfaces.length ∧
      ∀ (k : Nat) (pSurface : Surface) (info : Surface_Info),
        pContentBlock.processedSurfaces[k]? = some pSurface → infos[k]? = some info →
        ∃ p : Nat, info.index_offset = (p : Int) ∧
          (OnNewContentLoaded (loadSequence {} loads) pContentBlock
            uninit).state.m_RTInfoTables.m_IndexBuffers[p]? =
            some pSurface.GetIndexBuffer.pBuffer) ∧
    (∀ (Materials : List Material) (materialIdOffset : Nat) (st : SurfaceLoopState)
      (pSurface : Surface), pSurface.GetIndexBuffer.pBuffer ∈ st.tables.m_IndexBuffers →
      (processSurface Materials materialIdOffset st pSurface).tables.m_IndexBuffers =
        st.tables.m_IndexBuffers) := by
  have hnd : (loadSequence {} loads).m_RTInfoTables.m_IndexBuffers.Nodup :=
    loadSequence_indexBuffers_nodup loads {} List.nodup_nil
  obtain ⟨hnodup, hadded, infos, happ, hall⟩ :=
    OnNewContentLoaded_indexBuffers (loadSequence {} loads) pContentBlock uninit hnd
  obtain ⟨hlen, hget⟩ := forall₂_getElem? hall
  refine ⟨hnodup, hadded, ⟨infos, happ, hlen.symm, hget⟩, ?_⟩
  intro Materials materialIdOffset st pSurface hmem
  rw [processSurface_indexBuffers]
  rcases bufferLoop_resolves pSurface.GetIndexBuffer.pBuffer st.tables.m_IndexBuffers with
    ⟨_, hge, _⟩ | ⟨hnot, _⟩
  · rw [if_neg hge]
  · exact absurd hmem hnot

/-! ## The material records a load builds -/

/-- An entry of a list after `set` is an entry of the list before, or the entry written. -/
theorem mem_set_cases {α : Type} (l : List α) (i : Nat) (x y : α) (h : y ∈ l.set i x) :
    y ∈ l ∨ y = x := by
  obtain ⟨n, hn⟩ := List.mem_iff_getElem?.mp h
  rw [List.getElem?_set] at hn
  split at hn
  · split at hn
    · right; exact (Option.some.inj hn).symm
    · exact absurd hn (by simp)
  · left; exact List.getElem?_mem hn

/-- Fewer requests: no count wraps while a part of the requests is served. -/
theorem NoCountWraps.tail {m_Textures : List BoundTexture} {T : TexturePtr}
    {requests : List TexturePtr} (h : NoCountWraps m_Textures (T :: requests)) :
    NoCountWraps m_Textures requests := by
  refine ⟨fun e he => ?_, fun T' hT' => ?_⟩
  · have h1 := h.1 e he
    have h2 := List.count_le_count_cons e.pTexture T requests
    omega
  · have h1 := h.2 T' (List.mem_cons_of_mem _ hT')
    have h2 := List.count_le_count_cons T' T requests
    omega

/-- One `AddTexture` serves its request: no count wraps while the remaining requests are
served. -/
theorem AddTexture_bounded (t : RTInfoTables) (pMaterial : Material)
    (textureClass : TextureClass) (s0 : Int) (requests : List TexturePtr)
    (h : NoCountWraps t.m_Textures (textureRequest pMaterial textureClass ++ requests)) :
    NoCountWraps (AddTexture t pMaterial textureClass s0).tables.m_Textures requests := by
  cases hinfo : pMaterial.GetTextureInfo textureClass with
  | none =>
    simp only [textureRequest, hinfo, List.nil_append] at h
    simp only [AddTexture, hinfo]
    exact h
  | some info =>
    simp only [textureRequest, hinfo, List.singleton_append] at h
    have hT : requests.count info.pTexture + 1 < UINT32_RANGE := by
      have := h.2 info.pTexture (List.mem_cons_self _ _)
      rw [List.count_cons_self] at this
      exact this
    have hnew1 : ({ pTexture := info.pTexture, count := 1 } : BoundTexture).count +
        requests.count ({ pTexture := info.pTexture, count := 1 } : BoundTexture).pTexture <
        UINT32_RANGE := by
      show 1 + requests.count info.pTexture < UINT32_RANGE
      omega
    refine ⟨?_, h.tail.2⟩
    rcases AddTexture_textures t pMaterial textureClass s0 info hinfo with
      ⟨i, e0, hget, hp, _, _, hnew⟩ | ⟨_, _, _, hnew⟩ | ⟨_, i, e0, _, _, _, _, hnew⟩
    · intro e he
      rw [hnew] at he
      rcases mem_set_cases _ _ _ _ he with hm | hm
      · exact h.tail.1 e hm
      · have h0 := h.1 e0 (List.getElem?_mem hget)
        rw [hp, List.count_cons_self] at h0
        rw [hm]
        show (e0.count + 1) % UINT32_RANGE + requests.count e0.pTexture < UINT32_RANGE
        rw [hp]
        have := Nat.mod_le (e0.count + 1) UINT32_RANGE
        omega
    · intro e he
      rw [hnew] at he
      rcases List.mem_append.mp he with hm | hm
      · exact h.tail.1 e hm
      · simp only [List.mem_singleton] at hm
        rw [hm]; exact hnew1
    · intro e he
      rw [hnew] at he
      rcases mem_set_cases _ _ _ _ he with hm | hm
      · exact h.tail.1 e hm
      · rw [hm]; exact hnew1

/-- While the count of the texture requested cannot wrap, a slot that holds a texture with
a nonzero count still does after an `AddTexture`, whatever texture the call resolves. -/
theorem AddTexture_keeps_holding (t : RTInfoTables) (pMaterial : Material)
    (textureClass : TextureClass) (s0 : Int) (requests : List TexturePtr)
    (hwrap : NoCountWraps t.m_Textures (textureRequest pMaterial textureClass ++ requests))
    (i : Nat) (T : TexturePtr) (h : HoldsTexture t i T) :
    HoldsTexture (AddTexture t pMaterial textureClass s0).tables i T := by
  obtain ⟨e, hget, hp, hnz⟩ := h
  cases hinfo : pMaterial.GetTextureInfo textureClass with
  | none =>
    simp only [AddTexture, hinfo]
    exact ⟨e, hget, hp, hnz⟩
  | some info =>
    simp only [textureRequest, hinfo, List.singleton_append] at hwrap
    have hlt : i < t.m_Textures.length := (List.getElem?_eq_some.mp hget).1
    rcases AddTexture_textures t pMaterial textureClass s0 info hinfo with
      ⟨k, ek, hk, hkp, _, _, hnew⟩ | ⟨_, _, _, hnew⟩ | ⟨_, k, ek, hk, hkc, _, _, hnew⟩
    · by_cases hki : k = i
      · subst hki
        have hek : ek = e := by rw [hget] at hk; exact (Option.some.inj hk).symm
        subst hek
        refine ⟨bumpCount ek, ?_, hp, ?_⟩
        · rw [hnew]; exact List.getElem?_set_self hlt
        · have h0 := hwrap.1 ek (List.getElem?_mem hget)
          rw [hkp, List.count_cons_self] at h0
          simp only [UINT32_RANGE] at h0
          simp only [bumpCount, UINT32_RANGE]
          omega
      · exact ⟨e, by rw [hnew, List.getElem?_set_ne hki]; exact hget, hp, hnz⟩
    · exact ⟨e, by rw [hnew, List.getElem?_append_left hlt]; exact hget, hp, hnz⟩
    · have hki : k ≠ i := by
        rintro rfl
        rw [hget] at hk
        have : e = ek := Option.some.inj hk
        subst this
        exact hnz hkc
      exact ⟨e, by rw [hnew, List.getElem?_set_ne hki]; exact hget, hp, hnz⟩

/-- While the count of the texture requested cannot wrap, the index `AddTexture` returns
resolves the texture asked for in the tables the call leaves. -/
theorem AddTexture_resolves (t : RTInfoTables) (pMaterial : Material)
    (textureClass : TextureClass) (s0 : Int) (requests : List TexturePtr)
    (hwrap : NoCountWraps t.m_Textures (textureRequest pMaterial textureClass ++ requests)) :
    ResolvesTexture (AddTexture t pMaterial textureClass s0).tables pMaterial textureClass
      (AddTexture t pMaterial textureClass s0).ret := by
  unfold ResolvesTexture
  cases hinfo : pMaterial.GetTextureInfo textureClass with
  | none => simp only [AddTexture, hinfo]
  | some info =>
    simp only [textureRequest, hinfo, List.singleton_append] at hwrap
    obtain ⟨i, e, hret, hget, hp, hcount⟩ :=
      AddTexture_ret_holds t pMaterial textureClass s0 info hinfo
    refine ⟨i, hret, e, hget, hp, ?_⟩
    rcases hcount with h1 | ⟨e0, he0, hb⟩
    · omega
    · have h0 := hwrap.1 e0 he0
      have hp0 : e0.pTexture = info.pTexture := by rw [← hp, hb]; rfl
      rw [hp0, List.count_cons_self] at h0
      simp only [UINT32_RANGE] at h0
      rw [hb]
      simp only [bumpCount, UINT32_RANGE]
      omega

/-- A texture id that resolves in a state of the tables resolves in every state in which
the slots holding textures still hold them. -/
theorem ResolvesTexture.weaken {t t' : RTInfoTables}
    (hmono : ∀ i T, HoldsTexture t i T → HoldsTexture t' i T) {pMat : Material}
    {textureClass : TextureClass} {id : Int} (h : ResolvesTexture t pMat textureClass id) :
    ResolvesTexture t' pMat textureClass id := by
  unfold ResolvesTexture at h ⊢
  cases hinfo : pMat.GetTextureInfo textureClass with
  | none => rw [hinfo] at h; exact h
  | some info =>
    rw [hinfo] at h
    obtain ⟨i, hid, hhold⟩ := h
    exact ⟨i, hid, hmono i _ hhold⟩

/-- See `ResolvesTexture.weaken`. -/
theorem MaterialResolved.weakenAll {t t' : RTInfoTables}
    (hmono : ∀ i T, HoldsTexture t i T → HoldsTexture t' i T) {pMat : Material}
    {materialInfo : Material_Info} (h : MaterialResolved t pMat materialInfo) :
    MaterialResolved t' pMat materialInfo := by
  obtain ⟨hn, he, hpbr⟩ := h
  refine ⟨hn.weaken hmono, he.weaken hmono, ?_⟩
  intro hinfo
  obtain ⟨ha, hm, hs⟩ := hpbr hinfo
  exact ⟨ha.weaken hmono, fun h => (hm h).weaken hmono, fun h1 h2 => (hs h1 h2).weaken hmono⟩
/-- One `AddTexture` while no count can wrap: no count can wrap while the remaining requests
are served, slots holding textures keep holding them, and the returned index resolves the
texture. -/
theorem AddTexture_step (t : RTInfoTables) (pMaterial : Material)
    (textureClass : TextureClass) (s0 : Int) (requests : List TexturePtr)
    (hwrap : NoCountWraps t.m_Textures (textureRequest pMaterial textureClass ++ requests)) :
    NoCountWraps (AddTexture t pMaterial textureClass s0).tables.m_Textures requests ∧
    (∀ i T, HoldsTexture t i T →
      HoldsTexture (AddTexture t pMaterial textureClass s0).tables i T) ∧
    ResolvesTexture (AddTexture t pMaterial textureClass s0).tables pMaterial textureClass
      (AddTexture t pMaterial textureClass s0).ret :=
  ⟨AddTexture_bounded t pMaterial textureClass s0 requests hwrap,
    AddTexture_keeps_holding t pMaterial textureClass s0 requests hwrap,
    AddTexture_resolves t pMaterial textureClass s0 requests hwrap⟩

/-- The PBR block of the material loop, while no count can wrap. -/
theorem addPBRTextures_spec (b : MaterialBuild) (pMat : Material)
    (requests : List TexturePtr)
    (hwrap : NoCountWraps b.tables.m_Textures (pMat.pbrTextureRequests ++ requests)) :
    NoCountWraps (addPBRTextures b pMat).tables.m_Textures requests ∧
    (∀ i T, HoldsTexture b.tables i T → HoldsTexture (addPBRTextures b pMat).tables i T) ∧
    (pMat.HasPBRInfo = true →
      ResolvesTexture (addPBRTextures b pMat).tables pMat TextureClass.Albedo
        (addPBRTextures b pMat).materialInfo.albedo_tex_id ∧
      (pMat.HasPBRMetalRough = true →
        ResolvesTexture (addPBRTextures b pMat).tables pMat TextureClass.MetalRough
          (addPBRTextures b pMat).materialInfo.arm_tex_id) ∧
      (pMat.HasPBRMetalRough = false → pMat.HasPBRSpecGloss = true →
        ResolvesTexture (addPBRTextures b pMat).tables pMat TextureClass.SpecGloss
          (addPBRTextures b pMat).materialInfo.arm_tex_id)) := by
  by_cases h1 : pMat.HasPBRInfo = true
  · by_cases h2 : pMat.HasPBRMetalRough = true
    · simp only [Material.pbrTextureRequests, h1, h2, if_true, List.append_assoc] at hwrap
      obtain ⟨a1, a2, a3⟩ :=
        AddTexture_step b.tables pMat TextureClass.Albedo b.samplerIndex _ hwrap
      obtain ⟨m1, m2, m3⟩ :=
        AddTexture_step (AddTexture b.tables pMat TextureClass.Albedo b.samplerIndex).tables
          pMat TextureClass.MetalRough
          (AddTexture b.tables pMat TextureClass.Albedo b.samplerIndex).textureSamplerIndex
          requests a1
      simp only [addPBRTextures, h1, h2, if_true]
      refine ⟨m1, fun i T h => m2 i T (a2 i T h), fun _ => ⟨a3.weaken m2, fun _ => m3, ?_⟩⟩
      intro hf; exact absurd hf (by decide)
    · have h2' : pMat.HasPBRMetalRough = false := by simpa using h2
      by_cases h3 : pMat.HasPBRSpecGloss = true
      · simp only [Material.pbrTextureRequests, h1, h2', h3, if_true, Bool.false_eq_true,
          if_false, List.append_assoc] at hwrap
        obtain ⟨a1, a2, a3⟩ :=
          AddTexture_step b.tables pMat TextureClass.Albedo b.samplerIndex _ hwrap
        obtain ⟨m1, m2, m3⟩ :=
          AddTexture_step (AddTexture b.tables pMat TextureClass.Albedo b.samplerIndex).tables
            pMat TextureClass.SpecGloss
            (AddTexture b.tables pMat TextureClass.Albedo b.samplerIndex).textureSamplerIndex
            requests a1
        simp only [addPBRTextures, h1, h2', h3, if_true, Bool.false_eq_true, if_false]
        exact ⟨m1, fun i T h => m2 i T (a2 i T h),
          fun _ => ⟨a3.weaken m2, fun hm => absurd hm (by decide), fun _ _ => m3⟩⟩
      · have h3' : pMat.HasPBRSpecGloss = false := by simpa using h3
        simp only [Material.pbrTextureRequests, h1, h2', h3', if_true, Bool.false_eq_true,
          if_false, List.append_nil] at hwrap
        obtain ⟨a1, a2, a3⟩ :=
          AddTexture_step b.tables pMat TextureClass.Albedo b.samplerIndex _ hwrap
        simp only [addPBRTextures, h1, h2', h3', if_true, Bool.false_eq_true, if_false]
        exact ⟨a1, a2,
          fun _ => ⟨a3, fun hm => absurd hm (by decide), fun _ hs => absurd hs (by decide)⟩⟩
  · have h1' : pMat.HasPBRInfo = false := by simpa using h1
    simp only [Material.pbrTextureRequests, h1', Bool.false_eq_true, if_false,
      List.nil_append] at hwrap
    simp only [addPBRTextures, h1', Bool.false_eq_true, if_false]
    exact ⟨hwrap, fun _ _ h => h, fun hp => absurd hp (by decide)⟩

/-- The normal and emissive calls of the material loop, while no count can wrap. -/
theorem addNormalEmissiveTextures_spec (b : MaterialBuild) (pMat : Material)
    (requests : List TexturePtr)
    (hwrap : NoCountWraps b.tables.m_Textures
      ((textureRequest pMat TextureClass.Normal ++ textureRequest pMat TextureClass.Emissive) ++
        requests)) :
    NoCountWraps (addNormalEmissiveTextures b pMat).tables.m_Textures requests ∧
    (∀ i T, HoldsTexture b.tables i T →
      HoldsTexture (addNormalEmissiveTextures b pMat).tables i T) ∧
    ResolvesTexture (addNormalEmissiveTextures b pMat).tables pMat TextureClass.Normal
      (addNormalEmissiveTextures b pMat).materialInfo.normal_tex_id ∧
    ResolvesTexture (addNormalEmissiveTextures b pMat).tables pMat TextureClass.Emissive
      (addNormalEmissiveTextures b pMat).materialInfo.emission_tex_id ∧
    (addNormalEmissiveTextures b pMat).materialInfo.albedo_tex_id =
      b.materialInfo.albedo_tex_id ∧
    (addNormalEmissiveTextures b pMat).materialInfo.arm_tex_id = b.materialInfo.arm_tex_id := by
  rw [List.append_assoc] at hwrap
  obtain ⟨n1, n2, n3⟩ :=
    AddTexture_step b.tables pMat TextureClass.Normal b.samplerIndex _ hwrap
  obtain ⟨e1, e2, e3⟩ :=
    AddTexture_step (AddTexture b.tables pMat TextureClass.Normal b.samplerIndex).tables
      pMat TextureClass.Emissive
      (AddTexture b.tables pMat TextureClass.Normal b.samplerIndex).textureSamplerIndex
      requests n1
  exact ⟨e1, fun i T h => e2 i T (n2 i T h), n3.weaken e2, e3, rfl, rfl⟩

/-- Building the `Material_Info` of one material, while no count can wrap: the record is
resolved in the tables the calls leave. -/
theorem buildMaterialInfo_spec (t : RTInfoTables) (pMat : Material) (u : Uninitialized)
    (requests : List TexturePtr)
    (hwrap : NoCountWraps t.m_Textures (pMat.textureRequests ++ requests)) :
    NoCountWraps (buildMaterialInfo t pMat u).tables.m_Textures requests ∧
    (∀ i T, HoldsTexture t i T → HoldsTexture (buildMaterialInfo t pMat u).tables i T) ∧
    MaterialResolved (buildMaterialInfo t pMat u).tables pMat
      (buildMaterialInfo t pMat u).materialInfo := by
  simp only [Material.textureRequests, List.append_assoc] at hwrap
  obtain ⟨p1, p2, p3⟩ :=
    addPBRTextures_spec
      { materialInfo :=
          { u.materialInfo with
            is_opaque := if pMat.GetBlendMode = MaterialBlend.Opaque then 1 else 0 },
        samplerIndex := u.samplerIndex, tables := t } pMat _ hwrap
  obtain ⟨q1, q2, q3, q4, q5, q6⟩ :=
    addNormalEmissiveTextures_spec
      (addPBRTextures
        { materialInfo :=
            { u.materialInfo with
              is_opaque := if pMat.GetBlendMode = MaterialBlend.Opaque then 1 else 0 },
          samplerIndex := u.samplerIndex, tables := t } pMat)
      pMat requests (by rw [List.append_assoc]; exact p1)
  refine ⟨q1, fun i T h => q2 i T (p2 i T h), q3, q4, ?_⟩
  intro hinfo
  obtain ⟨ha, hm, hs⟩ := p3 hinfo
  refine ⟨?_, fun h => ?_, fun h1 h2 => ?_⟩
  · show ResolvesTexture _ pMat TextureClass.Albedo
      (addNormalEmissiveTextures _ pMat).materialInfo.albedo_tex_id
    rw [q5]; exact ha.weaken q2
  · show ResolvesTexture _ pMat TextureClass.MetalRough
      (addNormalEmissiveTextures _ pMat).materialInfo.arm_tex_id
    rw [q6]; exact (hm h).weaken q2
  · show ResolvesTexture _ pMat TextureClass.SpecGloss
      (addNormalEmissiveTextures _ pMat).materialInfo.arm_tex_id
    rw [q6]; exact (hs h1 h2).weaken q2

/-- The material loop, while no count can wrap: it appends one `Material_Info` for each
material, in order, each resolved in the tables the loop leaves. -/
theorem materialLoop_spec (uninit : Nat → Uninitialized) :
    ∀ (Materials : List Material) (k : Nat) (t : RTInfoTables),
      NoCountWraps t.m_Textures (blockTextureRequests Materials) →
      (∀ i T, HoldsTexture t i T → HoldsTexture (materialLoop uninit Materials k t) i T) ∧
      ∃ infos : List Material_Info,
        (materialLoop uninit Materials k t).m_cpuMaterialBuffer =
          t.m_cpuMaterialBuffer ++ infos ∧
        List.Forall₂ (MaterialResolved (materialLoop uninit Materials k t)) Materials infos := by
  intro Materials
  induction Materials with
  | nil =>
    intro k t _
    exact ⟨fun _ _ h => h, [], by simp [materialLoop], List.Forall₂.nil⟩
  | cons pMat rest ih =>
    intro k t hwrap
    have hwrap1 : NoCountWraps t.m_Textures
        (pMat.textureRequests ++ blockTextureRequests rest) := hwrap
    obtain ⟨b1, b2, b3⟩ := buildMaterialInfo_spec t pMat (uninit k) _ hwrap1
    obtain ⟨hmono, infos, happ, hall⟩ :=
      ih (k + 1)
        { (buildMaterialInfo t pMat (uninit k)).tables with
          m_cpuMaterialBuffer :=
            (buildMaterialInfo t pMat (uninit k)).tables.m_cpuMaterialBuffer ++
              [(buildMaterialInfo t pMat (uninit k)).materialInfo] }
        b1
    have hframe := (buildMaterialInfo_frame t pMat (uninit k)).2
    have hmono1 : ∀ i T, HoldsTexture (buildMaterialInfo t pMat (uninit k)).tables i T →
        HoldsTexture (materialLoop uninit (pMat :: rest) k t) i T := fun i T h => hmono i T h
    refine ⟨fun i T h => hmono1 i T (b2 i T h),
      (buildMaterialInfo t pMat (uninit k)).materialInfo :: infos, ?_, ?_⟩
    · show (materialLoop uninit rest (k + 1) _).m_cpuMaterialBuffer = _
      rw [happ, hframe]; simp
    · exact List.Forall₂.cons (b3.weakenAll hmono1) hall
/-- Scenario A on the material loop: one material with PBR info whose only texture is an
albedo texture, from empty tables. -/
theorem materialLoop_one_albedo (uninit : Nat → Uninitialized) (pMat : Material)
    (info : TextureInfo) (hpbr : pMat.HasPBRInfo = true)
    (halbedo : pMat.GetTextureInfo TextureClass.Albedo = some info)
    (hother : ∀ textureClass, textureClass ≠ TextureClass.Albedo →
      pMat.GetTextureInfo textureClass = none) :
    (materialLoop uninit [pMat] 0 {}).m_Textures = [{ pTexture := info.pTexture, count := 1 }] ∧
    (materialLoop uninit [pMat] 0 {}).m_Samplers = [CreateSampler info.TexSamplerDesc] ∧
    ∃ materialInfo : Material_Info,
      (materialLoop uninit [pMat] 0 {}).m_cpuMaterialBuffer = [materialInfo] ∧
      materialInfo.albedo_tex_id = 0 ∧ materialInfo.albedo_tex_sampler_id = 0 := by
  have hmr : pMat.GetTextureInfo TextureClass.MetalRough = none := hother _ (by decide)
  have hsg : pMat.GetTextureInfo TextureClass.SpecGloss = none := hother _ (by decide)
  have hn : pMat.GetTextureInfo TextureClass.Normal = none := hother _ (by decide)
  have he : pMat.GetTextureInfo TextureClass.Emissive = none := hother _ (by decide)
  cases h2 : pMat.HasPBRMetalRough <;> cases h3 : pMat.HasPBRSpecGloss <;>
    simp [materialLoop, buildMaterialInfo, addPBRTextures, addNormalEmissiveTextures,
      AddTexture, samplerLoop, textureLoop, hpbr, halbedo, hmr, hsg, hn, he, h2, h3]

/-- C15, counterexample: the material `albedoOnly 7 0` has an albedo texture (at address 7)
but no PBR info; loading it into a freshly constructed module leaves the texture table
empty, so no slot holds its albedo texture, and its `albedo_tex_id` is what the
uninitialized local held (here 0), not the index of a slot holding the texture. -/
theorem C15_counterexample_albedo_without_pbr_info :
    (albedoOnly 7 0).GetTextureInfo TextureClass.Albedo =
      some { pTexture := 7, TexSamplerDesc := 0 } ∧
    (albedoOnly 7 0).HasPBRInfo = false ∧
    (OnNewContentLoaded {} { Materials := [albedoOnly 7 0] }
      (fun _ => { materialInfo := ⟨0, 0, 0, 0, 0, 0, 0, 0, 0⟩, samplerIndex := 0 })
      ).state.m_RTInfoTables.m_Textures = [] ∧
    (OnNewContentLoaded {} { Materials := [albedoOnly 7 0] }
      (fun _ => { materialInfo := ⟨0, 0, 0, 0, 0, 0, 0, 0, 0⟩, samplerIndex := 0 })
      ).state.m_RTInfoTables.m_cpuMaterialBuffer.map (fun m => m.albedo_tex_id) = [0] := by
  decide

/-- C15 (amended): (1) for every content load during which no reference count wraps (the
count of each entry of the texture table plus the number of `AddTexture` requests of the
load for the texture it holds stays below 2^32, and the load requests no texture 2^32 times
or more), the load appends one `Material_Info` per material of the block, in order, and in
the tables the load leaves: its normal and emission ids are -1 when the material has no
texture of that class and otherwise the index of a slot that holds that texture; so is its
albedo id when the material has PBR info; and so is its ARM id, for the metal-rough texture
when the material has PBR info of the metal-rough kind, and for the specular-glossiness
texture when it has PBR info of that kind only. (2) Loading into a freshly constructed
module a block with one material that has PBR info and whose only texture is an albedo
texture leaves a texture table of size 1, a sampler table of size 1 and
`albedo_tex_id = 0`. -/
theorem C15_material_texture_ids :
    (∀ (s : State) (pContentBlock : ContentBlock) (uninit : Nat → Uninitialized),
      NoCountWraps s.m_RTInfoTables.m_Textures
        (blockTextureRequests pContentBlock.Materials) →
      ∃ infos : List Material_Info,
        (OnNewContentLoaded s pContentBlock uninit).state.m_RTInfoTables.m_cpuMaterialBuffer =
          s.m_RTInfoTables.m_cpuMaterialBuffer ++ infos ∧
        infos.length = pContentBlock.Materials.length ∧
        ∀ (k : Nat) (pMat : Material) (materialInfo : Material_Info),
          pContentBlock.Materials[k]? = some pMat → infos[k]? = some materialInfo →
          MaterialResolved (OnNewContentLoaded s pContentBlock uninit).state.m_RTInfoTables
            pMat materialInfo) ∧
    (∀ (pContentBlock : ContentBlock) (uninit : Nat → Uninitialized) (pMat : Material)
      (info : TextureInfo),
      pContentBlock.Materials = [pMat] → pMat.HasPBRInfo = true →
      pMat.GetTextureInfo TextureClass.Albedo = some info →
      (∀ textureClass, textureClass ≠ TextureClass.Albedo →
        pMat.GetTextureInfo textureClass = none) →
      (OnNewContentLoaded {} pContentBlock uninit).state.m_RTInfoTables.m_Textures.length = 1 ∧
      (OnNewContentLoaded {} pContentBlock uninit).state.m_RTInfoTables.m_Samplers.length = 1 ∧
      ∃ materialInfo : Material_Info,
        (OnNewContentLoaded {} pContentBlock uninit).state.m_RTInfoTables.m_cpuMaterialBuffer =
          [materialInfo] ∧
        materialInfo.albedo_tex_id = 0) := by
  refine ⟨?_, ?_⟩
  · intro s pContentBlock uninit hwrap
    have hmat := OnNewContentLoaded_materials s pContentBlock uninit
    simp only [RTInfoTables.materials, Prod.mk.injEq] at hmat
    obtain ⟨htex, _, hbuf⟩ := hmat
    obtain ⟨_, infos, happ, hall⟩ :=
      materialLoop_spec uninit pContentBlock.Materials 0 s.m_RTInfoTables hwrap
    have hall' : List.Forall₂
        (MaterialResolved (OnNewContentLoaded s pContentBlock uninit).state.m_RTInfoTables)
        pContentBlock.Materials infos := by
      refine hall.imp ?_
      intro pMat materialInfo h
      refine h.weakenAll ?_
      intro i T hh
      obtain ⟨e, hget, hp, hnz⟩ := hh
      exact ⟨e, by rw [htex]; exact hget, hp, hnz⟩
    obtain ⟨hlen', hget⟩ := forall₂_getElem? hall'
    exact ⟨infos, by rw [hbuf, happ], hlen'.symm, hget⟩
  · intro pContentBlock uninit pMat info hblock hpbr halbedo hother
    have hmat := OnNewContentLoaded_materials {} pContentBlock uninit
    simp only [RTInfoTables.materials, Prod.mk.injEq] at hmat
    obtain ⟨htex, hsam, hbuf⟩ := hmat
    rw [hblock] at htex hsam hbuf
    obtain ⟨ht, hs, materialInfo, hm, hid, _⟩ :=
      materialLoop_one_albedo uninit pMat info hpbr halbedo hother
    refine ⟨?_, ?_, materialInfo, hbuf.trans hm, hid⟩
    · rw [htex.trans ht]; rfl
    · rw [hsam.trans hs]; rfl

/-- C15, witness: a block of one material with albedo texture 7 and normal texture 8 is
loaded into a freshly constructed module and unloaded twice, which leaves texture 7 at slot
0 and at slot 1 a dead entry with the null pointer and count 2^32 - 1. A block of three
materials is loaded on top: no count wraps during that load. And scenario A with the
material `pbrAlbedoOnly 100 7 0`. -/
theorem C15_material_texture_ids_witness :
    unloadedTwice.map (fun s => s.m_RTInfoTables.m_Textures) =
      some [{ pTexture := 7, count := 1 }, { pTexture := nullptr, count := 4294967295 }] ∧
    NoCountWraps (unloadedTwice.getD {}).m_RTInfoTables.m_Textures
      (blockTextureRequests [pbrAlbedoOnly 101 7 0, albedoOnly 8 1, pbrAlbedoNormal 102 9 8 1]) ∧
    (∃ infos : List Material_Info,
      (OnNewContentLoaded (unloadedTwice.getD {})
        { Materials := [pbrAlbedoOnly 101 7 0, albedoOnly 8 1, pbrAlbedoNormal 102 9 8 1] }
        (fun _ => { materialInfo := ⟨5, 5, 5, 5, 5, 5, 5, 5, 5⟩, samplerIndex := 5 })
        ).state.m_RTInfoTables.m_cpuMaterialBuffer =
        (unloadedTwice.getD {}).m_RTInfoTables.m_cpuMaterialBuffer ++ infos ∧
      infos.length = 3) ∧
    (OnNewContentLoaded {} { Materials := [pbrAlbedoOnly 100 7 0] }
      (fun _ => { materialInfo := ⟨5, 5, 5, 5, 5, 5, 5, 5, 5⟩, samplerIndex := 5 })
      ).state.m_RTInfoTables.m_Textures.length = 1 ∧
    (OnNewContentLoaded {} { Materials := [pbrAlbedoOnly 100 7 0] }
      (fun _ => { materialInfo := ⟨5, 5, 5, 5, 5, 5, 5, 5, 5⟩, samplerIndex := 5 })
      ).state.m_RTInfoTables.m_Samplers.length = 1 :=
  ⟨by decide, by decide,
    (C15_material_texture_ids.1 (unloadedTwice.getD {})
      { Materials := [pbrAlbedoOnly 101 7 0, albedoOnly 8 1, pbrAlbedoNormal 102 9 8 1] }
      (fun _ => { materialInfo := ⟨5, 5, 5, 5, 5, 5, 5, 5, 5⟩, samplerIndex := 5 })
      (by decide)).imp (fun _ h => ⟨h.1, h.2.1⟩),
    (C15_material_texture_ids.2 { Materials := [pbrAlbedoOnly 100 7 0] }
      (fun _ => { materialInfo := ⟨5, 5, 5, 5, 5, 5, 5, 5, 5⟩, samplerIndex := 5 })
      (pbrAlbedoOnly 100 7 0) { pTexture := 7, TexSamplerDesc := 0 } rfl rfl rfl
      (by intro textureClass h; cases textureClass <;> first | rfl | exact absurd rfl h)).1,
    (C15_material_texture_ids.2 { Materials := [pbrAlbedoOnly 100 7 0] }
      (fun _ => { materialInfo := ⟨5, 5, 5, 5, 5, 5, 5, 5, 5⟩, samplerIndex := 5 })
      (pbrAlbedoOnly 100 7 0) { pTexture := 7, TexSamplerDesc := 0 } rfl rfl rfl
      (by intro textureClass h; cases textureClass <;> first | rfl | exact absurd rfl h)).2.1⟩
/-! ## Scenario C: unloading two materials that share a texture -/

/-- One iteration of the surface loop appends the length of the surface table to the
surface-id table. -/
theorem processSurface_ids (Materials : List Material) (materialIdOffset : Nat)
    (st : SurfaceLoopState) (pSurface : Surface) :
    (processSurface Materials materialIdOffset st pSurface).tables.m_cpuSurfaceIDsBuffer =
      st.tables.m_cpuSurfaceIDsBuffer ++ [st.tables.m_cpuSurfaceBuffer.length] := rfl

/-- One iteration of the surface loop leaves the instance table as it was. -/
theorem processSurface_instances (Materials : List Material) (materialIdOffset : Nat)
    (st : SurfaceLoopState) (pSurface : Surface) :
    (processSurface Materials materialIdOffset st pSurface).tables.m_cpuInstanceBuffer =
      st.tables.m_cpuInstanceBuffer := rfl

/-- One iteration of the surface loop makes the surface table one record longer. -/
theorem processSurface_surface_length (Materials : List Material) (materialIdOffset : Nat)
    (st : SurfaceLoopState) (pSurface : Surface) :
    (processSurface Materials materialIdOffset st pSurface).tables.m_cpuSurfaceBuffer.length =
      st.tables.m_cpuSurfaceBuffer.length + 1 := by
  obtain ⟨info, happ, _⟩ := processSurface_appends Materials materialIdOffset st pSurface
  rw [happ, List.length_append, List.length_singleton]

/-- The surface loop of a mesh: the surface-id table gets the run of the positions at which
the records of the surfaces are appended, and the instance table is not written. -/
theorem surfaceLoop_ids (Materials : List Material) (materialIdOffset : Nat) :
    ∀ (m_Surfaces : List Surface) (st : SurfaceLoopState),
      (surfaceLoop Materials materialIdOffset st m_Surfaces).tables.m_cpuSurfaceIDsBuffer =
        st.tables.m_cpuSurfaceIDsBuffer ++
          List.range' st.tables.m_cpuSurfaceBuffer.length m_Surfaces.length ∧
      (surfaceLoop Materials materialIdOffset st m_Surfaces).tables.m_cpuSurfaceBuffer.length =
        st.tables.m_cpuSurfaceBuffer.length + m_Surfaces.length ∧
      (surfaceLoop Materials materialIdOffset st m_Surfaces).tables.m_cpuInstanceBuffer =
        st.tables.m_cpuInstanceBuffer := by
  intro m_Surfaces
  induction m_Surfaces with
  | nil => intro st; simp [surfaceLoop]
  | cons pSurface rest ih =>
    intro st
    obtain ⟨h1, h2, h3⟩ := ih (processSurface Materials materialIdOffset st pSurface)
    have hstep : surfaceLoop Materials materialIdOffset st (pSurface :: rest) =
        surfaceLoop Materials materialIdOffset
          (processSurface Materials materialIdOffset st pSurface) rest := rfl
    rw [hstep, h1, h2, h3, processSurface_ids, processSurface_surface_length,
      processSurface_instances]
    refine ⟨?_, by simp only [List.length_cons]; omega, rfl⟩
    rw [List.append_assoc, List.length_cons, List.range'_succ]
    rfl

/-- A mesh whose index was met before in the load is skipped. -/
theorem processMesh_skip (Materials : List Material) (materialIdOffset : Nat)
    (st : MeshLoopState) (pMesh : Mesh) (h : pMesh.GetMeshIndex ∈ st.meshIdxToMesh) :
    processMesh Materials materialIdOffset st pMesh = st := by
  simp only [processMesh, h, if_true]

/-- What the body of the mesh loop leaves for a mesh not met before, apart from the instance
record: the tables of its surface loop, and the mesh index recorded as met. -/
theorem processMesh_new (Materials : List Material) (materialIdOffset : Nat)
    (st : MeshLoopState) (pMesh : Mesh) (h : pMesh.GetMeshIndex ∉ st.meshIdxToMesh) :
    (processMesh Materials materialIdOffset st pMesh).meshIdxToMesh =
      pMesh.GetMeshIndex :: st.meshIdxToMesh ∧
    (processMesh Materials materialIdOffset st pMesh).tables.m_cpuSurfaceIDsBuffer =
      (surfaceLoop Materials materialIdOffset
        { tables := st.tables, numOpaqueSurfaces := 0, errors := st.errors }
        pMesh.m_Surfaces).tables.m_cpuSurfaceIDsBuffer ∧
    (processMesh Materials materialIdOffset st pMesh).tables.m_cpuSurfaceBuffer =
      (surfaceLoop Materials materialIdOffset
        { tables := st.tables, numOpaqueSurfaces := 0, errors := st.errors }
        pMesh.m_Surfaces).tables.m_cpuSurfaceBuffer ∧
    (processMesh Materials materialIdOffset st pMesh).tables.m_VertexBuffers =
      (surfaceLoop Materials materialIdOffset
        { tables := st.tables, numOpaqueSurfaces := 0, errors := st.errors }
        pMesh.m_Surfaces).tables.m_VertexBuffers ∧
    (processMesh Materials materialIdOffset st pMesh).errors =
      (surfaceLoop Materials materialIdOffset
        { tables := st.tables, numOpaqueSurfaces := 0, errors := st.errors }
        pMesh.m_Surfaces).errors := by
  simp only [processMesh, h, if_false, and_self]

/-- The mesh loop: the surface-id table gets the run of the positions at which the records
of the processed surfaces are appended to the surface table. -/
theorem meshLoop_ids (Materials : List Material) (materialIdOffset : Nat) :
    ∀ (meshes : List Mesh) (st : MeshLoopState),
      (meshLoop Materials materialIdOffset st meshes).tables.m_cpuSurfaceIDsBuffer =
        st.tables.m_cpuSurfaceIDsBuffer ++
          List.range' st.tables.m_cpuSurfaceBuffer.length
            ((firstMeshes meshes st.meshIdxToMesh).flatMap
              (fun pMesh => pMesh.m_Surfaces)).length ∧
      (meshLoop Materials materialIdOffset st meshes).tables.m_cpuSurfaceBuffer.length =
        st.tables.m_cpuSurfaceBuffer.length +
          ((firstMeshes meshes st.meshIdxToMesh).flatMap
            (fun pMesh => pMesh.m_Surfaces)).length := by
  intro meshes
  induction meshes with
  | nil => intro st; simp [meshLoop, firstMeshes]
  | cons pMesh rest ih =>
    intro st
    have hstep : meshLoop Materials materialIdOffset st (pMesh :: rest) =
        meshLoop Materials materialIdOffset
          (processMesh Materials materialIdOffset st pMesh) rest := rfl
    rw [hstep]
    by_cases h : pMesh.GetMeshIndex ∈ st.meshIdxToMesh
    · rw [processMesh_skip _ _ _ _ h]
      simp only [firstMeshes, h, if_true]
      exact ih st
    · obtain ⟨h1, h2⟩ := ih (processMesh Materials materialIdOffset st pMesh)
      obtain ⟨hseen, hids, hsurf, _, _⟩ := processMesh_new Materials materialIdOffset st pMesh h
      obtain ⟨hl1, hl2, _⟩ :=
        surfaceLoop_ids Materials materialIdOffset pMesh.m_Surfaces
          { tables := st.tables, numOpaqueSurfaces := 0, errors := st.errors }
      rw [h1, h2, hseen, hids, hsurf, hl1, hl2]
      simp only [firstMeshes, h, if_false, List.flatMap_cons, List.length_append]
      refine ⟨?_, by omega⟩
      rw [List.append_assoc, List.range'_append_1, Nat.add_comm]
/-- The material loop appends one `Material_Info` for each material, in order, the `i`-th
being the record iteration `k + i` builds from the `i`-th material. -/
theorem materialLoop_appends (uninit : Nat → Uninitialized) :
    ∀ (Materials : List Material) (k : Nat) (t : RTInfoTables),
      ∃ infos : List Material_Info,
        (materialLoop uninit Materials k t).m_cpuMaterialBuffer =
          t.m_cpuMaterialBuffer ++ infos ∧
        infos.length = Materials.length ∧
        ∀ (i : Nat) (pMat : Material) (materialInfo : Material_Info),
          Materials[i]? = some pMat → infos[i]? = some materialInfo →
          BuiltFromMaterial uninit (k + i) pMat materialInfo := by
  intro Materials
  induction Materials with
  | nil => intro k t; exact ⟨[], by simp [materialLoop], rfl, by simp⟩
  | cons pMat rest ih =>
    intro k t
    obtain ⟨infos, happ, hlen, hall⟩ := ih (k + 1)
      { (buildMaterialInfo t pMat (uninit k)).tables with
        m_cpuMaterialBuffer :=
          (buildMaterialInfo t pMat (uninit k)).tables.m_cpuMaterialBuffer ++
            [(buildMaterialInfo t pMat (uninit k)).materialInfo] }
    refine ⟨(buildMaterialInfo t pMat (uninit k)).materialInfo :: infos, ?_, by simp [hlen], ?_⟩
    · show (materialLoop uninit rest (k + 1) _).m_cpuMaterialBuffer = _
      rw [happ]
      show ((buildMaterialInfo t pMat (uninit k)).tables.m_cpuMaterialBuffer ++ _) ++ infos = _
      rw [(buildMaterialInfo_frame t pMat (uninit k)).2, List.append_assoc]
      rfl
    · intro i pMat' materialInfo hget hinfo
      cases i with
      | zero =>
        simp only [List.getElem?_cons_zero, Option.some.injEq] at hget hinfo
        subst hget; subst hinfo
        exact ⟨t, rfl⟩
      | succ j =>
        rw [List.getElem?_cons_succ] at hget hinfo
        have := hall j pMat' materialInfo hget hinfo
        rw [show k + (j + 1) = k + 1 + j by omega]
        exact this

/-- The number of elements of a list of lists laid end to end. -/
theorem length_flatMap_surfaces (meshes : List Mesh) :
    (meshes.flatMap (fun pMesh => pMesh.m_Surfaces)).length =
      (meshes.map Mesh.GetNumSurfaces).sum := by
  induction meshes with
  | nil => rfl
  | cons pMesh rest ih =>
    simp only [List.flatMap_cons, List.length_append, List.map_cons, List.sum_cons, ih,
      Mesh.GetNumSurfaces]

/-- C27: from every state and for every content block, `OnNewContentLoaded` only appends to
the material, surface and surface-id tables: each table after the load is the table before
it followed by the new entries; the material table grows by the number of materials of the
block, and the surface and surface-id tables each grow by the total number of surfaces of
the meshes processed, that is of the first mesh of each mesh index among the mesh
components of the block. -/
theorem C27_load_only_appends (s : State) (pContentBlock : ContentBlock)
    (uninit : Nat → Uninitialized) :
    (∃ materials : List Material_Info,
      (OnNewContentLoaded s pContentBlock uninit).state.m_RTInfoTables.m_cpuMaterialBuffer =
        s.m_RTInfoTables.m_cpuMaterialBuffer ++ materials ∧
      materials.length = pContentBlock.Materials.length) ∧
    (∃ surfaces : List Surface_Info,
      (OnNewContentLoaded s pContentBlock uninit).state.m_RTInfoTables.m_cpuSurfaceBuffer =
        s.m_RTInfoTables.m_cpuSurfaceBuffer ++ surfaces ∧
      surfaces.length =
        ((firstMeshes pContentBlock.meshComponents []).map Mesh.GetNumSurfaces).sum) ∧
    (∃ ids : List Nat,
      (OnNewContentLoaded s pContentBlock uninit).state.m_RTInfoTables.m_cpuSurfaceIDsBuffer =
        s.m_RTInfoTables.m_cpuSurfaceIDsBuffer ++ ids ∧
      ids.length =
        ((firstMeshes pContentBlock.meshComponents []).map Mesh.GetNumSurfaces).sum) := by
  have hgeo := materialLoop_geometry uninit pContentBlock.Materials 0 s.m_RTInfoTables
  simp only [RTInfoTables.geometry, Prod.mk.injEq] at hgeo
  obtain ⟨_, _, _, hsurf, hids⟩ := hgeo
  have hmat := OnNewContentLoaded_materials s pContentBlock uninit
  simp only [RTInfoTables.materials, Prod.mk.injEq] at hmat
  obtain ⟨_, _, hbuf⟩ := hmat
  obtain ⟨materials, happ, hlen, _⟩ :=
    materialLoop_appends uninit pContentBlock.Materials 0 s.m_RTInfoTables
  obtain ⟨h1, h2⟩ :=
    meshLoop_ids pContentBlock.Materials s.m_RTInfoTables.m_cpuMaterialBuffer.length
      pContentBlock.meshComponents
      { tables := materialLoop uninit pContentBlock.Materials 0 s.m_RTInfoTables,
        m_ivyStemSurfaceIndex := s.m_ivyStemSurfaceIndex,
        m_ivyLeafSurfaceIndex := s.m_ivyLeafSurfaceIndex,
        meshIdxToMesh := [],
        errors := [] }
  obtain ⟨_, _, surfaces, hsapp, hall⟩ :=
    meshLoop_rel (fun _ => True) (fun _ _ _ => True)
      pContentBlock.Materials s.m_RTInfoTables.m_cpuMaterialBuffer.length
      (fun _ _ _ => trivial)
      (fun st pSurface _ => by
        obtain ⟨info, h, _⟩ := processSurface_appends pContentBlock.Materials
          s.m_RTInfoTables.m_cpuMaterialBuffer.length st pSurface
        exact ⟨info, h, trivial⟩)
      (fun _ _ _ _ _ _ => trivial) (fun _ _ _ => trivial) (fun _ _ _ _ _ => trivial)
      pContentBlock.meshComponents
      { tables := materialLoop uninit pContentBlock.Materials 0 s.m_RTInfoTables,
        m_ivyStemSurfaceIndex := s.m_ivyStemSurfaceIndex,
        m_ivyLeafSurfaceIndex := s.m_ivyLeafSurfaceIndex,
        meshIdxToMesh := [],
        errors := [] }
      trivial
  rw [OnNewContentLoaded_tables]
  refine ⟨⟨materials, ?_, hlen⟩, ⟨surfaces, ?_, ?_⟩,
    ⟨List.range' s.m_RTInfoTables.m_cpuSurfaceBuffer.length
      ((firstMeshes pContentBlock.meshComponents []).flatMap
        (fun pMesh => pMesh.m_Surfaces)).length, ?_, ?_⟩⟩
  · rw [← OnNewContentLoaded_tables, hbuf, happ]
  · rw [hsapp]; exact congrArg (· ++ surfaces) hsurf
  · rw [← length_flatMap_surfaces]
    exact (forall₂_getElem? hall).1.symm
  · rw [h1]
    show (materialLoop uninit pContentBlock.Materials 0
      s.m_RTInfoTables).m_cpuSurfaceIDsBuffer ++
        List.range' (materialLoop uninit pContentBlock.Materials 0
          s.m_RTInfoTables).m_cpuSurfaceBuffer.length _ = _
    rw [hids, hsurf]
  · rw [List.length_range', ← length_flatMap_surfaces]
/-! ## The index-format tag -/

/-- The `switch` of the attribute loop writes attribute offsets only. -/
theorem setAttributeOffset_other_members (surface_info : Surface_Info)
    (attr : VertexAttributeType) (offset : Int) :
    (setAttributeOffset surface_info attr offset).index_type = surface_info.index_type ∧
    (setAttributeOffset surface_info attr offset).material_id = surface_info.material_id := by
  cases attr <;> exact ⟨rfl, rfl⟩

/-- The attribute loop writes neither `index_type` nor `material_id`. -/
theorem attributeLoop_other_members (pSurface : Surface) (usedAttributes : Nat) :
    ∀ (attrs : List VertexAttributeType) (vbs : List BufferPtr) (si : Surface_Info),
      (attributeLoop pSurface usedAttributes attrs vbs si).2.index_type = si.index_type ∧
      (attributeLoop pSurface usedAttributes attrs vbs si).2.material_id = si.material_id := by
  intro attrs
  induction attrs with
  | nil => intro vbs si; exact ⟨rfl, rfl⟩
  | cons attr rest ih =>
    intro vbs si
    simp only [attributeLoop]
    split
    · obtain ⟨h1, h2⟩ := ih
        (if bufferLoop (pSurface.GetVertexBuffer attr).pBuffer vbs 0 < 0 then
          vbs ++ [(pSurface.GetVertexBuffer attr).pBuffer] else vbs)
        (setAttributeOffset si attr
          (if 0 ≤ bufferLoop (pSurface.GetVertexBuffer attr).pBuffer vbs 0 then
            bufferLoop (pSurface.GetVertexBuffer attr).pBuffer vbs 0
          else
            ((if bufferLoop (pSurface.GetVertexBuffer attr).pBuffer vbs 0 < 0 then
              vbs ++ [(pSurface.GetVertexBuffer attr).pBuffer] else vbs).length : Int) - 1))
      rw [h1, h2]
      exact setAttributeOffset_other_members _ _ _
    · exact ih vbs si

/-- One iteration of the surface loop: the record appended carries the tag of the index
format, or the -1 of the `memset` when the format is not one of the two, and in that case
one error is reported. -/
theorem processSurface_index_type (Materials : List Material) (materialIdOffset : Nat)
    (st : SurfaceLoopState) (pSurface : Surface) :
    (∃ info : Surface_Info,
      (processSurface Materials materialIdOffset st pSurface).tables.m_cpuSurfaceBuffer =
        st.tables.m_cpuSurfaceBuffer ++ [info] ∧
      info.index_type =
        (match pSurface.GetIndexBuffer.IndexFormat with
        | ResourceFormat.R16_UINT => SURFACE_INFO_INDEX_TYPE_U16
        | ResourceFormat.R32_UINT => SURFACE_INFO_INDEX_TYPE_U32
        | ResourceFormat.other _ => -1)) ∧
    (processSurface Materials materialIdOffset st pSurface).errors =
      st.errors ++
        (if unsupportedIndexFormat pSurface then [ContentError.unsupportedIndexFormat]
         else []) := by
  unfold processSurface unsupportedIndexFormat
  refine ⟨⟨_, rfl, ?_⟩, ?_⟩
  · simp only []
    rw [(attributeLoop_other_members _ _ _ _ _).1]
    cases pSurface.GetIndexBuffer.IndexFormat <;> rfl
  · cases pSurface.GetIndexBuffer.IndexFormat <;> simp

/-- The errors a surface loop reports: one for each surface with an unsupported index
format, in order. -/
theorem surfaceLoop_errors (Materials : List Material) (materialIdOffset : Nat) :
    ∀ (m_Surfaces : List Surface) (st : SurfaceLoopState),
      (surfaceLoop Materials materialIdOffset st m_Surfaces).errors =
        st.errors ++ (m_Surfaces.filter unsupportedIndexFormat).map
          (fun _ => ContentError.unsupportedIndexFormat) := by
  intro m_Surfaces
  induction m_Surfaces with
  | nil => intro st; simp [surfaceLoop]
  | cons pSurface rest ih =>
    intro st
    have hstep : surfaceLoop Materials materialIdOffset st (pSurface :: rest) =
        surfaceLoop Materials materialIdOffset
          (processSurface Materials materialIdOffset st pSurface) rest := rfl
    rw [hstep, ih, (processSurface_index_type Materials materialIdOffset st pSurface).2]
    cases h : unsupportedIndexFormat pSurface <;> simp [List.filter, h]

/-- The errors a mesh loop reports: one for each processed surface with an unsupported index
format, in order. -/
theorem meshLoop_errors (Materials : List Material) (materialIdOffset : Nat) :
    ∀ (meshes : List Mesh) (st : MeshLoopState),
      (meshLoop Materials materialIdOffset st meshes).errors =
        st.errors ++
          (((firstMeshes meshes st.meshIdxToMesh).flatMap
            (fun pMesh => pMesh.m_Surfaces)).filter unsupportedIndexFormat).map
            (fun _ => ContentError.unsupportedIndexFormat) := by
  intro meshes
  induction meshes with
  | nil => intro st; simp [meshLoop, firstMeshes]
  | cons pMesh rest ih =>
    intro st
    have hstep : meshLoop Materials materialIdOffset st (pMesh :: rest) =
        meshLoop Materials materialIdOffset
          (processMesh Materials materialIdOffset st pMesh) rest := rfl
    rw [hstep]
    by_cases h : pMesh.GetMeshIndex ∈ st.meshIdxToMesh
    · rw [processMesh_skip _ _ _ _ h]
      simp only [firstMeshes, h, if_true]
      exact ih st
    · obtain ⟨hseen, _, _, _, herr⟩ := processMesh_new Materials materialIdOffset st pMesh h
      rw [ih, hseen, herr, surfaceLoop_errors]
      simp only [firstMeshes, h, if_false, List.flatMap_cons, List.filter_append,
        List.map_append, List.append_assoc]

/-- C26: for every content load, the `Surface_Info` appended for each surface processed has
`index_type = SURFACE_INFO_INDEX_TYPE_U16 = 1` when the index format of the surface is
`R16_UINT` and `index_type = SURFACE_INFO_INDEX_TYPE_U32 = 0` when it is `R32_UINT`; for
any other format neither tag is assigned (the member keeps the -1 of the `memset`) and the
load reports an error, one for each such surface. -/
theorem C26_index_type_tag (s : State) (pContentBlock : ContentBlock)
    (uninit : Nat → Uninitialized) :
    (∃ infos : List Surface_Info,
      (OnNewContentLoaded s pContentBlock uninit).state.m_RTInfoTables.m_cpuSurfaceBuffer =
        s.m_RTInfoTables.m_cpuSurfaceBuffer ++ infos ∧
      infos.length = pContentBlock.processedSurfaces.length ∧
      ∀ (k : Nat) (pSurface : Surface) (info : Surface_Info),
        pContentBlock.processedSurfaces[k]? = some pSurface → infos[k]? = some info →
        (pSurface.GetIndexBuffer.IndexFormat = ResourceFormat.R16_UINT →
          info.index_type = SURFACE_INFO_INDEX_TYPE_U16 ∧ info.index_type = 1) ∧
        (pSurface.GetIndexBuffer.IndexFormat = ResourceFormat.R32_UINT →
          info.index_type = SURFACE_INFO_INDEX_TYPE_U32 ∧ info.index_type = 0) ∧
        (pSurface.GetIndexBuffer.IndexFormat ≠ ResourceFormat.R16_UINT →
          pSurface.GetIndexBuffer.IndexFormat ≠ ResourceFormat.R32_UINT →
          info.index_type = -1 ∧ info.index_type ≠ SURFACE_INFO_INDEX_TYPE_U16 ∧
          info.index_type ≠ SURFACE_INFO_INDEX_TYPE_U32 ∧
          ContentError.unsupportedIndexFormat ∈
            (OnNewContentLoaded s pContentBlock uninit).errors)) ∧
    (OnNewContentLoaded s pContentBlock uninit).errors =
      (pContentBlock.processedSurfaces.filter unsupportedIndexFormat).map
        (fun _ => ContentError.unsupportedIndexFormat) := by
  have hgeo := materialLoop_geometry uninit pContentBlock.Materials 0 s.m_RTInfoTables
  simp only [RTInfoTables.geometry, Prod.mk.injEq] at hgeo
  obtain ⟨_, _, _, hsurf, _⟩ := hgeo
  have herr : (OnNewContentLoaded s pContentBlock uninit).errors =
      (pContentBlock.processedSurfaces.filter unsupportedIndexFormat).map
        (fun _ => ContentError.unsupportedIndexFormat) := by
    show (meshLoop pContentBlock.Materials s.m_RTInfoTables.m_cpuMaterialBuffer.length
      { tables := materialLoop uninit pContentBlock.Materials 0 s.m_RTInfoTables,
        m_ivyStemSurfaceIndex := s.m_ivyStemSurfaceIndex,
        m_ivyLeafSurfaceIndex := s.m_ivyLeafSurfaceIndex,
        meshIdxToMesh := [],
        errors := [] }
      pContentBlock.meshComponents).errors = _
    rw [meshLoop_errors]
    rfl
  obtain ⟨_, _, infos, happ, hall⟩ :=
    meshLoop_rel (fun _ => True)
      (fun _ pSurface info => info.index_type =
        (match pSurface.GetIndexBuffer.IndexFormat with
        | ResourceFormat.R16_UINT => SURFACE_INFO_INDEX_TYPE_U16
        | ResourceFormat.R32_UINT => SURFACE_INFO_INDEX_TYPE_U32
        | ResourceFormat.other _ => -1))
      pContentBlock.Materials s.m_RTInfoTables.m_cpuMaterialBuffer.length
      (fun _ _ _ => trivial)
      (fun st pSurface _ => (processSurface_index_type _ _ st pSurface).1)
      (fun _ _ _ _ _ h => h) (fun _ _ _ => trivial) (fun _ _ _ _ h => h)
      pContentBlock.meshComponents
      { tables := materialLoop uninit pContentBlock.Materials 0 s.m_RTInfoTables,
        m_ivyStemSurfaceIndex := s.m_ivyStemSurfaceIndex,
        m_ivyLeafSurfaceIndex := s.m_ivyLeafSurfaceIndex,
        meshIdxToMesh := [],
        errors := [] }
      trivial
  obtain ⟨hlen, hget⟩ := forall₂_getElem? hall
  refine ⟨⟨infos, ?_, hlen.symm, ?_⟩, herr⟩
  · rw [OnNewContentLoaded_tables, happ]; exact congrArg (· ++ infos) hsurf
  · intro k pSurface info hk hinfo
    have htype := hget k pSurface info hk hinfo
    have hmem : pSurface ∈ pContentBlock.processedSurfaces := List.getElem?_mem hk
    refine ⟨?_, ?_, ?_⟩
    · intro hf; rw [hf] at htype; exact ⟨htype, htype⟩
    · intro hf; rw [hf] at htype; exact ⟨htype, htype⟩
    · intro h16 h32
      cases hf : pSurface.GetIndexBuffer.IndexFormat with
      | R16_UINT => exact absurd hf h16
      | R32_UINT => exact absurd hf h32
      | other value =>
        rw [hf] at htype
        simp only at htype
        refine ⟨htype, by rw [htype]; decide, by rw [htype]; decide, ?_⟩
        rw [herr]
        refine List.mem_map.mpr ⟨pSurface, List.mem_filter.mpr ⟨hmem, ?_⟩, rfl⟩
        simp only [unsupportedIndexFormat, hf]
/-! ## The material index of a surface -/

/-- The material search of a surface ends with the value it started with, no material of the
list being the surface's, or with the offset position of the first material of the list that
is the surface's. -/
theorem materialIdLoop_inv (pMaterial : Nat) (materialIdOffset : Nat) :
    ∀ (l : List Material) (i0 : Nat) (material_id : Int),
      ((∀ pMat ∈ l, pMat.addr ≠ pMaterial) ∧
        materialIdLoop pMaterial materialIdOffset l i0 material_id = material_id) ∨
      (∃ (j : Nat) (pMat : Material), l[j]? = some pMat ∧ pMat.addr = pMaterial ∧
        (∀ j', j' < j → ∀ pMat', l[j']? = some pMat' → pMat'.addr ≠ pMaterial) ∧
        materialIdLoop pMaterial materialIdOffset l i0 material_id =
          ((i0 + j + materialIdOffset : Nat) : Int)) := by
  intro l
  induction l with
  | nil => intro i0 material_id; exact Or.inl ⟨by simp, rfl⟩
  | cons pMat rest ih =>
    intro i0 material_id
    by_cases h : pMat.addr = pMaterial
    · refine Or.inr ⟨0, pMat, List.getElem?_cons_zero, h, by intro j1 hj1; omega, ?_⟩
      simp only [materialIdLoop, h, if_true, Nat.add_zero]
    · rcases ih (i0 + 1) material_id with ⟨hall, heq⟩ | ⟨j, pMat', hget, haddr, hlow, heq⟩
      · refine Or.inl ⟨?_, ?_⟩
        · intro p hp
          rcases List.mem_cons.mp hp with rfl | hp'
          · exact h
          · exact hall p hp'
        · simp only [materialIdLoop, h, if_false]; exact heq
      · refine Or.inr ⟨j + 1, pMat', by simpa using hget, haddr, ?_, ?_⟩
        · intro j' hj' p hp
          cases j' with
          | zero =>
            simp only [List.getElem?_cons_zero, Option.some.injEq] at hp
            rw [← hp]; exact h
          | succ n =>
            rw [List.getElem?_cons_succ] at hp
            exact hlow n (by omega) p hp
        · simp only [materialIdLoop, h, if_false]
          rw [heq, show i0 + 1 + j = i0 + (j + 1) by omega]

/-- One iteration of the surface loop: the `material_id` of the record appended is what the
material search leaves of the -1 of the `memset`. -/
theorem processSurface_material_id (Materials : List Material) (materialIdOffset : Nat)
    (st : SurfaceLoopState) (pSurface : Surface) :
    ∃ info : Surface_Info,
      (processSurface Materials materialIdOffset st pSurface).tables.m_cpuSurfaceBuffer =
        st.tables.m_cpuSurfaceBuffer ++ [info] ∧
      info.material_id = materialIdLoop pSurface.GetMaterial materialIdOffset Materials 0 (-1) := by
  unfold processSurface
  refine ⟨_, rfl, ?_⟩
  simp only []
  rw [(attributeLoop_other_members _ _ _ _ _).2]
  cases pSurface.GetIndexBuffer.IndexFormat <;> rfl

/-- C23: for every content load, the material table after the load is the table before it
followed by one `Material_Info` for each material of the block, in order. For every surface
processed, when a material of the block's list is the surface's material, the `material_id`
of its `Surface_Info` is the position of that material in the list plus the length the
material table had before the load, a valid index of the material table, at which stands the
`Material_Info` built from that material during this load; when no material of the list is
the surface's, `material_id` keeps the value -1. -/
theorem C23_material_id_resolves (s : State) (pContentBlock : ContentBlock)
    (uninit : Nat → Uninitialized) :
    ∃ (materials : List Material_Info) (infos : List Surface_Info),
      (OnNewContentLoaded s pContentBlock uninit).state.m_RTInfoTables.m_cpuMaterialBuffer =
        s.m_RTInfoTables.m_cpuMaterialBuffer ++ materials ∧
      materials.length = pContentBlock.Materials.length ∧
      (OnNewContentLoaded s pContentBlock uninit).state.m_RTInfoTables.m_cpuSurfaceBuffer =
        s.m_RTInfoTables.m_cpuSurfaceBuffer ++ infos ∧
      infos.length = pContentBlock.processedSurfaces.length ∧
      ∀ (k : Nat) (pSurface : Surface) (info : Surface_Info),
        pContentBlock.processedSurfaces[k]? = some pSurface → infos[k]? = some info →
        ((∀ pMat ∈ pContentBlock.Materials, pMat.addr ≠ pSurface.GetMaterial) →
          info.material_id = -1) ∧
        ((∃ pMat ∈ pContentBlock.Materials, pMat.addr = pSurface.GetMaterial) →
          ∃ (i : Nat) (pMat : Material) (materialInfo : Material_Info),
            pContentBlock.Materials[i]? = some pMat ∧ pMat.addr = pSurface.GetMaterial ∧
            info.material_id = ((s.m_RTInfoTables.m_cpuMaterialBuffer.length + i : Nat) : Int) ∧
            s.m_RTInfoTables.m_cpuMaterialBuffer.length + i <
              (OnNewContentLoaded s pContentBlock
                uninit).state.m_RTInfoTables.m_cpuMaterialBuffer.length ∧
            (OnNewContentLoaded s pContentBlock
              uninit).state.m_RTInfoTables.m_cpuMaterialBuffer[
                s.m_RTInfoTables.m_cpuMaterialBuffer.length + i]? = some materialInfo ∧
            materials[i]? = some materialInfo ∧
            BuiltFromMaterial uninit i pMat materialInfo) := by
  have hgeo := materialLoop_geometry uninit pContentBlock.Materials 0 s.m_RTInfoTables
  simp only [RTInfoTables.geometry, Prod.mk.injEq] at hgeo
  obtain ⟨_, _, _, hsurf, _⟩ := hgeo
  have hmat := OnNewContentLoaded_materials s pContentBlock uninit
  simp only [RTInfoTables.materials, Prod.mk.injEq] at hmat
  obtain ⟨_, _, hbuf⟩ := hmat
  obtain ⟨materials, happ, hlen, hbuilt⟩ :=
    materialLoop_appends uninit pContentBlock.Materials 0 s.m_RTInfoTables
  obtain ⟨_, _, infos, hsapp, hall⟩ :=
    meshLoop_rel (fun _ => True)
      (fun _ pSurface info => info.material_id =
        materialIdLoop pSurface.GetMaterial s.m_RTInfoTables.m_cpuMaterialBuffer.length
          pContentBlock.Materials 0 (-1))
      pContentBlock.Materials s.m_RTInfoTables.m_cpuMaterialBuffer.length
      (fun _ _ _ => trivial)
      (fun st pSurface _ => processSurface_material_id _ _ st pSurface)
      (fun _ _ _ _ _ h => h) (fun _ _ _ => trivial) (fun _ _ _ _ h => h)
      pContentBlock.meshComponents
      { tables := materialLoop uninit pContentBlock.Materials 0 s.m_RTInfoTables,
        m_ivyStemSurfaceIndex := s.m_ivyStemSurfaceIndex,
        m_ivyLeafSurfaceIndex := s.m_ivyLeafSurfaceIndex,
        meshIdxToMesh := [],
        errors := [] }
      trivial
  obtain ⟨hslen, hget⟩ := forall₂_getElem? hall
  have htable : (OnNewContentLoaded s pContentBlock
      uninit).state.m_RTInfoTables.m_cpuMaterialBuffer =
      s.m_RTInfoTables.m_cpuMaterialBuffer ++ materials := by rw [hbuf, happ]
  refine ⟨materials, infos, htable, hlen, ?_, hslen.symm, ?_⟩
  · rw [OnNewContentLoaded_tables, hsapp]; exact congrArg (· ++ infos) hsurf
  · intro k pSurface info hk hinfo
    have hid := hget k pSurface info hk hinfo
    rcases materialIdLoop_inv pSurface.GetMaterial s.m_RTInfoTables.m_cpuMaterialBuffer.length
        pContentBlock.Materials 0 (-1) with ⟨hnone, heq⟩ | ⟨i, pMat, hi, haddr, _, heq⟩
    · refine ⟨fun _ => by rw [hid, heq], ?_⟩
      rintro ⟨pMat, hmem, haddr⟩
      exact absurd haddr (hnone pMat hmem)
    · refine ⟨fun hno => absurd haddr (hno pMat (List.getElem?_mem hi)), fun _ => ?_⟩
      have hilt : i < pContentBlock.Materials.length := (List.getElem?_eq_some.mp hi).1
      have hilt' : i < materials.length := by omega
      refine ⟨i, pMat, materials[i], hi, haddr, ?_, ?_, ?_, List.getElem?_eq_getElem hilt', ?_⟩
      · rw [hid, heq]
        congr 1
        omega
      · rw [htable, List.length_append]; omega
      · rw [htable, List.getElem?_append_right (by omega)]
        rw [show s.m_RTInfoTables.m_cpuMaterialBuffer.length + i -
          s.m_RTInfoTables.m_cpuMaterialBuffer.length = i by omega]
        exact List.getElem?_eq_getElem hilt'
      · have := hbuilt i pMat materials[i] hi (List.getElem?_eq_getElem hilt')
        rw [Nat.zero_add] at this
        exact this
/-! ## Vertex-buffer offsets of a surface -/

/-- For the five attributes the loop has a member for, the test of the attribute loop on
`usedAttributes` is the test on the attributes of the surface. -/
theorem usedAttributes_test (surfaceAttributes : Nat) (attr : VertexAttributeType)
    (offset : Int) (si : Surface_Info) (h : si.attributeOffset attr = some offset) :
    (usedAttributesMask &&& surfaceAttributes) &&& (1 <<< attr.toNat) =
      surfaceAttributes &&& (1 <<< attr.toNat) := by
  rw [Nat.land_comm usedAttributesMask, Nat.land_assoc]
  congr 1
  cases attr <;> first | rfl | exact absurd h (by simp [Surface_Info.attributeOffset])

/-- Reading an attribute member after the `switch` of the attribute loop has stored an
offset. -/
theorem attributeOffset_set (si : Surface_Info) (a attr : VertexAttributeType) (offset : Int) :
    (setAttributeOffset si a offset).attributeOffset attr =
      if attr = a then (si.attributeOffset attr).map (fun _ => offset)
      else si.attributeOffset attr := by
  cases a <;> cases attr <;> rfl

/-- The dedup step of the attribute loop keeps a table without duplicates free of them. -/
theorem dedup_step_nodup (pBuffer : BufferPtr) (l : List BufferPtr) (h : l.Nodup) :
    (if bufferLoop pBuffer l 0 < 0 then l ++ [pBuffer] else l).Nodup := by
  rcases bufferLoop_resolves pBuffer l with ⟨_, hge, _⟩ | ⟨hnot, hlt⟩
  · rw [if_neg hge]; exact h
  · rw [if_pos hlt, ← List.concat_eq_append]
    exact List.Nodup.concat hnot h

/-- The offset the attribute loop stores is a position of the buffer in the table the dedup
step leaves. -/
theorem dedup_step_resolves (pBuffer : BufferPtr) (l : List BufferPtr) :
    ∃ p : Nat,
      (if 0 ≤ bufferLoop pBuffer l 0 then bufferLoop pBuffer l 0
       else ((if bufferLoop pBuffer l 0 < 0 then l ++ [pBuffer] else l).length : Int) - 1) =
        (p : Int) ∧
      (if bufferLoop pBuffer l 0 < 0 then l ++ [pBuffer] else l)[p]? = some pBuffer := by
  rcases bufferLoop_resolves pBuffer l with ⟨_, hge, p, hp, hget⟩ | ⟨_, hlt⟩
  · have hge' : 0 ≤ bufferLoop pBuffer l 0 := by omega
    rw [if_pos hge', if_neg hge]
    exact ⟨p, hp, hget⟩
  · have hge' : ¬ 0 ≤ bufferLoop pBuffer l 0 := by omega
    rw [if_neg hge', if_pos hlt]
    refine ⟨l.length, ?_, by simp⟩
    rw [List.length_append, List.length_singleton]
    push_cast
    omega

/-- The attribute loop: the vertex-buffer table is extended, stays free of duplicates, and
each attribute member either holds a position of the buffer of its attribute in the table
the loop leaves (the attribute was visited with its bit set) or is as it was. -/
theorem attributeLoop_spec (pSurface : Surface) (usedAttributes : Nat) :
    ∀ (attrs : List VertexAttributeType) (vbs : List BufferPtr) (si : Surface_Info),
      (∃ added, (attributeLoop pSurface usedAttributes attrs vbs si).1 = vbs ++ added) ∧
      (vbs.Nodup → (attributeLoop pSurface usedAttributes attrs vbs si).1.Nodup) ∧
      ∀ (attr : VertexAttributeType) (offset : Int),
        (attributeLoop pSurface usedAttributes attrs vbs si).2.attributeOffset attr =
          some offset →
        ((attr ∈ attrs ∧ usedAttributes &&& (1 <<< attr.toNat) ≠ 0) →
          ∃ p : Nat, offset = (p : Int) ∧
            (attributeLoop pSurface usedAttributes attrs vbs si).1[p]? =
              some (pSurface.GetVertexBuffer attr).pBuffer) ∧
        (¬ (attr ∈ attrs ∧ usedAttributes &&& (1 <<< attr.toNat) ≠ 0) →
          si.attributeOffset attr = some offset) := by
  intro attrs
  induction attrs with
  | nil =>
    intro vbs si
    refine ⟨⟨[], by simp [attributeLoop]⟩, fun h => h, ?_⟩
    intro attr offset h
    exact ⟨fun hmem => absurd hmem.1 (List.not_mem_nil _), fun _ => h⟩
  | cons a rest ih =>
    intro vbs si
    by_cases hbit : usedAttributes &&& (1 <<< a.toNat) ≠ 0
    · have hstep : attributeLoop pSurface usedAttributes (a :: rest) vbs si =
          attributeLoop pSurface usedAttributes rest
            (if bufferLoop (pSurface.GetVertexBuffer a).pBuffer vbs 0 < 0 then
              vbs ++ [(pSurface.GetVertexBuffer a).pBuffer] else vbs)
            (setAttributeOffset si a
              (if 0 ≤ bufferLoop (pSurface.GetVertexBuffer a).pBuffer vbs 0 then
                bufferLoop (pSurface.GetVertexBuffer a).pBuffer vbs 0
              else
                ((if bufferLoop (pSurface.GetVertexBuffer a).pBuffer vbs 0 < 0 then
                  vbs ++ [(pSurface.GetVertexBuffer a).pBuffer] else vbs).length : Int) - 1)) := by
        simp only [attributeLoop]
        rw [if_pos hbit]
      rw [hstep]
      obtain ⟨⟨added, hadd⟩, hnd, hall⟩ := ih
        (if bufferLoop (pSurface.GetVertexBuffer a).pBuffer vbs 0 < 0 then
          vbs ++ [(pSurface.GetVertexBuffer a).pBuffer] else vbs)
        (setAttributeOffset si a
          (if 0 ≤ bufferLoop (pSurface.GetVertexBuffer a).pBuffer vbs 0 then
            bufferLoop (pSurface.GetVertexBuffer a).pBuffer vbs 0
          else
            ((if bufferLoop (pSurface.GetVertexBuffer a).pBuffer vbs 0 < 0 then
              vbs ++ [(pSurface.GetVertexBuffer a).pBuffer] else vbs).length : Int) - 1))
      obtain ⟨p, hp, hpget⟩ := dedup_step_resolves (pSurface.GetVertexBuffer a).pBuffer vbs
      refine ⟨?_, fun h => hnd (dedup_step_nodup _ _ h), ?_⟩
      · rw [hadd]
        split
        · exact ⟨[(pSurface.GetVertexBuffer a).pBuffer] ++ added, by simp⟩
        · exact ⟨added, rfl⟩
      · intro attr offset hoff
        obtain ⟨hin, hout⟩ := hall attr offset hoff
        by_cases hrest : attr ∈ rest ∧ usedAttributes &&& (1 <<< attr.toNat) ≠ 0
        · exact ⟨fun _ => hin hrest, fun hno => absurd ⟨List.mem_cons_of_mem _ hrest.1, hrest.2⟩ hno⟩
        · have hset := hout hrest
          rw [attributeOffset_set] at hset
          by_cases heq : attr = a
          · subst heq
            rw [if_pos rfl] at hset
            refine ⟨fun _ => ?_, fun hno => absurd ⟨List.mem_cons_self _ _, hbit⟩ hno⟩
            cases hsi : si.attributeOffset attr with
            | none => rw [hsi] at hset; exact absurd hset (by simp)
            | some old =>
              rw [hsi, Option.map_some', Option.some.injEq] at hset
              refine ⟨p, by rw [← hset, hp], ?_⟩
              rw [hadd, List.getElem?_append_left (List.getElem?_eq_some.mp hpget).1]
              exact hpget
          · rw [if_neg heq] at hset
            refine ⟨fun hmem => ?_, fun _ => hset⟩
            rcases List.mem_cons.mp hmem.1 with h1 | h1
            · exact absurd h1 heq
            · exact absurd ⟨h1, hmem.2⟩ hrest
    · have hstep : attributeLoop pSurface usedAttributes (a :: rest) vbs si =
          attributeLoop pSurface usedAttributes rest vbs si := by
        simp only [attributeLoop]
        rw [if_neg hbit]
      rw [hstep]
      obtain ⟨hadd, hnd, hall⟩ := ih vbs si
      refine ⟨hadd, hnd, ?_⟩
      intro attr offset hoff
      obtain ⟨hin, hout⟩ := hall attr offset hoff
      refine ⟨fun hmem => ?_, fun hno => hout (fun hr => hno ⟨List.mem_cons_of_mem _ hr.1, hr.2⟩)⟩
      rcases List.mem_cons.mp hmem.1 with h1 | h1
      · subst h1; exact absurd hmem.2 hbit
      · exact hin ⟨h1, hmem.2⟩

/-- The attribute loop of a surface, run over all attribute values on a record whose
attribute members hold the -1 of the `memset`: each attribute member ends as a position of
the buffer of its attribute when the surface has the attribute, and as -1 when not. -/
theorem attributeLoop_surface (pSurface : Surface) (vbs : List BufferPtr) (si0 : Surface_Info)
    (h0 : ∀ (attr : VertexAttributeType) (offset : Int),
      si0.attributeOffset attr = some offset → offset = -1) (m : Int) :
    (∃ added,
      (attributeLoop pSurface (usedAttributesMask &&& pSurface.GetVertexAttributes)
        VertexAttributeType.all vbs si0).1 = vbs ++ added) ∧
    (vbs.Nodup →
      (attributeLoop pSurface (usedAttributesMask &&& pSurface.GetVertexAttributes)
        VertexAttributeType.all vbs si0).1.Nodup) ∧
    ∀ (attr : VertexAttributeType) (offset : Int),
      ({ (attributeLoop pSurface (usedAttributesMask &&& pSurface.GetVertexAttributes)
          VertexAttributeType.all vbs si0).2 with material_id := m } :
        Surface_Info).attributeOffset attr = some offset →
      if pSurface.GetVertexAttributes &&& (1 <<< attr.toNat) ≠ 0 then
        ∃ p : Nat, offset = (p : Int) ∧
          (attributeLoop pSurface (usedAttributesMask &&& pSurface.GetVertexAttributes)
            VertexAttributeType.all vbs si0).1[p]? = some (pSurface.GetVertexBuffer attr).pBuffer
      else offset = -1 := by
  obtain ⟨hadd, hnd, hall⟩ :=
    attributeLoop_spec pSurface (usedAttributesMask &&& pSurface.GetVertexAttributes)
      VertexAttributeType.all vbs si0
  refine ⟨hadd, hnd, ?_⟩
  intro attr offset hoff
  have hoff' : (attributeLoop pSurface (usedAttributesMask &&& pSurface.GetVertexAttributes)
      VertexAttributeType.all vbs si0).2.attributeOffset attr = some offset := by
    cases attr <;> exact hoff
  obtain ⟨hin, hout⟩ := hall attr offset hoff'
  have hmem : attr ∈ VertexAttributeType.all := by cases attr <;> decide
  rw [usedAttributes_test _ attr offset _ hoff'] at hin hout
  split
  · rename_i hbit
    exact hin ⟨hmem, hbit⟩
  · rename_i hbit
    exact h0 attr offset (hout (fun h => hbit h.2))

/-- One iteration of the surface loop: the vertex-buffer table is extended and stays free of
duplicates, and in the record appended each attribute member is a position of the buffer of
its attribute, in the table the iteration leaves, when the surface has the attribute, and
-1 when not. -/
theorem processSurface_attributes (Materials : List Material) (materialIdOffset : Nat)
    (st : SurfaceLoopState) (pSurface : Surface) :
    (∃ added,
      (processSurface Materials materialIdOffset st pSurface).tables.m_VertexBuffers =
        st.tables.m_VertexBuffers ++ added) ∧
    (st.tables.m_VertexBuffers.Nodup →
      (processSurface Materials materialIdOffset st pSurface).tables.m_VertexBuffers.Nodup) ∧
    ∃ info : Surface_Info,
      (processSurface Materials materialIdOffset st pSurface).tables.m_cpuSurfaceBuffer =
        st.tables.m_cpuSurfaceBuffer ++ [info] ∧
      ∀ (attr : VertexAttributeType) (offset : Int), info.attributeOffset attr = some offset →
        if pSurface.GetVertexAttributes &&& (1 <<< attr.toNat) ≠ 0 then
          ∃ p : Nat, offset = (p : Int) ∧
            (processSurface Materials materialIdOffset st
              pSurface).tables.m_VertexBuffers[p]? =
              some (pSurface.GetVertexBuffer attr).pBuffer
        else offset = -1 := by
  have h := fun si0 h0 => attributeLoop_surface pSurface st.tables.m_VertexBuffers si0 h0
  cases hf : pSurface.GetIndexBuffer.IndexFormat <;>
  · unfold processSurface
    simp only [hf]
    refine ⟨(h _ ?_ 0).1, (h _ ?_ 0).2.1, _, rfl, (h _ ?_ _).2.2⟩ <;>
    · intro attr offset hoff
      cases attr <;> first
        | exact (Option.some.inj hoff).symm
        | exact absurd hoff (by simp [Surface_Info.attributeOffset])
/-- What a load does to the vertex-buffer table and the surface table, from a state whose
vertex-buffer table has no duplicate. -/
theorem OnNewContentLoaded_vertexBuffers (s : State) (pContentBlock : ContentBlock)
    (uninit : Nat → Uninitialized) (hnd : s.m_RTInfoTables.m_VertexBuffers.Nodup) :
    (OnNewContentLoaded s pContentBlock uninit).state.m_RTInfoTables.m_VertexBuffers.Nodup ∧
    (∃ added,
      (OnNewContentLoaded s pContentBlock uninit).state.m_RTInfoTables.m_VertexBuffers =
        s.m_RTInfoTables.m_VertexBuffers ++ added) ∧
    ∃ infos : List Surface_Info,
      (OnNewContentLoaded s pContentBlock uninit).state.m_RTInfoTables.m_cpuSurfaceBuffer =
        s.m_RTInfoTables.m_cpuSurfaceBuffer ++ infos ∧
      List.Forall₂
        (fun pSurface info =>
          ∀ (attr : VertexAttributeType) (offset : Int),
            info.attributeOffset attr = some offset →
            if pSurface.GetVertexAttributes &&& (1 <<< attr.toNat) ≠ 0 then
              ∃ p : Nat, offset = (p : Int) ∧
                (OnNewContentLoaded s pContentBlock
                  uninit).state.m_RTInfoTables.m_VertexBuffers[p]? =
                  some (pSurface.GetVertexBuffer attr).pBuffer
            else offset = -1)
        pContentBlock.processedSurfaces infos := by
  have hgeo := materialLoop_geometry uninit pContentBlock.Materials 0 s.m_RTInfoTables
  simp only [RTInfoTables.geometry, Prod.mk.injEq] at hgeo
  obtain ⟨hvbs, _, _, hsurf, _⟩ := hgeo
  obtain ⟨hInv, _, infos, happ, hall⟩ :=
    meshLoop_rel
      (fun t => t.m_VertexBuffers.Nodup ∧
        ∃ added, t.m_VertexBuffers = s.m_RTInfoTables.m_VertexBuffers ++ added)
      (fun t pSurface info =>
        ∀ (attr : VertexAttributeType) (offset : Int),
          info.attributeOffset attr = some offset →
          if pSurface.GetVertexAttributes &&& (1 <<< attr.toNat) ≠ 0 then
            ∃ p : Nat, offset = (p : Int) ∧
              t.m_VertexBuffers[p]? = some (pSurface.GetVertexBuffer attr).pBuffer
          else offset = -1)
      pContentBlock.Materials s.m_RTInfoTables.m_cpuMaterialBuffer.length
      (fun st pSurface h => by
        obtain ⟨⟨added', hadd'⟩, hnd', _⟩ := processSurface_attributes
          pContentBlock.Materials s.m_RTInfoTables.m_cpuMaterialBuffer.length st pSurface
        obtain ⟨hn, added, hadd⟩ := h
        exact ⟨hnd' hn, added ++ added', by rw [hadd', hadd, List.append_assoc]⟩)
      (fun st pSurface _ => (processSurface_attributes _ _ st pSurface).2.2)
      (fun st pSurface' pSurface info _ h => by
        obtain ⟨⟨added', hadd'⟩, _, _⟩ := processSurface_attributes
          pContentBlock.Materials s.m_RTInfoTables.m_cpuMaterialBuffer.length st pSurface'
        intro attr offset hoff
        have := h attr offset hoff
        split
        · rename_i hbit
          rw [if_pos hbit] at this
          obtain ⟨p, hp, hget⟩ := this
          refine ⟨p, hp, ?_⟩
          rw [hadd', List.getElem?_append_left (List.getElem?_eq_some.mp hget).1]
          exact hget
        · rename_i hbit
          rw [if_neg hbit] at this
          exact this)
      (fun t buffer h => h)
      (fun t buffer pSurface info h => h)
      pContentBlock.meshComponents
      { tables := materialLoop uninit pContentBlock.Materials 0 s.m_RTInfoTables,
        m_ivyStemSurfaceIndex := s.m_ivyStemSurfaceIndex,
        m_ivyLeafSurfaceIndex := s.m_ivyLeafSurfaceIndex,
        meshIdxToMesh := [],
        errors := [] }
      (by
        show (materialLoop uninit pContentBlock.Materials 0
            s.m_RTInfoTables).m_VertexBuffers.Nodup ∧
          ∃ added, (materialLoop uninit pContentBlock.Materials 0
            s.m_RTInfoTables).m_VertexBuffers = s.m_RTInfoTables.m_VertexBuffers ++ added
        rw [hvbs]; exact ⟨hnd, [], by simp⟩)
  rw [OnNewContentLoaded_tables]
  refine ⟨hInv.1, hInv.2, infos, ?_, hall⟩
  rw [happ, hsurf]

/-- Every sequence of loads keeps the vertex-buffer table free of duplicates. -/
theorem loadSequence_vertexBuffers_nodup :
    ∀ (loads : List (ContentBlock × (Nat → Uninitialized))) (s : State),
      s.m_RTInfoTables.m_VertexBuffers.Nodup →
      (loadSequence s loads).m_RTInfoTables.m_VertexBuffers.Nodup := by
  intro loads
  induction loads with
  | nil => intro s h; exact h
  | cons load rest ih =>
    intro s h
    exact ih _ (OnNewContentLoaded_vertexBuffers s load.1 load.2 h).1

/-- C24: let any sequence of content loads have run from the freshly constructed module,
and let one more load follow. After it the vertex-buffer table holds no buffer twice and
still starts with the table before it. For every surface the load processes and every
attribute among position, normal, tangent, texcoord0 and texcoord1, the offset member of
that attribute in the surface's `Surface_Info` is, when the surface has the attribute, the
position in the vertex-buffer table of the buffer of that attribute, and -1 when the surface
lacks it. And the step of the attribute loop for an attribute whose buffer is already in the
table leaves the table as it is. -/
theorem C24_vertex_buffers_deduplicated
    (loads : List (ContentBlock × (Nat → Uninitialized))) (pContentBlock : ContentBlock)
    (uninit : Nat → Uninitialized) :
    (OnNewContentLoaded (loadSequence {} loads) pContentBlock
      uninit).state.m_RTInfoTables.m_VertexBuffers.Nodup ∧
    (∃ added,
      (OnNewContentLoaded (loadSequence {} loads) pContentBlock
        uninit).state.m_RTInfoTables.m_VertexBuffers =
        (loadSequence {} loads).m_RTInfoTables.m_VertexBuffers ++ added) ∧
    (∃ infos : List Surface_Info,
      (OnNewContentLoaded (loadSequence {} loads) pContentBlock
        uninit).state.m_RTInfoTables.m_cpuSurfaceBuffer =
        (loadSequence {} loads).m_RTInfoTables.m_cpuSurfaceBuffer ++ infos ∧
      infos.length = pContentBlock.processedSurfaces.length ∧
      ∀ (k : Nat) (pSurface : Surface) (info : Surface_Info),
        pContentBlock.processedSurfaces[k]? = some pSurface → infos[k]? = some info →
        ∀ attr ∈ [VertexAttributeType.Position, VertexAttributeType.Normal,
            VertexAttributeType.Tangent, VertexAttributeType.Texcoord0,
            VertexAttributeType.Texcoord1],
          ∃ offset : Int, info.attributeOffset attr = some offset ∧
            (pSurface.GetVertexAttributes &&& (1 <<< attr.toNat) ≠ 0 →
              ∃ p : Nat, offset = (p : Int) ∧
                (OnNewContentLoaded (loadSequence {} loads) pContentBlock
                  uninit).state.m_RTInfoTables.m_VertexBuffers[p]? =
                  some (pSurface.GetVertexBuffer attr).pBuffer) ∧
            (pSurface.GetVertexAttributes &&& (1 <<< attr.toNat) = 0 → offset = -1)) ∧
    (∀ (pSurface : Surface) (usedAttributes : Nat) (attr : VertexAttributeType)
      (m_VertexBuffers : List BufferPtr) (surface_info : Surface_Info),
      (pSurface.GetVertexBuffer attr).pBuffer ∈ m_VertexBuffers →
      (attributeLoop pSurface usedAttributes [attr] m_VertexBuffers surface_info).1 =
        m_VertexBuffers) := by
  have hnd : (loadSequence {} loads).m_RTInfoTables.m_VertexBuffers.Nodup :=
    loadSequence_vertexBuffers_nodup loads {} List.nodup_nil
  obtain ⟨hnodup, hadded, infos, happ, hall⟩ :=
    OnNewContentLoaded_vertexBuffers (loadSequence {} loads) pContentBlock uninit hnd
  obtain ⟨hlen, hget⟩ := forall₂_getElem? hall
  refine ⟨hnodup, hadded, ⟨infos, happ, hlen.symm, ?_⟩, ?_⟩
  · intro k pSurface info hk hinfo attr hattr
    have hR := hget k pSurface info hk hinfo
    have hsome : ∃ offset : Int, info.attributeOffset attr = some offset := by
      simp only [List.mem_cons, List.mem_singleton, List.not_mem_nil, or_false] at hattr
      rcases hattr with h | h | h | h | h <;> subst h <;> exact ⟨_, rfl⟩
    obtain ⟨offset, hoff⟩ := hsome
    have := hR attr offset hoff
    refine ⟨offset, hoff, fun hbit => ?_, fun hbit => ?_⟩
    · rw [if_pos hbit] at this; exact this
    · rw [if_neg (by rw [hbit]; exact fun h => h rfl)] at this; exact this
  · intro pSurface usedAttributes attr m_VertexBuffers surface_info hmem
    simp only [attributeLoop]
    split
    · rcases bufferLoop_resolves (pSurface.GetVertexBuffer attr).pBuffer m_VertexBuffers with
        ⟨_, hge, _⟩ | ⟨hnot, _⟩
      · rw [if_neg hge]
      · exact absurd hmem hnot
    · rfl
/-! ## The instance table -/

/-- Storing an instance record: the table is as long as before or reaches just past the
index, the record stands at the index, the entries before stay, and the entries the resize
adds are zero. -/
theorem storeInstance_spec (l : List Instance_Info) (index : Nat) (x : Instance_Info) :
    (storeInstance l index x).length = max l.length (index + 1) ∧
    (storeInstance l index x)[index]? = some x ∧
    (∀ (i : Nat) (e : Instance_Info), i ≠ index → l[i]? = some e →
      (storeInstance l index x)[i]? = some e) ∧
    (∀ (i : Nat) (e : Instance_Info), i ≠ index → (storeInstance l index x)[i]? = some e →
      l[i]? = some e ∨ (l[i]? = none ∧ e = Instance_Info.zero)) := by
  unfold storeInstance
  by_cases h : l.length ≤ index
  · simp only [h, if_true]
    have hlen : (l ++ List.replicate (index + 1 - l.length) Instance_Info.zero).length =
        index + 1 := by
      rw [List.length_append, List.length_replicate]; omega
    refine ⟨by rw [List.length_set, hlen]; omega, ?_, ?_, ?_⟩
    · rw [List.getElem?_set_self (by omega)]
    · intro i e hne hget
      rw [List.getElem?_set_ne (Ne.symm hne),
        List.getElem?_append_left (List.getElem?_eq_some.mp hget).1]
      exact hget
    · intro i e hne hget
      rw [List.getElem?_set_ne (Ne.symm hne)] at hget
      by_cases hi : i < l.length
      · rw [List.getElem?_append_left hi] at hget
        exact Or.inl hget
      · rw [List.getElem?_append_right (by omega)] at hget
        refine Or.inr ⟨List.getElem?_eq_none (by omega), ?_⟩
        obtain ⟨_, he⟩ := List.getElem?_eq_some.mp hget
        rw [← he]
        exact List.getElem_replicate _ _
  · simp only [h, if_false]
    refine ⟨by rw [List.length_set]; omega, ?_, ?_, ?_⟩
    · rw [List.getElem?_set_self (by omega)]
    · intro i e hne hget
      rw [List.getElem?_set_ne (Ne.symm hne)]
      exact hget
    · intro i e hne hget
      rw [List.getElem?_set_ne (Ne.symm hne)] at hget
      exact Or.inl hget

/-- The instance record the body of the mesh loop stores for a mesh not met before. -/
theorem processMesh_instance (Materials : List Material) (materialIdOffset : Nat)
    (st : MeshLoopState) (pMesh : Mesh) (h : pMesh.GetMeshIndex ∉ st.meshIdxToMesh) :
    ∃ instance_info : Instance_Info,
      (processMesh Materials materialIdOffset st pMesh).tables.m_cpuInstanceBuffer =
        storeInstance st.tables.m_cpuInstanceBuffer pMesh.GetMeshIndex instance_info ∧
      instance_info.node_id = int32_of_uint32 pMesh.GetMeshIndex ∧
      instance_info.surface_id_table_offset = (st.tables.m_cpuSurfaceIDsBuffer.length : Int) := by
  obtain ⟨_, _, hinst⟩ :=
    surfaceLoop_ids Materials materialIdOffset pMesh.m_Surfaces
      { tables := st.tables, numOpaqueSurfaces := 0, errors := st.errors }
  refine ⟨{ surface_id_table_offset := (st.tables.m_cpuSurfaceIDsBuffer.length : Int),
            num_surfaces :=
              ((surfaceLoop Materials materialIdOffset
                { tables := st.tables, numOpaqueSurfaces := 0, errors := st.errors }
                pMesh.m_Surfaces).numOpaqueSurfaces : Int),
            num_opaque_surfaces := (pMesh.GetNumSurfaces : Int),
            node_id := int32_of_uint32 pMesh.GetMeshIndex }, ?_, rfl, rfl⟩
  simp only [processMesh, h, if_false]
  rw [hinst]

/-- The mesh loop and the instance table. Let `used` tell the mesh indices that have a
record so far, each record carrying its index as `node_id`, the entries at other indices
being zero. After the loop the same holds with the indices of the meshes processed added,
and the table is not shorter. -/
theorem meshLoop_instances (Materials : List Material) (materialIdOffset : Nat) :
    ∀ (meshes : List Mesh) (st : MeshLoopState) (used : Nat → Prop),
      (∀ id, used id → ∃ e, st.tables.m_cpuInstanceBuffer[id]? = some e ∧
        e.node_id = int32_of_uint32 id) →
      (∀ i e, st.tables.m_cpuInstanceBuffer[i]? = some e → ¬ used i → e = Instance_Info.zero) →
      (∀ id, (used id ∨ ∃ m ∈ firstMeshes meshes st.meshIdxToMesh, m.GetMeshIndex = id) →
        ∃ e, (meshLoop Materials materialIdOffset st meshes).tables.m_cpuInstanceBuffer[id]? =
          some e ∧ e.node_id = int32_of_uint32 id) ∧
      (∀ i e, (meshLoop Materials materialIdOffset st meshes).tables.m_cpuInstanceBuffer[i]? =
          some e → ¬ used i →
        (∀ m ∈ firstMeshes meshes st.meshIdxToMesh, m.GetMeshIndex ≠ i) →
        e = Instance_Info.zero) ∧
      st.tables.m_cpuInstanceBuffer.length ≤
        (meshLoop Materials materialIdOffset st meshes).tables.m_cpuInstanceBuffer.length := by
  intro meshes
  induction meshes with
  | nil =>
    intro st used h1 h2
    refine ⟨?_, fun i e hget hno _ => h2 i e hget hno, Nat.le_refl _⟩
    intro id hid
    rcases hid with hid | ⟨m, hm, _⟩
    · exact h1 id hid
    · exact absurd hm (List.not_mem_nil _)
  | cons pMesh rest ih =>
    intro st used h1 h2
    have hstep : meshLoop Materials materialIdOffset st (pMesh :: rest) =
        meshLoop Materials materialIdOffset
          (processMesh Materials materialIdOffset st pMesh) rest := rfl
    rw [hstep]
    by_cases h : pMesh.GetMeshIndex ∈ st.meshIdxToMesh
    · rw [processMesh_skip _ _ _ _ h]
      simp only [firstMeshes, h, if_true]
      exact ih st used h1 h2
    · obtain ⟨x, hstore, hnode, _⟩ := processMesh_instance Materials materialIdOffset st pMesh h
      obtain ⟨hseen, _⟩ := processMesh_new Materials materialIdOffset st pMesh h
      obtain ⟨hlen, hat, hkeep, hback⟩ :=
        storeInstance_spec st.tables.m_cpuInstanceBuffer pMesh.GetMeshIndex x
      obtain ⟨g1, g2, g3⟩ := ih (processMesh Materials materialIdOffset st pMesh)
        (fun i => used i ∨ i = pMesh.GetMeshIndex)
        (by
          intro id hid
          rw [hstore]
          by_cases heq : id = pMesh.GetMeshIndex
          · subst heq; exact ⟨x, hat, hnode⟩
          · rcases hid with hid | hid
            · obtain ⟨e, he, hn⟩ := h1 id hid
              exact ⟨e, hkeep id e heq he, hn⟩
            · exact absurd hid heq)
        (by
          intro i e hget hno
          rw [hstore] at hget
          have hne : i ≠ pMesh.GetMeshIndex := fun hh => hno (Or.inr hh)
          rcases hback i e hne hget with hold | ⟨_, hz⟩
          · exact h2 i e hold (fun hu => hno (Or.inl hu))
          · exact hz)
      rw [hseen] at g1 g2
      simp only [firstMeshes, h, if_false]
      refine ⟨?_, ?_, ?_⟩
      · intro id hid
        apply g1
        rcases hid with hid | ⟨m, hm, hmid⟩
        · exact Or.inl (Or.inl hid)
        · rcases List.mem_cons.mp hm with rfl | hm'
          · exact Or.inl (Or.inr hmid.symm)
          · exact Or.inr ⟨m, hm', hmid⟩
      · intro i e hget hno hall
        refine g2 i e hget ?_ (fun m hm => hall m (List.mem_cons_of_mem _ hm))
        rintro (hu | hi)
        · exact hno hu
        · exact hall pMesh (List.mem_cons_self _ _) hi.symm
      · rw [hstore, hlen] at g3
        omega

/-- The mesh loop never makes the instance table shorter. -/
theorem meshLoop_instances_length (Materials : List Material) (materialIdOffset : Nat) :
    ∀ (meshes : List Mesh) (st : MeshLoopState),
      st.tables.m_cpuInstanceBuffer.length ≤
        (meshLoop Materials materialIdOffset st meshes).tables.m_cpuInstanceBuffer.length := by
  intro meshes
  induction meshes with
  | nil => intro st; exact Nat.le_refl _
  | cons pMesh rest ih =>
    intro st
    have hstep : meshLoop Materials materialIdOffset st (pMesh :: rest) =
        meshLoop Materials materialIdOffset
          (processMesh Materials materialIdOffset st pMesh) rest := rfl
    rw [hstep]
    by_cases h : pMesh.GetMeshIndex ∈ st.meshIdxToMesh
    · rw [processMesh_skip _ _ _ _ h]
      exact ih st
    · obtain ⟨x, hstore, _, _⟩ := processMesh_instance Materials materialIdOffset st pMesh h
      have g := ih (processMesh Materials materialIdOffset st pMesh)
      rw [hstore, (storeInstance_spec _ _ _).1] at g
      omega

/-- A load never makes the instance table shorter. -/
theorem OnNewContentLoaded_instances_length (s : State) (pContentBlock : ContentBlock)
    (uninit : Nat → Uninitialized) :
    s.m_RTInfoTables.m_cpuInstanceBuffer.length ≤
      (OnNewContentLoaded s pContentBlock
        uninit).state.m_RTInfoTables.m_cpuInstanceBuffer.length := by
  have hgeo := materialLoop_geometry uninit pContentBlock.Materials 0 s.m_RTInfoTables
  simp only [RTInfoTables.geometry, Prod.mk.injEq] at hgeo
  obtain ⟨_, _, hinst, _, _⟩ := hgeo
  rw [OnNewContentLoaded_tables]
  have g := meshLoop_instances_length pContentBlock.Materials
    s.m_RTInfoTables.m_cpuMaterialBuffer.length pContentBlock.meshComponents
    { tables := materialLoop uninit pContentBlock.Materials 0 s.m_RTInfoTables,
      m_ivyStemSurfaceIndex := s.m_ivyStemSurfaceIndex,
      m_ivyLeafSurfaceIndex := s.m_ivyLeafSurfaceIndex,
      meshIdxToMesh := [],
      errors := [] }
  have g' : (materialLoop uninit pContentBlock.Materials 0
      s.m_RTInfoTables).m_cpuInstanceBuffer.length ≤ _ := g
  rw [hinst] at g'
  exact g'

/-- A load and the instance table: see `meshLoop_instances`. -/
theorem OnNewContentLoaded_instances (s : State) (pContentBlock : ContentBlock)
    (uninit : Nat → Uninitialized) (used : Nat → Prop)
    (h1 : ∀ id, used id → ∃ e, s.m_RTInfoTables.m_cpuInstanceBuffer[id]? = some e ∧
      e.node_id = int32_of_uint32 id)
    (h2 : ∀ i e, s.m_RTInfoTables.m_cpuInstanceBuffer[i]? = some e → ¬ used i →
      e = Instance_Info.zero) :
    (∀ id, (used id ∨ ∃ m ∈ firstMeshes pContentBlock.meshComponents [],
        m.GetMeshIndex = id) →
      ∃ e, (OnNewContentLoaded s pContentBlock
        uninit).state.m_RTInfoTables.m_cpuInstanceBuffer[id]? = some e ∧
        e.node_id = int32_of_uint32 id) ∧
    (∀ i e, (OnNewContentLoaded s pContentBlock
        uninit).state.m_RTInfoTables.m_cpuInstanceBuffer[i]? = some e → ¬ used i →
      (∀ m ∈ firstMeshes pContentBlock.meshComponents [], m.GetMeshIndex ≠ i) →
      e = Instance_Info.zero) ∧
    s.m_RTInfoTables.m_cpuInstanceBuffer.length ≤
      (OnNewContentLoaded s pContentBlock
        uninit).state.m_RTInfoTables.m_cpuInstanceBuffer.length := by
  have hgeo := materialLoop_geometry uninit pContentBlock.Materials 0 s.m_RTInfoTables
  simp only [RTInfoTables.geometry, Prod.mk.injEq] at hgeo
  obtain ⟨_, _, hinst, _, _⟩ := hgeo
  rw [OnNewContentLoaded_tables]
  have := meshLoop_instances pContentBlock.Materials
    s.m_RTInfoTables.m_cpuMaterialBuffer.length pContentBlock.meshComponents
    { tables := materialLoop uninit pContentBlock.Materials 0 s.m_RTInfoTables,
      m_ivyStemSurfaceIndex := s.m_ivyStemSurfaceIndex,
      m_ivyLeafSurfaceIndex := s.m_ivyLeafSurfaceIndex,
      meshIdxToMesh := [],
      errors := [] }
    used
    (by
      show ∀ id, used id → ∃ e, (materialLoop uninit pContentBlock.Materials 0
        s.m_RTInfoTables).m_cpuInstanceBuffer[id]? = some e ∧ e.node_id = int32_of_uint32 id
      rw [hinst]; exact h1)
    (by
      show ∀ i e, (materialLoop uninit pContentBlock.Materials 0
        s.m_RTInfoTables).m_cpuInstanceBuffer[i]? = some e → ¬ used i → e = Instance_Info.zero
      rw [hinst]; exact h2)
  obtain ⟨g1, g2, g3⟩ := this
  refine ⟨g1, g2, ?_⟩
  have g3' : (materialLoop uninit pContentBlock.Materials 0
      s.m_RTInfoTables).m_cpuInstanceBuffer.length ≤ _ := g3
  rw [hinst] at g3'
  exact g3'

/-- A sequence of loads and the instance table: see `meshLoop_instances`. -/
theorem loadSequence_instances :
    ∀ (loads : List (ContentBlock × (Nat → Uninitialized))) (s : State) (used : Nat → Prop),
      (∀ id, used id → ∃ e, s.m_RTInfoTables.m_cpuInstanceBuffer[id]? = some e ∧
        e.node_id = int32_of_uint32 id) →
      (∀ i e, s.m_RTInfoTables.m_cpuInstanceBuffer[i]? = some e → ¬ used i →
        e = Instance_Info.zero) →
      (∀ id, (used id ∨ ∃ m ∈ processedMeshes loads, m.GetMeshIndex = id) →
        ∃ e, (loadSequence s loads).m_RTInfoTables.m_cpuInstanceBuffer[id]? = some e ∧
          e.node_id = int32_of_uint32 id) ∧
      (∀ i e, (loadSequence s loads).m_RTInfoTables.m_cpuInstanceBuffer[i]? = some e →
        ¬ used i → (∀ m ∈ processedMeshes loads, m.GetMeshIndex ≠ i) →
        e = Instance_Info.zero) := by
  intro loads
  induction loads with
  | nil =>
    intro s used h1 h2
    refine ⟨?_, fun i e hget hno _ => h2 i e hget hno⟩
    intro id hid
    rcases hid with hid | ⟨m, hm, _⟩
    · exact h1 id hid
    · exact absurd hm (List.not_mem_nil _)
  | cons load rest ih =>
    intro s used h1 h2
    obtain ⟨g1, g2, _⟩ := OnNewContentLoaded_instances s load.1 load.2 used h1 h2
    obtain ⟨k1, k2⟩ := ih (OnNewContentLoaded s load.1 load.2).state
      (fun i => used i ∨ ∃ m ∈ firstMeshes load.1.meshComponents [], m.GetMeshIndex = i)
      g1
      (by
        intro i e hget hno
        exact g2 i e hget (fun hu => hno (Or.inl hu))
          (fun m hm hmi => hno (Or.inr ⟨m, hm, hmi⟩)))
    have hproc : processedMeshes (load :: rest) =
        firstMeshes load.1.meshComponents [] ++ processedMeshes rest := by
      simp only [processedMeshes, List.flatMap_cons]
    rw [hproc]
    refine ⟨?_, ?_⟩
    · intro id hid
      apply k1
      rcases hid with hid | ⟨m, hm, hmid⟩
      · exact Or.inl (Or.inl hid)
      · rcases List.mem_append.mp hm with hm' | hm'
        · exact Or.inl (Or.inr ⟨m, hm', hmid⟩)
        · exact Or.inr ⟨m, hm', hmid⟩
    · intro i e hget hno hall
      refine k2 i e hget ?_ (fun m hm => hall m (List.mem_append_right _ hm))
      rintro (hu | ⟨m, hm, hmi⟩)
      · exact hno hu
      · exact hall m (List.mem_append_left _ hm) hmi

/-- C21: let any sequence of content loads have run from the freshly constructed module,
the mesh indices processed being below 2^31 (the instance table, which reaches past every
such index, fits the `int` the index is stored in). Then the instance table is longer than
every mesh index processed so far, the entry at each such index has `node_id` equal to the
index, and every entry at an index that no processed mesh has used is all zero. And a
further load never makes the table shorter. -/
theorem C21_instance_table_sparse (loads : List (ContentBlock × (Nat → Uninitialized)))
    (hfit : ∀ m ∈ processedMeshes loads, m.GetMeshIndex < 2147483648) :
    (∀ m ∈ processedMeshes loads,
      m.GetMeshIndex + 1 ≤ (loadSequence {} loads).m_RTInfoTables.m_cpuInstanceBuffer.length ∧
      ∃ e, (loadSequence {} loads).m_RTInfoTables.m_cpuInstanceBuffer[m.GetMeshIndex]? =
        some e ∧ e.node_id = (m.GetMeshIndex : Int)) ∧
    (∀ (i : Nat) (e : Instance_Info),
      (loadSequence {} loads).m_RTInfoTables.m_cpuInstanceBuffer[i]? = some e →
      (∀ m ∈ processedMeshes loads, m.GetMeshIndex ≠ i) → e = Instance_Info.zero) ∧
    (∀ (pContentBlock : ContentBlock) (uninit : Nat → Uninitialized),
      (loadSequence {} loads).m_RTInfoTables.m_cpuInstanceBuffer.length ≤
        (OnNewContentLoaded (loadSequence {} loads) pContentBlock
          uninit).state.m_RTInfoTables.m_cpuInstanceBuffer.length) := by
  obtain ⟨k1, k2⟩ := loadSequence_instances loads {} (fun _ => False)
    (fun _ h => absurd h id) (fun i e hget _ => by simp at hget)
  refine ⟨?_, ?_, ?_⟩
  · intro m hm
    obtain ⟨e, hget, hnode⟩ := k1 m.GetMeshIndex (Or.inr ⟨m, hm, rfl⟩)
    refine ⟨(List.getElem?_eq_some.mp hget).1, e, hget, ?_⟩
    have hlt := hfit m hm
    have hmod : m.GetMeshIndex % UINT32_RANGE = m.GetMeshIndex :=
      Nat.mod_eq_of_lt (by unfold UINT32_RANGE; omega)
    rw [hnode]
    simp only [int32_of_uint32, hmod, hlt, if_true]
  · intro i e hget hall
    exact k2 i e hget (fun h => h) hall
  · intro pContentBlock uninit
    exact OnNewContentLoaded_instances_length (loadSequence {} loads) pContentBlock uninit

/-- C21, witness: after a load of a mesh with mesh index 2 and a load of a mesh with mesh
index 0, the instance table has three entries, and the entry at index 1, which no mesh has
used, is all zero. -/
theorem C21_instance_table_sparse_witness :
    (∀ m ∈ processedMeshes sparseMeshLoads, m.GetMeshIndex < 2147483648) ∧
    (loadSequence {} sparseMeshLoads).m_RTInfoTables.m_cpuInstanceBuffer.length = 3 ∧
    (∀ (i : Nat) (e : Instance_Info),
      (loadSequence {} sparseMeshLoads).m_RTInfoTables.m_cpuInstanceBuffer[i]? = some e →
      (∀ m ∈ processedMeshes sparseMeshLoads, m.GetMeshIndex ≠ i) →
      e = Instance_Info.zero) :=
  ⟨by decide, by decide, (C21_instance_table_sparse sparseMeshLoads (by decide)).2.1⟩
/-! ## The surface-id run of a mesh -/

/-- The mesh loop leaves the instance record of a mesh index already met in the load where
it is. -/
theorem meshLoop_keeps_seen (Materials : List Material) (materialIdOffset : Nat) :
    ∀ (meshes : List Mesh) (st : MeshLoopState) (i : Nat) (e : Instance_Info),
      i ∈ st.meshIdxToMesh → st.tables.m_cpuInstanceBuffer[i]? = some e →
      (meshLoop Materials materialIdOffset st meshes).tables.m_cpuInstanceBuffer[i]? =
        some e := by
  intro meshes
  induction meshes with
  | nil => intro st i e _ h; exact h
  | cons pMesh rest ih =>
    intro st i e hi hget
    have hstep : meshLoop Materials materialIdOffset st (pMesh :: rest) =
        meshLoop Materials materialIdOffset
          (processMesh Materials materialIdOffset st pMesh) rest := rfl
    rw [hstep]
    by_cases h : pMesh.GetMeshIndex ∈ st.meshIdxToMesh
    · rw [processMesh_skip _ _ _ _ h]
      exact ih st i e hi hget
    · obtain ⟨x, hstore, _, _⟩ := processMesh_instance Materials materialIdOffset st pMesh h
      obtain ⟨hseen, _⟩ := processMesh_new Materials materialIdOffset st pMesh h
      have hne : i ≠ pMesh.GetMeshIndex := fun hh => h (hh ▸ hi)
      refine ih _ i e (by rw [hseen]; exact List.mem_cons_of_mem _ hi) ?_
      rw [hstore]
      exact (storeInstance_spec _ _ _).2.2.1 i e hne hget

/-- The instance record of the `j`-th mesh the mesh loop processes: its
`surface_id_table_offset` is the length the surface-id table had when the mesh was met,
that is its length before the loop plus the number of surfaces of the meshes processed
earlier. -/
theorem meshLoop_instance_offset (Materials : List Material) (materialIdOffset : Nat) :
    ∀ (meshes : List Mesh) (st : MeshLoopState) (j : Nat) (pMesh : Mesh),
      (firstMeshes meshes st.meshIdxToMesh)[j]? = some pMesh →
      ∃ e : Instance_Info,
        (meshLoop Materials materialIdOffset st
          meshes).tables.m_cpuInstanceBuffer[pMesh.GetMeshIndex]? = some e ∧
        e.surface_id_table_offset =
          ((st.tables.m_cpuSurfaceIDsBuffer.length +
            (((firstMeshes meshes st.meshIdxToMesh).take j).flatMap
              (fun m => m.m_Surfaces)).length : Nat) : Int) := by
  intro meshes
  induction meshes with
  | nil => intro st j pMesh h; simp [firstMeshes] at h
  | cons pMesh0 rest ih =>
    intro st j pMesh hj
    have hstep : meshLoop Materials materialIdOffset st (pMesh0 :: rest) =
        meshLoop Materials materialIdOffset
          (processMesh Materials materialIdOffset st pMesh0) rest := rfl
    rw [hstep]
    by_cases h : pMesh0.GetMeshIndex ∈ st.meshIdxToMesh
    · rw [processMesh_skip _ _ _ _ h]
      simp only [firstMeshes, h, if_true] at hj ⊢
      exact ih st j pMesh hj
    · obtain ⟨x, hstore, _, hoff⟩ := processMesh_instance Materials materialIdOffset st pMesh0 h
      obtain ⟨hseen, hids, _⟩ := processMesh_new Materials materialIdOffset st pMesh0 h
      obtain ⟨hl1, _, _⟩ :=
        surfaceLoop_ids Materials materialIdOffset pMesh0.m_Surfaces
          { tables := st.tables, numOpaqueSurfaces := 0, errors := st.errors }
      simp only [firstMeshes, h, if_false] at hj ⊢
      cases j with
      | zero =>
        simp only [List.getElem?_cons_zero, Option.some.injEq] at hj
        subst hj
        refine ⟨x, ?_, by simp [hoff]⟩
        refine meshLoop_keeps_seen Materials materialIdOffset rest _ _ x
          (by rw [hseen]; exact List.mem_cons_self _ _) ?_
        rw [hstore]
        exact (storeInstance_spec _ _ _).2.1
      | succ n =>
        rw [List.getElem?_cons_succ] at hj
        rw [← hseen] at hj
        obtain ⟨e, hget, he⟩ := ih (processMesh Materials materialIdOffset st pMesh0) n pMesh hj
        refine ⟨e, hget, ?_⟩
        rw [he, hids, hl1, hseen]
        simp only [List.take_succ_cons, List.flatMap_cons, List.length_append,
          List.length_range']
        congr 1
        omega

/-- The `k`-th element of the `j`-th list, in the lists laid end to end. -/
theorem getElem?_flatMap_surfaces :
    ∀ (meshes : List Mesh) (j : Nat) (pMesh : Mesh) (k : Nat) (pSurface : Surface),
      meshes[j]? = some pMesh → pMesh.m_Surfaces[k]? = some pSurface →
      (meshes.flatMap (fun m => m.m_Surfaces))[
        ((meshes.take j).flatMap (fun m => m.m_Surfaces)).length + k]? = some pSurface := by
  intro meshes
  induction meshes with
  | nil => intro j pMesh k pSurface h; simp at h
  | cons m rest ih =>
    intro j pMesh k pSurface hj hk
    cases j with
    | zero =>
      simp only [List.getElem?_cons_zero, Option.some.injEq] at hj
      subst hj
      simp only [List.take_zero, List.flatMap_nil, List.length_nil, Nat.zero_add,
        List.flatMap_cons]
      rw [List.getElem?_append_left (List.getElem?_eq_some.mp hk).1]
      exact hk
    | succ n =>
      rw [List.getElem?_cons_succ] at hj
      have := ih n pMesh k pSurface hj hk
      simp only [List.take_succ_cons, List.flatMap_cons, List.length_append]
      rw [List.getElem?_append_right (by omega)]
      rw [show m.m_Surfaces.length +
        ((rest.take n).flatMap (fun m => m.m_Surfaces)).length + k - m.m_Surfaces.length =
        ((rest.take n).flatMap (fun m => m.m_Surfaces)).length + k by omega]
      exact this

/-- The lists before the `j`-th and the `j`-th list fit in the lists laid end to end. -/
theorem length_take_flatMap_le :
    ∀ (meshes : List Mesh) (j : Nat) (pMesh : Mesh), meshes[j]? = some pMesh →
      ((meshes.take j).flatMap (fun m => m.m_Surfaces)).length + pMesh.m_Surfaces.length ≤
        (meshes.flatMap (fun m => m.m_Surfaces)).length := by
  intro meshes
  induction meshes with
  | nil => intro j pMesh h; simp at h
  | cons m rest ih =>
    intro j pMesh hj
    cases j with
    | zero =>
      simp only [List.getElem?_cons_zero, Option.some.injEq] at hj
      subst hj
      simp only [List.take_zero, List.flatMap_nil, List.length_nil, Nat.zero_add,
        List.flatMap_cons, List.length_append]
      omega
    | succ n =>
      rw [List.getElem?_cons_succ] at hj
      have := ih n pMesh hj
      simp only [List.take_succ_cons, List.flatMap_cons, List.length_append]
      omega

/-- What a load appends to the surface table: for each surface processed, in order, the
record the surface loop builds from it. -/
theorem OnNewContentLoaded_surfaces (s : State) (pContentBlock : ContentBlock)
    (uninit : Nat → Uninitialized) :
    ∃ infos : List Surface_Info,
      (OnNewContentLoaded s pContentBlock uninit).state.m_RTInfoTables.m_cpuSurfaceBuffer =
        s.m_RTInfoTables.m_cpuSurfaceBuffer ++ infos ∧
      List.Forall₂
        (BuiltFromSurface pContentBlock.Materials s.m_RTInfoTables.m_cpuMaterialBuffer.length)
        pContentBlock.processedSurfaces infos := by
  have hgeo := materialLoop_geometry uninit pContentBlock.Materials 0 s.m_RTInfoTables
  simp only [RTInfoTables.geometry, Prod.mk.injEq] at hgeo
  obtain ⟨_, _, _, hsurf, _⟩ := hgeo
  obtain ⟨_, _, infos, hsapp, hall⟩ :=
    meshLoop_rel (fun _ => True)
      (fun _ pSurface info =>
        BuiltFromSurface pContentBlock.Materials s.m_RTInfoTables.m_cpuMaterialBuffer.length
          pSurface info)
      pContentBlock.Materials s.m_RTInfoTables.m_cpuMaterialBuffer.length
      (fun _ _ _ => trivial)
      (fun st pSurface _ => by
        obtain ⟨info, h, _⟩ := processSurface_appends pContentBlock.Materials
          s.m_RTInfoTables.m_cpuMaterialBuffer.length st pSurface
        exact ⟨info, h, st, h⟩)
      (fun _ _ _ _ _ h => h) (fun _ _ _ => trivial) (fun _ _ _ _ h => h)
      pContentBlock.meshComponents
      { tables := materialLoop uninit pContentBlock.Materials 0 s.m_RTInfoTables,
        m_ivyStemSurfaceIndex := s.m_ivyStemSurfaceIndex,
        m_ivyLeafSurfaceIndex := s.m_ivyLeafSurfaceIndex,
        meshIdxToMesh := [],
        errors := [] }
      trivial
  refine ⟨infos, ?_, hall⟩
  rw [OnNewContentLoaded_tables, hsapp]
  exact congrArg (· ++ infos) hsurf

/-- C22: for every content load and every mesh it processes (the `j`-th, say, with `c`
surfaces processed before it in the load), the `Instance_Info` at the mesh index has a
`surface_id_table_offset` `o` such that `o` plus the number of surfaces of the mesh is
within the length of the surface-id table, and for each `k` below that number the entry at
position `o + k` of the surface-id table is the index, in the surface table, of the
`Surface_Info` built from the `k`-th surface of the mesh: the entries of the run are the
consecutive positions at which the load appended the records of the mesh. -/
theorem C22_surface_id_run (s : State) (pContentBlock : ContentBlock)
    (uninit : Nat → Uninitialized) (j : Nat) (pMesh : Mesh)
    (hj : (firstMeshes pContentBlock.meshComponents [])[j]? = some pMesh) :
    ∃ (e : Instance_Info) (o : Nat),
      (OnNewContentLoaded s pContentBlock
        uninit).state.m_RTInfoTables.m_cpuInstanceBuffer[pMesh.GetMeshIndex]? = some e ∧
      e.surface_id_table_offset = (o : Int) ∧
      o + pMesh.GetNumSurfaces ≤
        (OnNewContentLoaded s pContentBlock
          uninit).state.m_RTInfoTables.m_cpuSurfaceIDsBuffer.length ∧
      ∀ (k : Nat) (pSurface : Surface), pMesh.m_Surfaces[k]? = some pSurface →
        ∃ (p : Nat) (info : Surface_Info),
          (OnNewContentLoaded s pContentBlock
            uninit).state.m_RTInfoTables.m_cpuSurfaceIDsBuffer[o + k]? = some p ∧
          p = s.m_RTInfoTables.m_cpuSurfaceBuffer.length +
            (((firstMeshes pContentBlock.meshComponents []).take j).flatMap
              (fun m => m.m_Surfaces)).length + k ∧
          (OnNewContentLoaded s pContentBlock
            uninit).state.m_RTInfoTables.m_cpuSurfaceBuffer[p]? = some info ∧
          BuiltFromSurface pContentBlock.Materials
            s.m_RTInfoTables.m_cpuMaterialBuffer.length pSurface info := by
  have hgeo := materialLoop_geometry uninit pContentBlock.Materials 0 s.m_RTInfoTables
  simp only [RTInfoTables.geometry, Prod.mk.injEq] at hgeo
  obtain ⟨_, _, _, hsurf, hids⟩ := hgeo
  obtain ⟨e, hget, hoff⟩ :=
    meshLoop_instance_offset pContentBlock.Materials
      s.m_RTInfoTables.m_cpuMaterialBuffer.length pContentBlock.meshComponents
      { tables := materialLoop uninit pContentBlock.Materials 0 s.m_RTInfoTables,
        m_ivyStemSurfaceIndex := s.m_ivyStemSurfaceIndex,
        m_ivyLeafSurfaceIndex := s.m_ivyLeafSurfaceIndex,
        meshIdxToMesh := [],
        errors := [] } j pMesh hj
  obtain ⟨h1, _⟩ :=
    meshLoop_ids pContentBlock.Materials s.m_RTInfoTables.m_cpuMaterialBuffer.length
      pContentBlock.meshComponents
      { tables := materialLoop uninit pContentBlock.Materials 0 s.m_RTInfoTables,
        m_ivyStemSurfaceIndex := s.m_ivyStemSurfaceIndex,
        m_ivyLeafSurfaceIndex := s.m_ivyLeafSurfaceIndex,
        meshIdxToMesh := [],
        errors := [] }
  have hidtable : (OnNewContentLoaded s pContentBlock
      uninit).state.m_RTInfoTables.m_cpuSurfaceIDsBuffer =
      s.m_RTInfoTables.m_cpuSurfaceIDsBuffer ++
        List.range' s.m_RTInfoTables.m_cpuSurfaceBuffer.length
          pContentBlock.processedSurfaces.length := by
    rw [OnNewContentLoaded_tables, h1]
    show (materialLoop uninit pContentBlock.Materials 0
      s.m_RTInfoTables).m_cpuSurfaceIDsBuffer ++
        List.range' (materialLoop uninit pContentBlock.Materials 0
          s.m_RTInfoTables).m_cpuSurfaceBuffer.length _ = _
    rw [hids, hsurf]
    rfl
  obtain ⟨infos, hsapp, hall⟩ := OnNewContentLoaded_surfaces s pContentBlock uninit
  obtain ⟨hlen, hR⟩ := forall₂_getElem? hall
  have hfit := length_take_flatMap_le (firstMeshes pContentBlock.meshComponents []) j pMesh hj
  have hoff' : e.surface_id_table_offset =
      ((s.m_RTInfoTables.m_cpuSurfaceIDsBuffer.length +
        (((firstMeshes pContentBlock.meshComponents []).take j).flatMap
          (fun m => m.m_Surfaces)).length : Nat) : Int) := by
    rw [hoff]
    show (((materialLoop uninit pContentBlock.Materials 0
      s.m_RTInfoTables).m_cpuSurfaceIDsBuffer.length + _ : Nat) : Int) = _
    rw [hids]
  refine ⟨e, _, hget, hoff', ?_, ?_⟩
  · rw [hidtable, List.length_append, List.length_range']
    have : pContentBlock.processedSurfaces.length =
        ((firstMeshes pContentBlock.meshComponents []).flatMap
          (fun m => m.m_Surfaces)).length := rfl
    simp only [Mesh.GetNumSurfaces]
    omega
  · intro k pSurface hk
    have hpos := getElem?_flatMap_surfaces (firstMeshes pContentBlock.meshComponents []) j
      pMesh k pSurface hj hk
    have hpos' : pContentBlock.processedSurfaces[
        (((firstMeshes pContentBlock.meshComponents []).take j).flatMap
          (fun m => m.m_Surfaces)).length + k]? = some pSurface := hpos
    have hlt : (((firstMeshes pContentBlock.meshComponents []).take j).flatMap
        (fun m => m.m_Surfaces)).length + k < infos.length := by
      rw [← hlen]; exact (List.getElem?_eq_some.mp hpos').1
    refine ⟨_, infos[(((firstMeshes pContentBlock.meshComponents []).take j).flatMap
        (fun m => m.m_Surfaces)).length + k], ?_, rfl, ?_,
      hR _ pSurface _ hpos' (List.getElem?_eq_getElem hlt)⟩
    · rw [hidtable, List.getElem?_append_right (by omega)]
      rw [List.getElem?_range' _ _ (by rw [hlen]; omega)]
      congr 1
      simp only [Nat.one_mul]
      omega
    · rw [hsapp, List.getElem?_append_right (by omega)]
      rw [show s.m_RTInfoTables.m_cpuSurfaceBuffer.length +
        (((firstMeshes pContentBlock.meshComponents []).take j).flatMap
          (fun m => m.m_Surfaces)).length + k - s.m_RTInfoTables.m_cpuSurfaceBuffer.length =
        (((firstMeshes pContentBlock.meshComponents []).take j).flatMap
          (fun m => m.m_Surfaces)).length + k by omega]
      exact List.getElem?_eq_getElem hlt

/-- C22, witness: in a load of the block `twoMeshBlock` the second mesh processed is
`runMeshB`; its instance record, at mesh index 0, has a `surface_id_table_offset` with one
entry of the surface-id table from it on. -/
theorem C22_surface_id_run_witness :
    ∃ (e : Instance_Info) (o : Nat),
      (OnNewContentLoaded {} twoMeshBlock
        (fun _ => { materialInfo := ⟨0, 0, 0, 0, 0, 0, 0, 0, 0⟩, samplerIndex := 0 })
        ).state.m_RTInfoTables.m_cpuInstanceBuffer[runMeshB.GetMeshIndex]? = some e ∧
      e.surface_id_table_offset = (o : Int) ∧
      o + runMeshB.GetNumSurfaces ≤
        (OnNewContentLoaded {} twoMeshBlock
          (fun _ => { materialInfo := ⟨0, 0, 0, 0, 0, 0, 0, 0, 0⟩, samplerIndex := 0 })
          ).state.m_RTInfoTables.m_cpuSurfaceIDsBuffer.length :=
  (C22_surface_id_run {} twoMeshBlock
    (fun _ => { materialInfo := ⟨0, 0, 0, 0, 0, 0, 0, 0, 0⟩, samplerIndex := 0 })
    1 runMeshB rfl).imp (fun _ h => h.imp (fun _ h => ⟨h.1, h.2.1, h.2.2.1⟩))
/-! ## The cached archetype indices -/

/-- The surface loop of a mesh appends, for each surface in order, the record built from
it. -/
theorem surfaceLoop_built (Materials : List Material) (materialIdOffset : Nat)
    (m_Surfaces : List Surface) (st : SurfaceLoopState) :
    ∃ infos : List Surface_Info,
      (surfaceLoop Materials materialIdOffset st m_Surfaces).tables.m_cpuSurfaceBuffer =
        st.tables.m_cpuSurfaceBuffer ++ infos ∧
      List.Forall₂ (BuiltFromSurface Materials materialIdOffset) m_Surfaces infos := by
  obtain ⟨_, _, infos, happ, hall⟩ :=
    surfaceLoop_rel (fun _ => True)
      (fun _ pSurface info => BuiltFromSurface Materials materialIdOffset pSurface info)
      Materials materialIdOffset
      (fun _ _ _ => trivial)
      (fun st pSurface _ => by
        obtain ⟨info, h, _⟩ := processSurface_appends Materials materialIdOffset st pSurface
        exact ⟨info, h, st, h⟩)
      (fun _ _ _ _ _ h => h)
      m_Surfaces st trivial
  exact ⟨infos, happ, hall⟩

/-- One more mesh processed: the surface table stays the table of the meshes processed, and
the cached index stays resolved, for a cached index `get` that the body of the mesh loop
sets to the length of the surface table when the mesh has the name and leaves alone when
not. -/
theorem processMesh_archetype (Materials : List Material) (materialIdOffset : Nat)
    (name : String) (get : MeshLoopState → Int)
    (hset : ∀ (st : MeshLoopState) (pMesh : Mesh), pMesh.GetMeshIndex ∉ st.meshIdxToMesh →
      get (processMesh Materials materialIdOffset st pMesh) =
        if pMesh.m_Name = name then (st.tables.m_cpuSurfaceBuffer.length : Int) else get st)
    (st : MeshLoopState) (pMesh : Mesh) (prior : List Mesh)
    (hnew : pMesh.GetMeshIndex ∉ st.meshIdxToMesh)
    (htab : SurfaceTableOf st.tables.m_cpuSurfaceBuffer prior)
    (h : ArchetypeIndexResolved name (get st) prior) :
    SurfaceTableOf (processMesh Materials materialIdOffset st pMesh).tables.m_cpuSurfaceBuffer
      (prior ++ [pMesh]) ∧
    ArchetypeIndexResolved name (get (processMesh Materials materialIdOffset st pMesh))
      (prior ++ [pMesh]) := by
  obtain ⟨_, _, hsurf, _, _⟩ := processMesh_new Materials materialIdOffset st pMesh hnew
  obtain ⟨infos, happ, hall⟩ := surfaceLoop_built Materials materialIdOffset pMesh.m_Surfaces
    { tables := st.tables, numOpaqueSurfaces := 0, errors := st.errors }
  have htable : (processMesh Materials materialIdOffset st pMesh).tables.m_cpuSurfaceBuffer =
      st.tables.m_cpuSurfaceBuffer ++ infos := by rw [hsurf, happ]
  have hlen : st.tables.m_cpuSurfaceBuffer.length =
      (prior.flatMap (fun m => m.m_Surfaces)).length := (List.Forall₂.length_eq htab).symm
  refine ⟨?_, ?_, ?_⟩
  · unfold SurfaceTableOf at htab ⊢
    rw [htable, List.flatMap_append, List.flatMap_cons, List.flatMap_nil, List.append_nil]
    exact List.rel_append htab
      (hall.imp (fun _ _ hb => ⟨Materials, materialIdOffset, hb⟩))
  · intro hno
    have hname : ¬ pMesh.m_Name = name :=
      hno pMesh (List.mem_append_right _ (List.mem_cons_self _ _))
    rw [hset st pMesh hnew, if_neg hname]
    exact h.1 (fun m hm => hno m (List.mem_append_left _ hm))
  · intro before after q hsplit hq hafter
    rcases List.eq_nil_or_concat after with hnil | ⟨rest, x, hcat⟩
    · subst hnil
      have hcut : prior ++ [pMesh] = before ++ [q] := hsplit
      obtain ⟨hb, hx⟩ := List.append_inj' hcut rfl
      have hqm : pMesh = q := by simpa using hx
      subst hb
      subst hqm
      rw [hset st pMesh hnew, if_pos hq, hlen]
    · rw [List.concat_eq_append] at hcat
      subst hcat
      have hcut : prior ++ [pMesh] = (before ++ q :: rest) ++ [x] := by
        rw [hsplit]; simp
      obtain ⟨hb, hx⟩ := List.append_inj' hcut rfl
      have hxm : pMesh = x := by simpa using hx
      have hname : ¬ pMesh.m_Name = name := by
        rw [hxm]
        exact hafter x (List.mem_append_right _ (List.mem_cons_self _ _))
      rw [hset st pMesh hnew, if_neg hname]
      exact h.2 before rest q hb hq (fun m hm => hafter m (List.mem_append_left _ hm))

/-- The mesh loop keeps the surface table and the cached index resolved: see
`processMesh_archetype`. -/
theorem meshLoop_archetype (Materials : List Material) (materialIdOffset : Nat)
    (name : String) (get : MeshLoopState → Int)
    (hset : ∀ (st : MeshLoopState) (pMesh : Mesh), pMesh.GetMeshIndex ∉ st.meshIdxToMesh →
      get (processMesh Materials materialIdOffset st pMesh) =
        if pMesh.m_Name = name then (st.tables.m_cpuSurfaceBuffer.length : Int) else get st) :
    ∀ (meshes : List Mesh) (st : MeshLoopState) (prior : List Mesh),
      SurfaceTableOf st.tables.m_cpuSurfaceBuffer prior →
      ArchetypeIndexResolved name (get st) prior →
      SurfaceTableOf (meshLoop Materials materialIdOffset st meshes).tables.m_cpuSurfaceBuffer
        (prior ++ firstMeshes meshes st.meshIdxToMesh) ∧
      ArchetypeIndexResolved name (get (meshLoop Materials materialIdOffset st meshes))
        (prior ++ firstMeshes meshes st.meshIdxToMesh) := by
  intro meshes
  induction meshes with
  | nil => intro st prior htab h; simpa [meshLoop, firstMeshes] using ⟨htab, h⟩
  | cons pMesh rest ih =>
    intro st prior htab h
    have hstep : meshLoop Materials materialIdOffset st (pMesh :: rest) =
        meshLoop Materials materialIdOffset
          (processMesh Materials materialIdOffset st pMesh) rest := rfl
    rw [hstep]
    by_cases hmem : pMesh.GetMeshIndex ∈ st.meshIdxToMesh
    · rw [processMesh_skip _ _ _ _ hmem]
      simp only [firstMeshes, hmem, if_true]
      exact ih st prior htab h
    · have h1 := processMesh_archetype Materials materialIdOffset name get hset st pMesh prior
        hmem htab h
      have h2 := ih _ _ h1.1 h1.2
      rw [(processMesh_new Materials materialIdOffset st pMesh hmem).1] at h2
      simp only [firstMeshes, hmem, if_false]
      rw [show prior ++ pMesh :: firstMeshes rest (pMesh.GetMeshIndex :: st.meshIdxToMesh) =
        prior ++ [pMesh] ++ firstMeshes rest (pMesh.GetMeshIndex :: st.meshIdxToMesh) by simp]
      exact h2

/-- A sequence of loads keeps the surface table and a cached index resolved, for a member
`getS` of the module that a load hands to the mesh loop and takes back from it as `get`. -/
theorem loadSequence_archetype (name : String) (getS : State → Int)
    (get : MeshLoopState → Int)
    (hset : ∀ (Materials : List Material) (materialIdOffset : Nat) (st : MeshLoopState)
      (pMesh : Mesh), pMesh.GetMeshIndex ∉ st.meshIdxToMesh →
      get (processMesh Materials materialIdOffset st pMesh) =
        if pMesh.m_Name = name then (st.tables.m_cpuSurfaceBuffer.length : Int) else get st)
    (hload : ∀ (s : State) (pContentBlock : ContentBlock) (uninit : Nat → Uninitialized),
      getS (OnNewContentLoaded s pContentBlock uninit).state =
        get (meshLoop pContentBlock.Materials s.m_RTInfoTables.m_cpuMaterialBuffer.length
          { tables := materialLoop uninit pContentBlock.Materials 0 s.m_RTInfoTables,
            m_ivyStemSurfaceIndex := s.m_ivyStemSurfaceIndex,
            m_ivyLeafSurfaceIndex := s.m_ivyLeafSurfaceIndex,
            meshIdxToMesh := [],
            errors := [] }
          pContentBlock.meshComponents))
    (hstart : ∀ (s : State) (t : RTInfoTables),
      get { tables := t,
            m_ivyStemSurfaceIndex := s.m_ivyStemSurfaceIndex,
            m_ivyLeafSurfaceIndex := s.m_ivyLeafSurfaceIndex,
            meshIdxToMesh := [],
            errors := [] } = getS s) :
    ∀ (loads : List (ContentBlock × (Nat → Uninitialized))) (s : State) (prior : List Mesh),
      SurfaceTableOf s.m_RTInfoTables.m_cpuSurfaceBuffer prior →
      ArchetypeIndexResolved name (getS s) prior →
      SurfaceTableOf (loadSequence s loads).m_RTInfoTables.m_cpuSurfaceBuffer
        (prior ++ processedMeshes loads) ∧
      ArchetypeIndexResolved name (getS (loadSequence s loads))
        (prior ++ processedMeshes loads) := by
  intro loads
  induction loads with
  | nil => intro s prior htab h; simpa [loadSequence, processedMeshes] using ⟨htab, h⟩
  | cons load rest ih =>
    intro s prior htab h
    have hgeo := materialLoop_geometry load.2 load.1.Materials 0 s.m_RTInfoTables
    simp only [RTInfoTables.geometry, Prod.mk.injEq] at hgeo
    obtain ⟨_, _, _, hsurf, _⟩ := hgeo
    have h1 := meshLoop_archetype load.1.Materials
      s.m_RTInfoTables.m_cpuMaterialBuffer.length name get
      (hset load.1.Materials s.m_RTInfoTables.m_cpuMaterialBuffer.length)
      load.1.meshComponents
      { tables := materialLoop load.2 load.1.Materials 0 s.m_RTInfoTables,
        m_ivyStemSurfaceIndex := s.m_ivyStemSurfaceIndex,
        m_ivyLeafSurfaceIndex := s.m_ivyLeafSurfaceIndex,
        meshIdxToMesh := [],
        errors := [] }
      prior
      (by show SurfaceTableOf
            (materialLoop load.2 load.1.Materials 0 s.m_RTInfoTables).m_cpuSurfaceBuffer prior
          rw [hsurf]; exact htab)
      (by rw [hstart]; exact h)
    rw [← hload, ← OnNewContentLoaded_tables] at h1
    have h2 := ih (OnNewContentLoaded s load.1 load.2).state _ h1.1 h1.2
    have hproc : prior ++ processedMeshes (load :: rest) =
        prior ++ firstMeshes load.1.meshComponents [] ++ processedMeshes rest := by
      simp only [processedMeshes, List.flatMap_cons, List.append_assoc]
    rw [hproc]
    exact h2

/-- The record of the first surface of a mesh stands, in the surface table of the meshes
processed, at the position given by the number of surfaces of the meshes before it. -/
theorem SurfaceTableOf.first_surface (m_cpuSurfaceBuffer : List Surface_Info)
    (before after : List Mesh) (pMesh : Mesh) (pSurface : Surface)
    (htab : SurfaceTableOf m_cpuSurfaceBuffer (before ++ pMesh :: after))
    (hfirst : pMesh.m_Surfaces[0]? = some pSurface) :
    ∃ info : Surface_Info,
      m_cpuSurfaceBuffer[(before.flatMap (fun m => m.m_Surfaces)).length]? = some info ∧
      ∃ (Materials : List Material) (materialIdOffset : Nat),
        BuiltFromSurface Materials materialIdOffset pSurface info := by
  obtain ⟨hlen, hR⟩ := forall₂_getElem? htab
  have hpos : ((before ++ pMesh :: after).flatMap (fun m => m.m_Surfaces))[
      (before.flatMap (fun m => m.m_Surfaces)).length]? = some pSurface := by
    rw [List.flatMap_append, List.flatMap_cons,
      List.getElem?_append_right (Nat.le_refl _), Nat.sub_self,
      List.getElem?_append_left (List.getElem?_eq_some.mp hfirst).1]
    exact hfirst
  have hlt : (before.flatMap (fun m => m.m_Surfaces)).length < m_cpuSurfaceBuffer.length := by
    rw [← hlen]; exact (List.getElem?_eq_some.mp hpos).1
  exact ⟨m_cpuSurfaceBuffer[(before.flatMap (fun m => m.m_Surfaces)).length],
    List.getElem?_eq_getElem hlt,
    hR _ pSurface _ hpos (List.getElem?_eq_getElem hlt)⟩

/-- C25, counterexample: a block with two meshes named as the stem archetype, of mesh indices
0 and 1. When the first has one surface and the second none, the cached stem index is 1
after the load while the surface table has one record: not a valid position. When both have
one surface, the cached stem index is 1, the position of the record of the second mesh (its
index buffer is the second of the table), not of the record built from the first surface of
the first mesh, which stands at position 0. -/
theorem C25_counterexample_two_stem_meshes :
    ((OnNewContentLoaded {} (twoStemBlock [])
      (fun _ => { materialInfo := ⟨0, 0, 0, 0, 0, 0, 0, 0, 0⟩, samplerIndex := 0 })
      ).state.m_ivyStemSurfaceIndex = 1 ∧
    (OnNewContentLoaded {} (twoStemBlock [])
      (fun _ => { materialInfo := ⟨0, 0, 0, 0, 0, 0, 0, 0, 0⟩, samplerIndex := 0 })
      ).state.m_RTInfoTables.m_cpuSurfaceBuffer.length = 1) ∧
    ((OnNewContentLoaded {} (twoStemBlock [plainSurface 51 0 false])
      (fun _ => { materialInfo := ⟨0, 0, 0, 0, 0, 0, 0, 0, 0⟩, samplerIndex := 0 })
      ).state.m_ivyStemSurfaceIndex = 1 ∧
    (OnNewContentLoaded {} (twoStemBlock [plainSurface 51 0 false])
      (fun _ => { materialInfo := ⟨0, 0, 0, 0, 0, 0, 0, 0, 0⟩, samplerIndex := 0 })
      ).state.m_RTInfoTables.m_cpuSurfaceBuffer.map (fun info => info.index_offset) =
      [0, 1] ∧
    (OnNewContentLoaded {} (twoStemBlock [plainSurface 51 0 false])
      (fun _ => { materialInfo := ⟨0, 0, 0, 0, 0, 0, 0, 0, 0⟩, samplerIndex := 0 })
      ).state.m_RTInfoTables.m_IndexBuffers = [50, 51]) := by
  decide

/-- C25 (amended): let any sequence of content loads have run from the freshly constructed
module. If no processed mesh has the name of the stem (resp. leaf) archetype, the cached
stem (resp. leaf) surface index is -1. Each processed mesh of that name sets the cached
index anew, so the last of them decides: when the processed meshes are `before`, then
`pMesh` of that name, then `after` with no mesh of that name, the cached index is the number
of surfaces of the meshes of `before`; and if `pMesh` has at least one surface, that is a
valid position of the surface table and the `Surface_Info` there is the one built from the
first surface of `pMesh` (the surface table holds, in order, one record for each surface of
the processed meshes). And an `Execute` that dispatches copies both cached values unchanged
into `IvyStemSurfaceIndex` and `IvyLeafSurfaceIndex` of the per-frame constants. -/
theorem C25_archetype_indices (loads : List (ContentBlock × (Nat → Uninitialized))) :
    ((∀ m ∈ processedMeshes loads, m.m_Name ≠ ivyStemName) →
      (loadSequence {} loads).m_ivyStemSurfaceIndex = -1) ∧
    ((∀ m ∈ processedMeshes loads, m.m_Name ≠ ivyLeafName) →
      (loadSequence {} loads).m_ivyLeafSurfaceIndex = -1) ∧
    (∀ (before after : List Mesh) (pMesh : Mesh),
      processedMeshes loads = before ++ pMesh :: after →
      pMesh.m_Name = ivyStemName → (∀ m ∈ after, m.m_Name ≠ ivyStemName) →
      (loadSequence {} loads).m_ivyStemSurfaceIndex =
        ((before.flatMap (fun m => m.m_Surfaces)).length : Int) ∧
      ∀ pSurface : Surface, pMesh.m_Surfaces[0]? = some pSurface →
        ∃ info : Surface_Info,
          (loadSequence {} loads).m_RTInfoTables.m_cpuSurfaceBuffer[
            (before.flatMap (fun m => m.m_Surfaces)).length]? = some info ∧
          ∃ (Materials : List Material) (materialIdOffset : Nat),
            BuiltFromSurface Materials materialIdOffset pSurface info) ∧
    (∀ (before after : List Mesh) (pMesh : Mesh),
      processedMeshes loads = before ++ pMesh :: after →
      pMesh.m_Name = ivyLeafName → (∀ m ∈ after, m.m_Name ≠ ivyLeafName) →
      (loadSequence {} loads).m_ivyLeafSurfaceIndex =
        ((before.flatMap (fun m => m.m_Surfaces)).length : Int) ∧
      ∀ pSurface : Surface, pMesh.m_Surfaces[0]? = some pSurface →
        ∃ info : Surface_Info,
          (loadSequence {} loads).m_RTInfoTables.m_cpuSurfaceBuffer[
            (before.flatMap (fun m => m.m_Surfaces)).length]? = some info ∧
          ∃ (Materials : List Material) (materialIdOffset : Nat),
            BuiltFromSurface Materials materialIdOffset pSurface info) ∧
    SurfaceTableOf (loadSequence {} loads).m_RTInfoTables.m_cpuSurfaceBuffer
      (processedMeshes loads) ∧
    (∀ (sizeof : SizeOf) (queryInterfaceSucceeds : Bool) (s' : State) (c : ExecuteCalls),
      Execute (loadSequence {} loads) sizeof queryInterfaceSucceeds = some (s', c) →
      c.workGraphData.IvyStemSurfaceIndex = (loadSequence {} loads).m_ivyStemSurfaceIndex ∧
      c.workGraphData.IvyLeafSurfaceIndex = (loadSequence {} loads).m_ivyLeafSurfaceIndex) := by
  have hstem := loadSequence_archetype ivyStemName (fun s => s.m_ivyStemSurfaceIndex)
    (fun st => st.m_ivyStemSurfaceIndex)
    (fun Materials materialIdOffset st pMesh h => by simp only [processMesh, h, if_false])
    (fun _ _ _ => rfl) (fun _ _ => rfl) loads {} [] List.Forall₂.nil
    ⟨fun _ => rfl, fun before after pMesh h => absurd h (by simp)⟩
  have hleaf := loadSequence_archetype ivyLeafName (fun s => s.m_ivyLeafSurfaceIndex)
    (fun st => st.m_ivyLeafSurfaceIndex)
    (fun Materials materialIdOffset st pMesh h => by simp only [processMesh, h, if_false])
    (fun _ _ _ => rfl) (fun _ _ => rfl) loads {} [] List.Forall₂.nil
    ⟨fun _ => rfl, fun before after pMesh h => absurd h (by simp)⟩
  rw [List.nil_append] at hstem hleaf
  obtain ⟨htab, hstemNone, hstemLast⟩ := hstem
  obtain ⟨_, hleafNone, hleafLast⟩ := hleaf
  refine ⟨hstemNone, hleafNone, ?_, ?_, htab, ?_⟩
  · intro before after pMesh hsplit hname hafter
    refine ⟨hstemLast before after pMesh hsplit hname hafter, ?_⟩
    intro pSurface hfirst
    rw [hsplit] at htab
    exact SurfaceTableOf.first_surface _ before after pMesh pSurface htab hfirst
  · intro before after pMesh hsplit hname hafter
    refine ⟨hleafLast before after pMesh hsplit hname hafter, ?_⟩
    intro pSurface hfirst
    rw [hsplit] at htab
    exact SurfaceTableOf.first_surface _ before after pMesh pSurface htab hfirst
  · intro sizeof q s' c h
    unfold Execute at h
    split at h
    · exact absurd h (by simp)
    · split at h
      · exact absurd h (by simp)
      · simp only [Option.some.injEq, Prod.mk.injEq] at h
        rw [← h.2]
        exact ⟨rfl, rfl⟩

/-- C25, witness: after a load of two meshes named as the stem archetype, each with one
surface, the second mesh is the last of that name and one surface was processed before it:
the cached stem index is 1, and at position 1 of the surface table stands the record built
from the first surface of the second mesh. -/
theorem C25_archetype_indices_witness :
    (loadSequence {}
      [(twoStemBlock [plainSurface 51 0 false],
        fun _ => { materialInfo := ⟨0, 0, 0, 0, 0, 0, 0, 0, 0⟩, samplerIndex := 0 })]
      ).m_ivyStemSurfaceIndex = ((1 : Nat) : Int) ∧
    ∃ info : Surface_Info,
      (loadSequence {}
        [(twoStemBlock [plainSurface 51 0 false],
          fun _ => { materialInfo := ⟨0, 0, 0, 0, 0, 0, 0, 0, 0⟩, samplerIndex := 0 })]
        ).m_RTInfoTables.m_cpuSurfaceBuffer[1]? = some info ∧
      ∃ (Materials : List Material) (materialIdOffset : Nat),
        BuiltFromSurface Materials materialIdOffset (plainSurface 51 0 false) info :=
  ⟨((C25_archetype_indices
      [(twoStemBlock [plainSurface 51 0 false],
        fun _ => { materialInfo := ⟨0, 0, 0, 0, 0, 0, 0, 0, 0⟩, samplerIndex := 0 })]).2.2.1
      [{ m_Index := 0, m_Name := ivyStemName, m_Surfaces := [plainSurface 50 0 false] }] []
      { m_Index := 1, m_Name := ivyStemName, m_Surfaces := [plainSurface 51 0 false] }
      rfl rfl (fun _ h => absurd h (List.not_mem_nil _))).1,
   ((C25_archetype_indices
      [(twoStemBlock [plainSurface 51 0 false],
        fun _ => { materialInfo := ⟨0, 0, 0, 0, 0, 0, 0, 0, 0⟩, samplerIndex := 0 })]).2.2.1
      [{ m_Index := 0, m_Name := ivyStemName, m_Surfaces := [plainSurface 50 0 false] }] []
      { m_Index := 1, m_Name := ivyStemName, m_Surfaces := [plainSurface 51 0 false] }
      rfl rfl (fun _ h => absurd h (List.not_mem_nil _))).2 (plainSurface 51 0 false) rfl⟩
/-! ## No texture is bound at two slots -/

/-- Overwriting an entry keeps the non-null textures of a table distinct, when the entry
written holds the texture of the entry it replaces, or the null pointer, or a texture no
entry of the table holds. -/
theorem distinct_set (l : List BoundTexture) (i : Nat) (e e' : BoundTexture)
    (hd : ∀ (a b : Nat) (x y : BoundTexture), l[a]? = some x → l[b]? = some y →
      x.pTexture = y.pTexture → x.pTexture ≠ nullptr → a = b)
    (hget : l[i]? = some e)
    (hnew : e'.pTexture = e.pTexture ∨ e'.pTexture = nullptr ∨
      ∀ x ∈ l, x.pTexture ≠ e'.pTexture) :
    ∀ (a b : Nat) (x y : BoundTexture), (l.set i e')[a]? = some x → (l.set i e')[b]? = some y →
      x.pTexture = y.pTexture → x.pTexture ≠ nullptr → a = b := by
  have hi : i < l.length := (List.getElem?_eq_some.mp hget).1
  have key : ∀ (b : Nat) (y : BoundTexture), b ≠ i → l[b]? = some y →
      e'.pTexture = y.pTexture → e'.pTexture ≠ nullptr → False := by
    intro b y hb hy heq hnn
    rcases hnew with h | h | h
    · exact hb (hd b i y e hy hget (by rw [← heq, h]) (by rw [← heq]; exact hnn))
    · exact hnn h
    · exact h y (List.getElem?_mem hy) heq.symm
  intro a b x y hx hy heq hnn
  by_cases ha : a = i
  · by_cases hb : b = i
    · rw [ha, hb]
    · subst ha
      rw [List.getElem?_set_self hi, Option.some.injEq] at hx
      rw [List.getElem?_set_ne (Ne.symm hb)] at hy
      subst hx
      exact absurd (key b y hb hy heq hnn) id
  · by_cases hb : b = i
    · subst hb
      rw [List.getElem?_set_self hi, Option.some.injEq] at hy
      rw [List.getElem?_set_ne (Ne.symm ha)] at hx
      subst hy
      exact absurd (key a x ha hx heq.symm (by rw [← heq]; exact hnn)) id
    · rw [List.getElem?_set_ne (Ne.symm ha)] at hx
      rw [List.getElem?_set_ne (Ne.symm hb)] at hy
      exact hd a b x y hx hy heq hnn

/-- Appending an entry with a texture no entry holds keeps the non-null textures of a table
distinct. -/
theorem distinct_append (l : List BoundTexture) (e' : BoundTexture)
    (hd : ∀ (a b : Nat) (x y : BoundTexture), l[a]? = some x → l[b]? = some y →
      x.pTexture = y.pTexture → x.pTexture ≠ nullptr → a = b)
    (hnew : ∀ x ∈ l, x.pTexture ≠ e'.pTexture) :
    ∀ (a b : Nat) (x y : BoundTexture), (l ++ [e'])[a]? = some x → (l ++ [e'])[b]? = some y →
      x.pTexture = y.pTexture → x.pTexture ≠ nullptr → a = b := by
  have cases_get : ∀ (a : Nat) (x : BoundTexture), (l ++ [e'])[a]? = some x →
      (a < l.length ∧ l[a]? = some x) ∨ (a = l.length ∧ x = e') := by
    intro a x hx
    by_cases ha : a < l.length
    · rw [List.getElem?_append_left ha] at hx
      exact Or.inl ⟨ha, hx⟩
    · rw [List.getElem?_append_right (by omega)] at hx
      have hlt := (List.getElem?_eq_some.mp hx).1
      simp only [List.length_singleton] at hlt
      have h0 : a - l.length = 0 := by omega
      rw [h0] at hx
      simp only [List.getElem?_cons_zero, Option.some.injEq] at hx
      exact Or.inr ⟨by omega, hx.symm⟩
  intro a b x y hx hy heq hnn
  rcases cases_get a x hx with ⟨_, hxa⟩ | ⟨ha, hxe⟩
  · rcases cases_get b y hy with ⟨_, hyb⟩ | ⟨_, hye⟩
    · exact hd a b x y hxa hyb heq hnn
    · subst hye
      exact absurd heq (hnew x (List.getElem?_mem hxa))
  · rcases cases_get b y hy with ⟨_, hyb⟩ | ⟨hb, _⟩
    · subst hxe
      exact absurd heq.symm (hnew y (List.getElem?_mem hyb))
    · rw [ha, hb]

/-- `AddTexture` keeps the non-null textures of the table distinct. -/
theorem AddTexture_distinct (t : RTInfoTables) (pMaterial : Material)
    (textureClass : TextureClass) (s0 : Int)
    (hd : ∀ (a b : Nat) (x y : BoundTexture), t.m_Textures[a]? = some x →
      t.m_Textures[b]? = some y → x.pTexture = y.pTexture → x.pTexture ≠ nullptr → a = b) :
    ∀ (a b : Nat) (x y : BoundTexture),
      (AddTexture t pMaterial textureClass s0).tables.m_Textures[a]? = some x →
      (AddTexture t pMaterial textureClass s0).tables.m_Textures[b]? = some y →
      x.pTexture = y.pTexture → x.pTexture ≠ nullptr → a = b := by
  cases hinfo : pMaterial.GetTextureInfo textureClass with
  | none =>
    have : (AddTexture t pMaterial textureClass s0).tables = t := by
      simp only [AddTexture, hinfo]
    rw [this]; exact hd
  | some info =>
    rcases AddTexture_textures t pMaterial textureClass s0 info hinfo with
      ⟨i, e, hget, _, _, _, htab⟩ | ⟨hfresh, _, _, htab⟩ | ⟨hfresh, i, e, hget, _, _, _, htab⟩
    · rw [htab]
      exact distinct_set _ i e _ hd hget (Or.inl rfl)
    · rw [htab]
      exact distinct_append _ _ hd hfresh
    · rw [htab]
      exact distinct_set _ i e _ hd hget (Or.inr (Or.inr hfresh))

/-- Releasing a reference keeps the texture of the entry or stores the null pointer. -/
theorem releaseRef_pTexture (e : BoundTexture) :
    (releaseRef e).pTexture = e.pTexture ∨ (releaseRef e).pTexture = nullptr := by
  by_cases h : (e.count + UINT32_RANGE - 1) % UINT32_RANGE = 0
  · right
    show (if (e.count + UINT32_RANGE - 1) % UINT32_RANGE = 0 then
        ({ pTexture := nullptr, count := (e.count + UINT32_RANGE - 1) % UINT32_RANGE } :
          BoundTexture)
      else { e with count := (e.count + UINT32_RANGE - 1) % UINT32_RANGE }).pTexture = nullptr
    rw [if_pos h]
  · left
    show (if (e.count + UINT32_RANGE - 1) % UINT32_RANGE = 0 then
        ({ pTexture := nullptr, count := (e.count + UINT32_RANGE - 1) % UINT32_RANGE } :
          BoundTexture)
      else { e with count := (e.count + UINT32_RANGE - 1) % UINT32_RANGE }).pTexture =
        e.pTexture
    rw [if_neg h]

/-- `RemoveTexture` keeps the non-null textures of the table distinct. -/
theorem RemoveTexture_distinct (t t' : RTInfoTables) (index : Int)
    (hrem : RemoveTexture t index = some t')
    (hd : ∀ (a b : Nat) (x y : BoundTexture), t.m_Textures[a]? = some x →
      t.m_Textures[b]? = some y → x.pTexture = y.pTexture → x.pTexture ≠ nullptr → a = b) :
    ∀ (a b : Nat) (x y : BoundTexture), t'.m_Textures[a]? = some x →
      t'.m_Textures[b]? = some y → x.pTexture = y.pTexture → x.pTexture ≠ nullptr → a = b := by
  unfold RemoveTexture at hrem
  split at hrem
  · split at hrem
    · exact absurd hrem (by simp)
    · rename_i e hget
      simp only [Option.some.injEq] at hrem
      rw [← hrem]
      refine distinct_set _ index.toNat e _ hd hget ?_
      rcases releaseRef_pTexture e with h | h
      · exact Or.inl h
      · exact Or.inr (Or.inl h)
  · simp only [Option.some.injEq] at hrem
    rw [← hrem]; exact hd

/-- C28: after every sequence of `AddTexture` and `RemoveTexture` calls from the empty
tables in which each `RemoveTexture` is given an index that is negative or within the table,
no two distinct slots of the texture table hold the same non-null texture. -/
theorem C28_no_texture_at_two_slots (ops : List TableOp) (t : RTInfoTables)
    (hops : applyOps {} ops = some t) :
    ∀ (i j : Nat) (e₁ e₂ : BoundTexture), t.m_Textures[i]? = some e₁ →
      t.m_Textures[j]? = some e₂ → e₁.pTexture = e₂.pTexture → e₁.pTexture ≠ nullptr →
      i = j := by
  have key : ∀ (ops : List TableOp) (t0 t : RTInfoTables), applyOps t0 ops = some t →
      (∀ (a b : Nat) (x y : BoundTexture), t0.m_Textures[a]? = some x →
        t0.m_Textures[b]? = some y → x.pTexture = y.pTexture → x.pTexture ≠ nullptr → a = b) →
      ∀ (a b : Nat) (x y : BoundTexture), t.m_Textures[a]? = some x →
        t.m_Textures[b]? = some y → x.pTexture = y.pTexture → x.pTexture ≠ nullptr → a = b := by
    intro ops
    induction ops with
    | nil =>
      intro t0 t h hd
      simp only [applyOps, Option.some.injEq] at h
      rw [← h]; exact hd
    | cons op rest ih =>
      intro t0 t h hd
      simp only [applyOps] at h
      cases hop : applyOp t0 op with
      | none => rw [hop] at h; exact absurd h (by simp)
      | some t1 =>
        rw [hop, Option.some_bind] at h
        refine ih t1 t h ?_
        cases op with
        | add pMaterial textureClass s0 =>
          simp only [applyOp, Option.some.injEq] at hop
          rw [← hop]
          exact AddTexture_distinct t0 pMaterial textureClass s0 hd
        | remove index =>
          exact RemoveTexture_distinct t0 t1 index hop hd
  exact key ops {} t hops (by intro a b x y hx; simp at hx)

/-- C28, witness: textures 7 and 8 are bound, slot 0 is released, texture 8 is asked for
again and texture 9 takes the released slot; the two slots hold different textures. -/
theorem C28_no_texture_at_two_slots_witness :
    applyOps {}
      [TableOp.add (albedoOnly 7 0) TextureClass.Albedo 0,
       TableOp.add (albedoOnly 8 0) TextureClass.Albedo 0,
       TableOp.remove 0,
       TableOp.add (albedoOnly 8 0) TextureClass.Albedo 0,
       TableOp.remove (-1),
       TableOp.add (albedoOnly 9 1) TextureClass.Albedo 0] =
      some { m_Textures := [{ pTexture := 9, count := 1 }, { pTexture := 8, count := 2 }],
             m_Samplers := [{ GetDesc := 0 }, { GetDesc := 1 }] } ∧
    ∀ (i j : Nat) (e₁ e₂ : BoundTexture),
      ({ m_Textures := [{ pTexture := 9, count := 1 }, { pTexture := 8, count := 2 }],
         m_Samplers := [{ GetDesc := 0 }, { GetDesc := 1 }] } : RTInfoTables).m_Textures[i]? =
        some e₁ →
      ({ m_Textures := [{ pTexture := 9, count := 1 }, { pTexture := 8, count := 2 }],
         m_Samplers := [{ GetDesc := 0 }, { GetDesc := 1 }] } : RTInfoTables).m_Textures[j]? =
        some e₂ →
      e₁.pTexture = e₂.pTexture → e₁.pTexture ≠ nullptr → i = j :=
  ⟨by decide,
    C28_no_texture_at_two_slots
      [TableOp.add (albedoOnly 7 0) TextureClass.Albedo 0,
       TableOp.add (albedoOnly 8 0) TextureClass.Albedo 0,
       TableOp.remove 0,
       TableOp.add (albedoOnly 8 0) TextureClass.Albedo 0,
       TableOp.remove (-1),
       TableOp.add (albedoOnly 9 1) TextureClass.Albedo 0]
      { m_Textures := [{ pTexture := 9, count := 1 }, { pTexture := 8, count := 2 }],
        m_Samplers := [{ GetDesc := 0 }, { GetDesc := 1 }] }
      (by decide)⟩
/-! ## Unloading one of two blocks -/

/-- A guarded `RemoveTexture` of the unload loop, with an id that is a position of the
table when it passes the test: it returns, keeps the length of the table, and at every slot
`i` from 1 on it has released one reference when the id is `i`, none otherwise. -/
theorem guarded_remove_slot (t : RTInfoTables) (id : Int)
    (hid : id < (t.m_Textures.length : Int)) :
    ∃ t' : RTInfoTables, (if 0 < id then RemoveTexture t id else some t) = some t' ∧
      t'.m_Textures.length = t.m_Textures.length ∧
      ∀ (i : Nat) (e : BoundTexture), 1 ≤ i → t.m_Textures[i]? = some e →
        t'.m_Textures[i]? = some (Nat.iterate releaseRef (if id = (i : Int) then 1 else 0) e) := by
  by_cases hpos : 0 < id
  · rw [if_pos hpos]
    have hlt : id.toNat < t.m_Textures.length := by omega
    obtain ⟨e0, he0⟩ : ∃ e0, t.m_Textures[id.toNat]? = some e0 :=
      ⟨_, List.getElem?_eq_getElem hlt⟩
    have hcast : ((id.toNat : Nat) : Int) = id := Int.toNat_of_nonneg (le_of_lt hpos)
    have hrem := RemoveTexture_at t id.toNat e0 he0
    rw [hcast] at hrem
    refine ⟨_, hrem, List.length_set _ _ _, ?_⟩
    intro i e _ hget
    by_cases hi : id = (i : Int)
    · rw [if_pos hi, Function.iterate_one]
      have hn : id.toNat = i := by omega
      have he0i : t.m_Textures[i]? = some e0 := by rw [← hn]; exact he0
      have he : e0 = e := Option.some.inj (he0i.symm.trans hget)
      subst he
      show (t.m_Textures.set id.toNat (releaseRef e0))[i]? = some (releaseRef e0)
      rw [hn]
      exact List.getElem?_set_self (by rw [← hn]; exact hlt)
    · rw [if_neg hi, Function.iterate_zero, id_eq]
      have hn : id.toNat ≠ i := by omega
      show (t.m_Textures.set id.toNat (releaseRef e0))[i]? = some e
      rw [List.getElem?_set_ne hn]
      exact hget
  · rw [if_neg hpos]
    refine ⟨t, rfl, rfl, ?_⟩
    intro i e hi hget
    have hne : ¬ id = (i : Int) := by omega
    rw [if_neg hne, Function.iterate_zero, id_eq]
    exact hget

/-- The body of the unload loop for one `Material_Info` whose ids are below the length of
the texture table: it returns, keeps the length, and at every slot `i` from 1 on it has
released as many references as texture id fields of the record hold `i`. -/
theorem unloadMaterial_slot (t : RTInfoTables) (materialInfo : Material_Info)
    (hid : materialInfo.idsBelow t.m_Textures.length) :
    ∃ t' : RTInfoTables, unloadMaterial t materialInfo = some t' ∧
      t'.m_Textures.length = t.m_Textures.length ∧
      ∀ (i : Nat) (e : BoundTexture), 1 ≤ i → t.m_Textures[i]? = some e →
        t'.m_Textures[i]? = some (Nat.iterate releaseRef (materialInfo.references i) e) := by
  obtain ⟨ha, hb, hc, hd⟩ := hid
  obtain ⟨t1, h1, l1, s1⟩ := guarded_remove_slot t materialInfo.albedo_tex_id ha
  obtain ⟨t2, h2, l2, s2⟩ := guarded_remove_slot t1 materialInfo.arm_tex_id (by rw [l1]; exact hb)
  obtain ⟨t3, h3, l3, s3⟩ :=
    guarded_remove_slot t2 materialInfo.emission_tex_id (by rw [l2, l1]; exact hc)
  obtain ⟨t4, h4, l4, s4⟩ :=
    guarded_remove_slot t3 materialInfo.normal_tex_id (by rw [l3, l2, l1]; exact hd)
  refine ⟨t4, ?_, by rw [l4, l3, l2, l1], ?_⟩
  · simp only [unloadMaterial, h1, h2, h3, Option.some_bind]
    exact h4
  · intro i e hi hget
    rw [s4 i _ hi (s3 i _ hi (s2 i _ hi (s1 i e hi hget)))]
    simp only [Material_Info.references, ← Function.iterate_add_apply]
    congr 2
    omega

/-- The unload loop over records whose ids are below the length of the texture table: it
returns, and at every slot `i` from 1 on it has released as many references as texture id
fields of the records hold `i`. -/
theorem unloadLoop_slot :
    ∀ (infos : List Material_Info) (t : RTInfoTables),
      (∀ materialInfo ∈ infos, materialInfo.idsBelow t.m_Textures.length) →
      ∃ t' : RTInfoTables, unloadLoop infos t = some t' ∧
        t'.m_Textures.length = t.m_Textures.length ∧
        ∀ (i : Nat) (e : BoundTexture), 1 ≤ i → t.m_Textures[i]? = some e →
          t'.m_Textures[i]? = some (Nat.iterate releaseRef (tableReferences infos i) e) := by
  intro infos
  induction infos with
  | nil =>
    intro t _
    exact ⟨t, rfl, rfl, fun i e _ hget => hget⟩
  | cons materialInfo rest ih =>
    intro t hid
    obtain ⟨t1, h1, l1, s1⟩ :=
      unloadMaterial_slot t materialInfo (hid materialInfo (List.mem_cons_self _ _))
    obtain ⟨t2, h2, l2, s2⟩ := ih t1 (fun m hm => by
      rw [l1]; exact hid m (List.mem_cons_of_mem _ hm))
    refine ⟨t2, ?_, by rw [l2, l1], ?_⟩
    · simp only [unloadLoop, h1, Option.some_bind]
      exact h2
    · intro i e hi hget
      rw [s2 i _ hi (s1 i e hi hget)]
      simp only [tableReferences, List.map_cons, List.sum_cons, ← Function.iterate_add_apply]
      congr 2
      omega

/-- Releasing `k` references of an entry whose count is at least `k` (and a `uint32_t`): the
count goes down by `k`, and the pointer is cleared when a release has brought it to 0. -/
theorem releaseRef_iterate (e : BoundTexture) (hlt : e.count < 4294967296) :
    ∀ k : Nat, k ≤ e.count →
      Nat.iterate releaseRef k e =
        { pTexture := if 0 < k ∧ e.count = k then nullptr else e.pTexture,
          count := e.count - k } := by
  intro k
  induction k with
  | zero =>
    intro _
    simp
  | succ k ih =>
    intro hk
    have h1 : ¬ (0 < k ∧ e.count = k) := by omega
    rw [Function.iterate_succ_apply', ih (by omega), if_neg h1]
    have hrel := releaseRef_pos { pTexture := e.pTexture, count := e.count - k }
      (show 1 ≤ e.count - k by omega) (show e.count - k < 4294967296 by omega)
    rw [hrel]
    show ({ pTexture := if e.count - k - 1 = 0 then nullptr else e.pTexture,
            count := e.count - k - 1 } : BoundTexture) = _
    by_cases h2 : e.count = k + 1
    · rw [if_pos (show e.count - k - 1 = 0 by omega),
        if_pos (show 0 < k + 1 ∧ e.count = k + 1 from ⟨Nat.succ_pos k, h2⟩)]
      rfl
    · rw [if_neg (show ¬ e.count - k - 1 = 0 by omega),
        if_neg (show ¬ (0 < k + 1 ∧ e.count = k + 1) from fun h => h2 h.2)]
      rfl

/-- C29, counterexample: block A (one material, albedo texture 7) and block B (one material,
albedo texture 8) are loaded into a freshly constructed module: texture 8 is bound at slot 1
with count 1 and is referenced only by the material of block B. `OnContentUnloaded` for
block A leaves slot 1 with count 0 and the null pointer. -/
theorem C29_counterexample_unload_releases_other_block :
    (loadSequence {}
      [({ Materials := [pbrAlbedoOnly 100 7 0] },
        fun _ => { materialInfo := ⟨0, 0, 0, 0, 0, 0, 0, 0, 0⟩, samplerIndex := 0 }),
       ({ Materials := [pbrAlbedoOnly 101 8 0] },
        fun _ => { materialInfo := ⟨0, 0, 0, 0, 0, 0, 0, 0, 0⟩, samplerIndex := 0 })]
      ).m_RTInfoTables.m_Textures =
      [{ pTexture := 7, count := 1 }, { pTexture := 8, count := 1 }] ∧
    (loadSequence {}
      [({ Materials := [pbrAlbedoOnly 100 7 0] },
        fun _ => { materialInfo := ⟨0, 0, 0, 0, 0, 0, 0, 0, 0⟩, samplerIndex := 0 }),
       ({ Materials := [pbrAlbedoOnly 101 8 0] },
        fun _ => { materialInfo := ⟨0, 0, 0, 0, 0, 0, 0, 0, 0⟩, samplerIndex := 0 })]
      ).m_RTInfoTables.m_cpuMaterialBuffer.map
        (fun m => (m.albedo_tex_id, m.arm_tex_id, m.emission_tex_id, m.normal_tex_id)) =
      [(0, -1, -1, -1), (1, -1, -1, -1)] ∧
    (OnContentUnloaded
      (loadSequence {}
        [({ Materials := [pbrAlbedoOnly 100 7 0] },
          fun _ => { materialInfo := ⟨0, 0, 0, 0, 0, 0, 0, 0, 0⟩, samplerIndex := 0 }),
         ({ Materials := [pbrAlbedoOnly 101 8 0] },
          fun _ => { materialInfo := ⟨0, 0, 0, 0, 0, 0, 0, 0, 0⟩, samplerIndex := 0 })])
      { Materials := [pbrAlbedoOnly 100 7 0] }).map (fun s => s.m_RTInfoTables.m_Textures) =
      some [{ pTexture := 7, count := 1 }, { pTexture := nullptr, count := 0 }] := by
  decide

/-- C29 (amended): an `OnContentUnloaded` event does not read the block it is given (here
`A`); it walks the whole material table. In every state in which each texture id of the
material table is below the length of the texture table, the event returns, and at every
slot `i` from 1 on it has applied the release of `RemoveTexture` once for each texture id
field of the table that holds `i`, whichever block the record came from: a slot referenced
only by materials of block B is released as well. When the count `c` of the slot is a
`uint32_t` not below the number `k` of those fields, the slot is left with count `c - k`,
and with its pointer cleared when `k` is `c` and not 0. -/
theorem C29_unload_releases_every_reference (s : State) (A : ContentBlock)
    (hids : ∀ materialInfo ∈ s.m_RTInfoTables.m_cpuMaterialBuffer,
      materialInfo.idsBelow s.m_RTInfoTables.m_Textures.length) :
    ∃ s' : State, OnContentUnloaded s A = some s' ∧
      ∀ (i : Nat) (e : BoundTexture), 1 ≤ i → s.m_RTInfoTables.m_Textures[i]? = some e →
        s'.m_RTInfoTables.m_Textures[i]? =
          some (Nat.iterate releaseRef
            (tableReferences s.m_RTInfoTables.m_cpuMaterialBuffer i) e) ∧
        (tableReferences s.m_RTInfoTables.m_cpuMaterialBuffer i ≤ e.count →
          e.count < 4294967296 →
          s'.m_RTInfoTables.m_Textures[i]? =
            some { pTexture :=
                     if 0 < tableReferences s.m_RTInfoTables.m_cpuMaterialBuffer i ∧
                        e.count = tableReferences s.m_RTInfoTables.m_cpuMaterialBuffer i
                     then nullptr else e.pTexture,
                   count := e.count - tableReferences s.m_RTInfoTables.m_cpuMaterialBuffer i }) := by
  obtain ⟨t', hloop, _, hslot⟩ :=
    unloadLoop_slot s.m_RTInfoTables.m_cpuMaterialBuffer s.m_RTInfoTables hids
  refine ⟨{ s with m_RTInfoTables := t' }, ?_, ?_⟩
  · simp only [OnContentUnloaded, hloop, Option.map_some']
  · intro i e hi hget
    refine ⟨hslot i e hi hget, ?_⟩
    intro hk hlt
    rw [← releaseRef_iterate e hlt _ hk]
    exact hslot i e hi hget

/-- C29, witness: block A (albedo texture 7) and block B (albedo texture 8) are loaded into
a freshly constructed module; every texture id of the two records is below 2, the length of
the texture table, and slot 1 holds texture 8 with count 1, referenced by the record of
block B alone. The event for block A returns and leaves slot 1 with count 0 and the null
pointer. -/
theorem C29_unload_releases_every_reference_witness :
    (∀ materialInfo ∈ loadedAB.m_RTInfoTables.m_cpuMaterialBuffer,
      materialInfo.idsBelow loadedAB.m_RTInfoTables.m_Textures.length) ∧
    loadedAB.m_RTInfoTables.m_Textures[1]? = some { pTexture := 8, count := 1 } ∧
    tableReferences loadedAB.m_RTInfoTables.m_cpuMaterialBuffer 1 = 1 ∧
    ∃ s' : State, OnContentUnloaded loadedAB blockA = some s' ∧
      s'.m_RTInfoTables.m_Textures[1]? = some { pTexture := nullptr, count := 0 } :=
  ⟨by decide, by decide, by decide,
   (C29_unload_releases_every_reference loadedAB blockA (by decide)).imp
     (fun _ h => ⟨h.1,
       ((h.2 1 { pTexture := 8, count := 1 } (Nat.le_refl 1) (by decide)).2
         (by decide) (by decide)).trans (by decide)⟩)⟩
/-! ## Slots used at bind time -/

/-- The calls of a binding loop: one for each entry of the table, at the slot of its
position. -/
theorem bindLoop_mem {α : Type} (bind : α → Nat → Binding) (beginSlot : Nat) :
    ∀ (l : List α) (i0 : Nat) (b : Binding),
      b ∈ bindLoop bind beginSlot l i0 ↔
        ∃ (k : Nat) (x : α), l[k]? = some x ∧ b = bind x (i0 + k + beginSlot) := by
  intro l
  induction l with
  | nil => intro i0 b; simp [bindLoop]
  | cons x rest ih =>
    intro i0 b
    simp only [bindLoop, List.mem_cons, ih]
    constructor
    · rintro (h | ⟨k, y, hk, hb⟩)
      · exact ⟨0, x, List.getElem?_cons_zero, by simpa using h⟩
      · exact ⟨k + 1, y, by simpa using hk, by rw [hb]; congr 1; omega⟩
    · rintro ⟨k, y, hk, hb⟩
      cases k with
      | zero =>
        simp only [List.getElem?_cons_zero, Option.some.injEq] at hk
        subst hk
        exact Or.inl (by simpa using hb)
      | succ n =>
        rw [List.getElem?_cons_succ] at hk
        exact Or.inr ⟨n, y, hk, by rw [hb]; congr 1; omega⟩

/-- The registers of a binding loop whose calls bind in register space `space`: the run of
slots from the begin slot on, one for each entry of the table. -/
theorem bindLoop_registers {α : Type} (bind : α → Nat → Binding) (beginSlot : Nat)
    (space : RegisterSpace) (hbind : ∀ x slot, (bind x slot).register = (space, slot)) :
    ∀ (l : List α) (i0 : Nat),
      (bindLoop bind beginSlot l i0).map Binding.register =
        (List.range' (i0 + beginSlot) l.length).map (fun slot => (space, slot)) := by
  intro l
  induction l with
  | nil => intro i0; rfl
  | cons x rest ih =>
    intro i0
    simp only [bindLoop, List.map_cons, List.length_cons, List.range'_succ, hbind, ih]
    rw [show i0 + 1 + beginSlot = i0 + beginSlot + 1 by omega]

/-- Membership in a run of slots of one register space. -/
theorem mem_slot_run (space : RegisterSpace) (a n : Nat) (r : RegisterSpace × Nat) :
    r ∈ (List.range' a n).map (fun slot => (space, slot)) ↔
      r.1 = space ∧ a ≤ r.2 ∧ r.2 < a + n := by
  simp only [List.mem_map, List.mem_range'_1]
  constructor
  · rintro ⟨slot, hslot, rfl⟩
    exact ⟨rfl, hslot.1, hslot.2⟩
  · rintro ⟨h1, h2, h3⟩
    exact ⟨r.2, ⟨h2, h3⟩, by rw [← h1]⟩

/-- A run of slots of one register space names no register twice. -/
theorem nodup_slot_run (space : RegisterSpace) (a n : Nat) :
    ((List.range' a n).map (fun slot => (space, slot))).Nodup := by
  refine List.Nodup.map ?_ (List.nodup_range' a n)
  intro x y h
  exact (Prod.mk.inj h).2

/-- Five runs of slots, the info buffers from 20, the textures from 50, the samplers from 10
in their own register space, the index buffers from 1050 and the vertex buffers from 21050,
name no register twice when the texture and index-buffer runs are within capacity. -/
theorem nodup_slot_runs (m n₁ n₂ n₃ n₄ : Nat) (hm : m ≤ 4) (h₁ : n₁ ≤ 1000)
    (h₃ : n₃ ≤ 20000) :
    ((List.range' 20 m).map (fun slot => (RegisterSpace.srv, slot)) ++
      ((((List.range' 50 n₁).map (fun slot => (RegisterSpace.srv, slot)) ++
        (List.range' 10 n₂).map (fun slot => (RegisterSpace.sampler, slot))) ++
        (List.range' 1050 n₃).map (fun slot => (RegisterSpace.srv, slot))) ++
        (List.range' 21050 n₄).map (fun slot => (RegisterSpace.srv, slot)))).Nodup := by
  have hne : ∀ r : RegisterSpace × Nat, r.1 = RegisterSpace.srv →
      r.1 = RegisterSpace.sampler → False := by
    intro r h1 h2
    rw [h1] at h2
    exact RegisterSpace.noConfusion h2
  refine List.nodup_append.mpr ⟨nodup_slot_run _ _ _, ?_, ?_⟩
  · refine List.nodup_append.mpr ⟨?_, nodup_slot_run _ _ _, ?_⟩
    · refine List.nodup_append.mpr ⟨?_, nodup_slot_run _ _ _, ?_⟩
      · refine List.nodup_append.mpr ⟨nodup_slot_run _ _ _, nodup_slot_run _ _ _, ?_⟩
        intro r hr1 hr2
        rw [mem_slot_run] at hr1 hr2
        exact hne r hr1.1 hr2.1
      · intro r hr1 hr2
        rw [List.mem_append, mem_slot_run, mem_slot_run] at hr1
        rw [mem_slot_run] at hr2
        rcases hr1 with hr1 | hr1
        · omega
        · exact hne r hr2.1 hr1.1
    · intro r hr1 hr2
      rw [List.mem_append, List.mem_append, mem_slot_run, mem_slot_run, mem_slot_run] at hr1
      rw [mem_slot_run] at hr2
      rcases hr1 with (hr1 | hr1) | hr1
      · omega
      · exact hne r hr2.1 hr1.1
      · omega
  · intro r hr1 hr2
    rw [mem_slot_run] at hr1
    rw [List.mem_append, List.mem_append, List.mem_append, mem_slot_run, mem_slot_run,
      mem_slot_run, mem_slot_run] at hr2
    rcases hr2 with ((hr2 | hr2) | hr2) | hr2
    · omega
    · exact hne r hr1.1 hr2.1
    · omega
    · omega

/-- The registers of the upload step: a run of at most four slots from 20 on. -/
theorem uploadBindings_registers (t : RTInfoTables) :
    ∃ m : Nat, m ≤ 4 ∧
      (uploadBindings t).map Binding.register =
        (List.range' 20 m).map (fun slot => (RegisterSpace.srv, slot)) := by
  unfold uploadBindings
  split
  · exact ⟨4, Nat.le_refl 4, rfl⟩
  · exact ⟨0, by omega, rfl⟩

/-- The calls of the bind step when the four tables are within capacity: the four binding
loops, and no assertion. -/
theorem bindTables_within (t : RTInfoTables) (h₁ : t.m_Textures.length ≤ 1000)
    (h₂ : t.m_Samplers.length ≤ 20) (h₃ : t.m_IndexBuffers.length ≤ 20000)
    (h₄ : t.m_VertexBuffers.length ≤ 20000) :
    bindTables t =
      (bindLoop (fun b slot => Binding.SetTextureSRV b.pTexture slot) TEXTURE_BEGIN_SLOT
          t.m_Textures 0 ++
        bindLoop Binding.SetSampler SAMPLER_BEGIN_SLOT t.m_Samplers 0 ++
        bindLoop Binding.SetBufferSRV INDEX_BUFFER_BEGIN_SLOT t.m_IndexBuffers 0 ++
        bindLoop Binding.SetBufferSRV VERTEX_BUFFER_BEGIN_SLOT t.m_VertexBuffers 0, none) := by
  unfold bindTables
  simp only [MAX_TEXTURES_COUNT, MAX_SAMPLERS_COUNT, MAX_BUFFER_COUNT, h₁, h₂, h₃, h₄,
    not_true_eq_false, if_false]

/-- C30: when, after a content load has built the tables, every table is within its capacity
(textures <= 1000, index buffers <= 20000, vertex buffers <= 20000, samplers <= 20), no two
calls of the bind step bind the same slot of the same register space. Every call is either
one of the info-buffer bindings, at slots 20..23, or binds texture `i` at slot `50 + i` in
[50, 1050), index buffer `i` at slot `1050 + i` in [1050, 21050), vertex buffer `i` at slot
`21050 + i` in [21050, 41050), or sampler `i` at sampler slot `10 + i` in [10, 30); every
entry of the four tables is bound so, and the four info buffers are bound at slots 20, 21,
22 and 23 when the surface table is not empty. -/
theorem C30_bind_slots_disjoint (s : State) (pContentBlock : ContentBlock)
    (uninit : Nat → Uninitialized)
    (h₁ : (OnNewContentLoaded s pContentBlock uninit).state.m_RTInfoTables.m_Textures.length ≤
      1000)
    (h₂ : (OnNewContentLoaded s pContentBlock
      uninit).state.m_RTInfoTables.m_IndexBuffers.length ≤ 20000)
    (h₃ : (OnNewContentLoaded s pContentBlock
      uninit).state.m_RTInfoTables.m_VertexBuffers.length ≤ 20000)
    (h₄ : (OnNewContentLoaded s pContentBlock uninit).state.m_RTInfoTables.m_Samplers.length ≤
      20) :
    ((OnNewContentLoaded s pContentBlock uninit).bindings.map Binding.register).Nodup ∧
    (∀ b ∈ (OnNewContentLoaded s pContentBlock uninit).bindings,
      (∃ (buffer : InfoBuffer) (slot : Nat),
        b = Binding.SetInfoBufferSRV buffer slot ∧ 20 ≤ slot ∧ slot ≤ 23) ∨
      (∃ (i : Nat) (e : BoundTexture),
        (OnNewContentLoaded s pContentBlock uninit).state.m_RTInfoTables.m_Textures[i]? =
          some e ∧
        b = Binding.SetTextureSRV e.pTexture (50 + i) ∧ 50 + i < 1050) ∨
      (∃ (i : Nat) (p : BufferPtr),
        (OnNewContentLoaded s pContentBlock uninit).state.m_RTInfoTables.m_IndexBuffers[i]? =
          some p ∧
        b = Binding.SetBufferSRV p (1050 + i) ∧ 1050 + i < 21050) ∨
      (∃ (i : Nat) (p : BufferPtr),
        (OnNewContentLoaded s pContentBlock uninit).state.m_RTInfoTables.m_VertexBuffers[i]? =
          some p ∧
        b = Binding.SetBufferSRV p (21050 + i) ∧ 21050 + i < 41050) ∨
      (∃ (i : Nat) (x : Sampler),
        (OnNewContentLoaded s pContentBlock uninit).state.m_RTInfoTables.m_Samplers[i]? =
          some x ∧
        b = Binding.SetSampler x (10 + i) ∧ 10 + i < 30)) ∧
    (∀ (i : Nat) (e : BoundTexture),
      (OnNewContentLoaded s pContentBlock uninit).state.m_RTInfoTables.m_Textures[i]? =
        some e →
      Binding.SetTextureSRV e.pTexture (50 + i) ∈
        (OnNewContentLoaded s pContentBlock uninit).bindings) ∧
    (∀ (i : Nat) (p : BufferPtr),
      (OnNewContentLoaded s pContentBlock uninit).state.m_RTInfoTables.m_IndexBuffers[i]? =
        some p →
      Binding.SetBufferSRV p (1050 + i) ∈
        (OnNewContentLoaded s pContentBlock uninit).bindings) ∧
    (∀ (i : Nat) (p : BufferPtr),
      (OnNewContentLoaded s pContentBlock uninit).state.m_RTInfoTables.m_VertexBuffers[i]? =
        some p →
      Binding.SetBufferSRV p (21050 + i) ∈
        (OnNewContentLoaded s pContentBlock uninit).bindings) ∧
    (∀ (i : Nat) (x : Sampler),
      (OnNewContentLoaded s pContentBlock uninit).state.m_RTInfoTables.m_Samplers[i]? =
        some x →
      Binding.SetSampler x (10 + i) ∈ (OnNewContentLoaded s pContentBlock uninit).bindings) ∧
    (0 < (OnNewContentLoaded s pContentBlock
        uninit).state.m_RTInfoTables.m_cpuSurfaceBuffer.length →
      Binding.SetInfoBufferSRV InfoBuffer.m_pMaterialBuffer 20 ∈
        (OnNewContentLoaded s pContentBlock uninit).bindings ∧
      Binding.SetInfoBufferSRV InfoBuffer.m_pInstanceBuffer 21 ∈
        (OnNewContentLoaded s pContentBlock uninit).bindings ∧
      Binding.SetInfoBufferSRV InfoBuffer.m_pSurfaceIDsBuffer 22 ∈
        (OnNewContentLoaded s pContentBlock uninit).bindings ∧
      Binding.SetInfoBufferSRV InfoBuffer.m_pSurfaceBuffer 23 ∈
        (OnNewContentLoaded s pContentBlock uninit).bindings) := by
  generalize hT : (OnNewContentLoaded s pContentBlock uninit).state.m_RTInfoTables = T
    at h₁ h₂ h₃ h₄ ⊢
  have hb : (OnNewContentLoaded s pContentBlock uninit).bindings =
      uploadBindings T ++ (bindTables T).1 := by rw [← hT]; rfl
  rw [hb, bindTables_within T h₁ h₄ h₂ h₃]
  simp only [TEXTURE_BEGIN_SLOT, SAMPLER_BEGIN_SLOT, INDEX_BUFFER_BEGIN_SLOT,
    VERTEX_BUFFER_BEGIN_SLOT]
  have hlen : ∀ {α : Type} (l : List α) (i : Nat) (x : α), l[i]? = some x → i < l.length :=
    fun l i x h => (List.getElem?_eq_some.mp h).1
  have hupload : ∀ b ∈ uploadBindings T, ∃ (buffer : InfoBuffer) (slot : Nat),
      b = Binding.SetInfoBufferSRV buffer slot ∧ 20 ≤ slot ∧ slot ≤ 23 := by
    intro b hb'
    unfold uploadBindings at hb'
    split at hb'
    · simp only [RAYTRACING_INFO_BEGIN_SLOT, List.mem_cons, List.mem_singleton,
        List.not_mem_nil, or_false] at hb'
      rcases hb' with h | h | h | h <;> exact ⟨_, _, h, by omega, by omega⟩
    · exact absurd hb' (List.not_mem_nil _)
  refine ⟨?_, ?_, ?_, ?_, ?_, ?_, ?_⟩
  · obtain ⟨m, hm, hreg⟩ := uploadBindings_registers T
    rw [List.map_append, List.map_append, List.map_append, List.map_append, hreg,
      bindLoop_registers (fun (b : BoundTexture) slot => Binding.SetTextureSRV b.pTexture slot)
        50 RegisterSpace.srv (fun _ _ => rfl),
      bindLoop_registers Binding.SetSampler 10 RegisterSpace.sampler (fun _ _ => rfl),
      bindLoop_registers Binding.SetBufferSRV 1050 RegisterSpace.srv (fun _ _ => rfl),
      bindLoop_registers Binding.SetBufferSRV 21050 RegisterSpace.srv (fun _ _ => rfl)]
    exact nodup_slot_runs m _ _ _ _ hm h₁ h₂
  · intro b hmem
    simp only [List.mem_append, bindLoop_mem] at hmem
    rcases hmem with hmem | ((((⟨k, x, hk, hbx⟩ | ⟨k, x, hk, hbx⟩) | ⟨k, x, hk, hbx⟩)) |
      ⟨k, x, hk, hbx⟩)
    · exact Or.inl (hupload b hmem)
    · have := hlen _ _ _ hk
      exact Or.inr (Or.inl ⟨k, x, hk, by rw [hbx]; congr 1; omega, by omega⟩)
    · have := hlen _ _ _ hk
      exact Or.inr (Or.inr (Or.inr (Or.inr
        ⟨k, x, hk, by rw [hbx]; congr 1; omega, by omega⟩)))
    · have := hlen _ _ _ hk
      exact Or.inr (Or.inr (Or.inl ⟨k, x, hk, by rw [hbx]; congr 1; omega, by omega⟩))
    · have := hlen _ _ _ hk
      exact Or.inr (Or.inr (Or.inr (Or.inl
        ⟨k, x, hk, by rw [hbx]; congr 1; omega, by omega⟩)))
  · intro i e hi
    simp only [List.mem_append, bindLoop_mem]
    exact Or.inr (Or.inl (Or.inl (Or.inl ⟨i, e, hi, by congr 1; omega⟩)))
  · intro i p hi
    simp only [List.mem_append, bindLoop_mem]
    exact Or.inr (Or.inl (Or.inr ⟨i, p, hi, by congr 1; omega⟩))
  · intro i p hi
    simp only [List.mem_append, bindLoop_mem]
    exact Or.inr (Or.inr ⟨i, p, hi, by congr 1; omega⟩)
  · intro i x hi
    simp only [List.mem_append, bindLoop_mem]
    exact Or.inr (Or.inl (Or.inl (Or.inr ⟨i, x, hi, by congr 1; omega⟩)))
  · intro hpos
    simp only [uploadBindings, hpos, if_true, RAYTRACING_INFO_BEGIN_SLOT, List.mem_append,
      List.mem_cons, true_or, or_true, and_self]

/-- C30, witness: a load of one material with an albedo texture and of the meshes of
`twoMeshBlock` into a freshly constructed module; the calls of its bind step bind pairwise
different registers. -/
theorem C30_bind_slots_disjoint_witness :
    (OnNewContentLoaded {}
      { Materials := [pbrAlbedoOnly 100 7 0],
        EntityDataBlocks := twoMeshBlock.EntityDataBlocks }
      (fun _ => { materialInfo := ⟨0, 0, 0, 0, 0, 0, 0, 0, 0⟩, samplerIndex := 0 })
      ).state.m_RTInfoTables.m_Textures.length ≤ 1000 ∧
    ((OnNewContentLoaded {}
      { Materials := [pbrAlbedoOnly 100 7 0],
        EntityDataBlocks := twoMeshBlock.EntityDataBlocks }
      (fun _ => { materialInfo := ⟨0, 0, 0, 0, 0, 0, 0, 0, 0⟩, samplerIndex := 0 })
      ).bindings.map Binding.register).Nodup :=
  ⟨by decide,
    (C30_bind_slots_disjoint {}
      { Materials := [pbrAlbedoOnly 100 7 0],
        EntityDataBlocks := twoMeshBlock.EntityDataBlocks }
      (fun _ => { materialInfo := ⟨0, 0, 0, 0, 0, 0, 0, 0, 0⟩, samplerIndex := 0 })
      (by decide) (by decide) (by decide) (by decide)).1⟩
end IvyRenderModule
